import Mathlib

/-!
Cryptography Resource Manager: the API servers and the dashboard client.

A shallow embedding of the request handlers of `server/minimal-api-server.js`
(the in-memory mock server), of the matching direct routes of `server/server.js`,
of the update route of `server/routes/resources.js` and of the client-side handlers
that talk to them.

Conventions of the embedding.

* JavaScript numbers are doubles.  The embedding holds the integer-valued ones as
  `Int`, with `2 ^ 1024` and its negative standing for the two infinities, and `NaN`
  as `none` in an `Option Int`.  Results that JavaScript rounds (`parseInt`, `+`) are
  rounded by `toDouble`, and numbers are printed by `numberToString`.  Fractions are
  outside the model.
* A parsed request body holds JSON values of depth at most one: primitives and flat
  objects of primitives (`JVal`).  Arrays and nested objects are outside the model.
  Converting an object to a string throws when it has an own property `toString`.
* Strings are sequences of Unicode scalar values (`String`), and upper/lower casing
  is the ASCII one; JavaScript works on UTF-16 code units with full Unicode casing.
  The two agree on ASCII text.
* A handler receives the request as Express hands it over: header names already
  lower-cased by Node, the route already matched, `req.body` already parsed and
  `req.file` already stored by multer.  Clock readings are inputs of the request.
-/

namespace CRM

/-! ## JavaScript values -/

/-- JSON primitives, plus `undefined` for an absent property. -/
inductive Prim where
  | undefined
  | null
  | bool (b : Bool)
  | num (n : Int)
  | str (s : String)
  deriving DecidableEq, Repr

/-- JSON values of depth at most one. -/
inductive JVal where
  | prim (p : Prim)
  | obj (fields : List (String × Prim))
  deriving DecidableEq, Repr

/-- Exceptions a handler body can raise. -/
inductive JsError where
  /-- `TypeError`: property `prop` read on `undefined` or `null`. -/
  | readOfNullish (prop : String)
  /-- `TypeError`: `x.prop(...)` where `x.prop` is not callable. -/
  | notAFunction (prop : String)
  /-- `TypeError`: an object that cannot be converted to a primitive value. -/
  | cannotConvert
  deriving DecidableEq, Repr

/-- JavaScript truthiness (`ToBoolean`) of a primitive. -/
def Prim.truthy : Prim → Bool
  | .undefined => false
  | .null => false
  | .bool b => b
  | .num n => n != 0
  | .str s => s != ""

/-- JavaScript truthiness (`ToBoolean`): every object is truthy. -/
def JVal.truthy : JVal → Bool
  | .prim p => p.truthy
  | .obj _ => true

/-! ## Numbers -/

/-- The number of binary digits of `v`, for a fuel of at least that number. -/
def bitLength : Nat → Nat → Nat
  | 0, _ => 0
  | fuel + 1, v => if v = 0 then 0 else bitLength fuel (v / 2) + 1

/-- The double nearest to a natural number, ties going to the even significand: below
`2 ^ 53` every integer is a double; above, the 53 leading bits are kept and the rest
is rounded; a result of `2 ^ 1024` or more, which has more than 1024 binary digits, is
the infinity, written `2 ^ 1024`. -/
def roundNat (v : Nat) : Nat :=
  if v < 9007199254740992 then v
  else
    let e := bitLength v v - 53
    let q := v / 2 ^ e
    let r := v % 2 ^ e
    let half := 2 ^ (e - 1)
    let q' := if half < r ∨ (r = half ∧ q % 2 = 1) then q + 1 else q
    if 1024 < bitLength (q' * 2 ^ e) (q' * 2 ^ e) then 2 ^ 1024 else q' * 2 ^ e

/-- The double nearest to an integer. -/
def toDouble (v : Int) : Int :=
  if v < 0 then -((roundNat v.natAbs : Nat) : Int) else ((roundNat v.natAbs : Nat) : Int)

/-- The decimals with 1 to 17 significant digits next to `x`, shortest first and, for
a number of digits, the one closer to `x` first (the even one on a tie). -/
def decimalCandidates (x : Nat) : List Nat :=
  let n := (Nat.toDigits 10 x).length
  (List.range 17).flatMap fun i =>
    let k := i + 1
    if k ≤ n then
      let p := 10 ^ (n - k)
      let lo := x / p * p
      let hi := lo + p
      if x - lo < hi - x ∨ (x - lo = hi - x ∧ x / p % 2 = 0) then [lo, hi] else [hi, lo]
    else []

/-- The decimal with the fewest significant digits whose nearest double is `x`, as
`Number::toString` chooses its digits. -/
def shortestDecimal (x : Nat) : Nat :=
  match (decimalCandidates x).find? (fun y => roundNat y == x) with
  | some y => y
  | none => x

/-- The exponent form `d.ddde+n` of a positive integer. -/
def exponentForm (y : Nat) : String :=
  let digits := Nat.toDigits 10 y
  let significant := (digits.reverse.dropWhile (· == '0')).reverse
  let exponent := toString (digits.length - 1)
  match significant with
  | [] => "0"
  | [d] => String.mk [d] ++ "e+" ++ exponent
  | d :: rest => String.mk (d :: '.' :: rest) ++ "e+" ++ exponent

/-- JavaScript `Number::toString` on an integer-valued double: the decimal digits
below `2 ^ 53`; above, the shortest digits that read back as the number, padded with
zeros below `10 ^ 21` and in exponent form from there on; `Infinity` for the
infinities. -/
def numberToString (n : Int) : String :=
  if n.natAbs < 9007199254740992 then toString n
  else if 1024 < bitLength n.natAbs n.natAbs then (if n < 0 then "-Infinity" else "Infinity")
  else if n.natAbs < 1000000000000000000000 then
    toString (if n < 0 then -(shortestDecimal n.natAbs : Int) else (shortestDecimal n.natAbs : Int))
  else (if n < 0 then "-" else "") ++ exponentForm (shortestDecimal n.natAbs)

/-- JavaScript `ToString` of a primitive, as used by template literals. -/
def Prim.toStr : Prim → String
  | .undefined => "undefined"
  | .null => "null"
  | .bool true => "true"
  | .bool false => "false"
  | .num n => numberToString n
  | .str s => s

/-- JavaScript `ToString`, as template literals and `parseInt` apply it.  A plain
object renders as `[object Object]` through the inherited `toString`.  An object with
an own property `toString`, which is never callable when it comes from JSON, falls to
`valueOf`, which gives no primitive either, and the conversion throws. -/
def JVal.toStr : JVal → Except JsError String
  | .prim p => .ok p.toStr
  | .obj fields =>
    if fields.any (fun f => f.1 == "toString") then .error .cannotConvert
    else .ok "[object Object]"

/-- The expression `a || b`. -/
def JVal.orElse (a b : JVal) : JVal := if a.truthy then a else b

/-- Own-property lookup in a flat object; an absent key reads as `undefined`. -/
def lookupField (k : String) : List (String × Prim) → Prim
  | [] => .undefined
  | (k', v) :: rest => if k' = k then v else lookupField k rest

/-- The expression `v.k` for a data property `k` that is not a built-in member of
strings, numbers or booleans (the handlers read `type` and `content`): it throws on
`undefined` and `null`, reads the property of an object, and is `undefined` on the
other primitives. -/
def JVal.getProp (v : JVal) (k : String) : Except JsError JVal :=
  match v with
  | .prim .undefined => .error (.readOfNullish k)
  | .prim .null => .error (.readOfNullish k)
  | .prim _ => .ok (.prim .undefined)
  | .obj fields => .ok (.prim (lookupField k fields))

/-! ## `parseInt` -/

/-- The characters `parseInt` skips at the start (`StrWhiteSpaceChar`). -/
def isStrWhiteSpace (c : Char) : Bool :=
  let n := c.toNat
  n == 0x09 || n == 0x0A || n == 0x0B || n == 0x0C || n == 0x0D || n == 0x20 ||
  n == 0xA0 || n == 0x1680 || (0x2000 ≤ n && n ≤ 0x200A) || n == 0x2028 ||
  n == 0x2029 || n == 0x202F || n == 0x205F || n == 0x3000 || n == 0xFEFF

/-- The value of a character as a digit of the given radix, if it is one. -/
def digitIn (radix : Nat) (c : Char) : Option Nat :=
  let n := c.toNat
  let d : Option Nat :=
    if 48 ≤ n ∧ n ≤ 57 then some (n - 48)
    else if 97 ≤ n ∧ n ≤ 122 then some (n - 87)
    else if 65 ≤ n ∧ n ≤ 90 then some (n - 55)
    else none
  match d with
  | some v => if v < radix then some v else none
  | none => none

/-- The number denoted by the longest prefix of digits, on top of `acc`. -/
def digitsValue (radix : Nat) : Nat → List Char → Nat
  | acc, [] => acc
  | acc, c :: cs =>
    match digitIn radix c with
    | some d => digitsValue radix (acc * radix + d) cs
    | none => acc

/-- The sign prefix of `parseInt`: whether it is `-`, and the rest. -/
def splitSign : List Char → Bool × List Char
  | '-' :: r => (true, r)
  | '+' :: r => (false, r)
  | cs => (false, cs)

/-- The radix prefix of `parseInt` without a radix argument: `0x`/`0X` selects 16. -/
def splitRadix : List Char → Nat × List Char
  | '0' :: 'x' :: r => (16, r)
  | '0' :: 'X' :: r => (16, r)
  | cs => (10, cs)

/-- The function `parseInt(s)` on a string, `none` standing for `NaN`: the integer the
digits denote, rounded to a double. -/
def parseIntStr (s : String) : Option Int :=
  let (neg, cs) := splitSign (s.data.dropWhile isStrWhiteSpace)
  let (radix, ds) := splitRadix cs
  match ds with
  | [] => none
  | c :: _ =>
    if (digitIn radix c).isSome then
      let v : Int := (digitsValue radix 0 ds : Nat)
      some (toDouble (if neg then -v else v))
    else none

/-- The function `parseInt(v)`: the argument is first converted with `ToString`, which
may throw. -/
def parseInt (v : JVal) : Except JsError (Option Int) :=
  match v.toStr with
  | .error e => .error e
  | .ok s => .ok (parseIntStr s)

/-- The decimal digit characters `0` to `9`. -/
def IsDecimal (c : Char) : Prop := ∃ d, d < 10 ∧ c = Nat.digitChar d

/-- A JavaScript number as a handler can hold it: an integer, or `none` for `NaN`. -/
abbrev JsNum := Option Int

/-- Strict equality `a === b` of two numbers: `NaN` equals nothing, itself included. -/
def JsNum.strictEq : JsNum → JsNum → Bool
  | some a, some b => a == b
  | _, _ => false

/-- The call `s.toLowerCase()` on the letters `A` to `Z`; every other character is
left as it is, where JavaScript maps the other cased letters by the Unicode tables.
None of those maps to a letter of the extensions the handlers test, and header names
are ASCII. -/
def lowerAscii (s : String) : String := String.mk (s.data.map Char.toLower)

/-- The call `s.toUpperCase()` on the letters `a` to `z`; every other character is
left as it is, where JavaScript maps the other cased letters by the Unicode tables, so
the value is that of the code for ASCII strings. -/
def upperAscii (s : String) : String := String.mk (s.data.map Char.toUpper)

/-- The call `s.substring(0, n)`. -/
def substring0 (n : Nat) (s : String) : String := String.mk (s.data.take n)

/-- The call `arr.findIndex(p)`, `none` standing for `-1`. -/
def findIndex {α : Type} (p : α → Bool) : List α → Option Nat
  | [] => none
  | x :: xs => if p x then some 0 else (findIndex p xs).map (· + 1)

/-- The in-place update `arr[i] = f(arr[i])` of an existing index. -/
def updateAt {α : Type} (f : α → α) : Nat → List α → List α
  | _, [] => []
  | 0, x :: xs => f x :: xs
  | i + 1, x :: xs => x :: updateAt f i xs

/-! ## Data model of the mock server -/

/-- The identity attached to `req.user`. -/
structure User where
  id : Int
  firstName : String
  lastName : String
  email : String
  role : String
  deriving DecidableEq, Repr

/-- The object `req.file` left by `upload.single('pdfFile')`. -/
structure UploadedFile where
  originalname : String
  filename : String
  mimetype : String
  path : String
  size : Nat
  deriving DecidableEq, Repr

/-- The `fileInfo` descriptor built by `POST /api/lectures`. -/
structure FileInfo where
  originalName : String
  filename : String
  mimetype : String
  path : String
  size : Nat
  url : String
  type : String
  deriving DecidableEq, Repr

/-- The `notes` value of a nested lecture entry: `{type, content}` or
`{type: 'pdf', content, url, fileInfo}`. -/
inductive Notes where
  | plain (type : JVal) (content : JVal)
  | pdf (content : String) (url : String) (fileInfo : FileInfo)
  deriving DecidableEq, Repr

/-- An entry of a course's nested `lectures` array. -/
structure NestedLecture where
  id : Int
  lectureNo : JsNum
  topic : JVal
  date : JVal
  notes : Notes
  deriving DecidableEq, Repr

/-- A row of `mockDatabase.courses`. -/
structure Course where
  id : Int
  name : String
  title : String
  code : String
  description : JVal
  professor_id : Prim
  created_by : Prim
  created_at : String
  updated_at : String
  lectures : List NestedLecture
  deriving DecidableEq, Repr

/-- A row of `mockDatabase.lectures`.  The key `file` is absent (`none`) on the seeded
row and present, possibly `null` (`some none`), on created rows. -/
structure Lecture where
  id : Int
  title : String
  course_id : JsNum
  lecture_date : JVal
  description : JVal
  slides_url : Option String
  video_url : Prim
  created_by : Prim
  created_at : String
  updated_at : String
  file : Option (Option FileInfo)
  deriving DecidableEq, Repr

/-- The object `mockDatabase`. -/
structure MockDatabase where
  courses : List Course
  lectures : List Lecture
  lastCourseId : Int
  lastLectureId : Int
  deriving DecidableEq, Repr

/-- The call `iso.split('T')[0]`. -/
def isoDate (iso : String) : String := String.mk (iso.data.takeWhile (· != 'T'))

/-- The successive readings of `new Date().toISOString()` while the module loads. -/
structure BootClock where
  courseCreatedAt : String
  courseUpdatedAt : String
  lectureDate : String
  lectureCreatedAt : String
  lectureUpdatedAt : String
  nestedDate : String
  deriving DecidableEq, Repr

/-- The state of `mockDatabase` once the module has loaded: one test course holding
one test lecture. -/
def initialDatabase (t : BootClock) : MockDatabase where
  courses := [{
    id := 1
    name := "Cryptography 101"
    title := "Cryptography 101"
    code := "CRY101"
    description := .prim (.str "Introduction to cryptography concepts and techniques")
    professor_id := .null
    created_by := .null
    created_at := t.courseCreatedAt
    updated_at := t.courseUpdatedAt
    lectures := [{
      id := 1
      lectureNo := some 1
      topic := .prim (.str "Introduction to Encryption")
      date := .prim (.str (isoDate t.nestedDate))
      notes := .plain (.prim (.str "url")) (.prim (.str "Basic encryption concepts and history")) }] }]
  lectures := [{
    id := 1
    title := "Lecture 1: Introduction to Encryption"
    course_id := some 1
    lecture_date := .prim (.str (isoDate t.lectureDate))
    description := .prim (.str "Basic encryption concepts and history")
    slides_url := none
    video_url := .null
    created_by := .null
    created_at := t.lectureCreatedAt
    updated_at := t.lectureUpdatedAt
    file := none }]
  lastCourseId := 1
  lastLectureId := 1

/-! ## Requests and responses -/

/-- The fields the handlers destructure from `req.body`; an absent field is
`undefined`. -/
structure Body where
  email : JVal := .prim .undefined
  password : JVal := .prim .undefined
  name : JVal := .prim .undefined
  description : JVal := .prim .undefined
  courseId : JVal := .prim .undefined
  lectureNo : JVal := .prim .undefined
  topic : JVal := .prim .undefined
  date : JVal := .prim .undefined
  notes : JVal := .prim .undefined
  deriving DecidableEq, Repr

/-- The routes registered by the mock server, with their path parameters; `unmatched`
is any other method and path, which falls to the final `app.use('*', ...)`.  The
unguarded file download route reads the disk and not the database, and is not part
of this type. -/
inductive Route where
  | getProfile
  | postLogin
  | getCourses
  | postCourses
  | getLectures
  | getLecturesByCourse (courseId : String)
  | postLectures
  | getLectureById (id : String)
  | unmatched
  deriving DecidableEq, Repr

/-- The two readings of `new Date().toISOString()` a create handler takes. -/
structure Clock where
  createdAt : String
  updatedAt : String
  deriving DecidableEq, Repr

/-- A request as a route handler sees it.  Header names are lower-case, as Node
stores them. -/
structure Request where
  headers : List (String × String)
  route : Route
  body : Body := {}
  file : Option UploadedFile := none
  clock : Clock := ⟨"", ""⟩
  deriving DecidableEq, Repr

/-- The call `req.header(name)`: a case-insensitive lookup of the header. -/
def Request.header (req : Request) (name : String) : Option String :=
  (req.headers.find? (fun h => h.1 == lowerAscii name)).map (·.2)

/-- The JSON body of `POST /api/auth/login`. -/
structure LoginResult where
  id : Int
  firstName : String
  lastName : String
  email : JVal
  token : String
  role : String
  redirectTo : String
  deriving DecidableEq, Repr

/-- The JSON bodies the handlers send. -/
inductive ResBody where
  /-- The body `{message}`. -/
  | message (message : String)
  /-- The body `{message: 'Server error', error: err.message}` of a `catch` block or
  of the error-handling middleware. -/
  | serverError (error : JsError)
  /-- The page Express's default error handler writes for an uncaught error; it is
  not JSON. -/
  | errorPage (error : JsError)
  /-- The body `{user, permissions}`. -/
  | profile (user : User) (permissions : List String)
  | login (result : LoginResult)
  | courses (rows : List Course)
  | lectures (rows : List Lecture)
  | lecture (row : Lecture)
  /-- The body `{message, courseId}`. -/
  | courseCreated (message : String) (courseId : Int)
  /-- The body `{message, lectureId, fileInfo}`. -/
  | lectureCreated (message : String) (lectureId : Int) (fileInfo : Option FileInfo)
  deriving DecidableEq, Repr

/-- An HTTP response: status code and JSON body. -/
structure Response where
  status : Nat
  body : ResBody
  deriving DecidableEq, Repr

/-! ## The Auth Gate and the auth routes -/

/-- The fixed identity both gates attach to the request. -/
def mockUser : User :=
  { id := 1, firstName := "Mock", lastName := "User", email := "admin@example.com",
    role := "admin" }

/-- The test `!token` on the result of `req.header(...)`: an absent header and the
empty string are falsy. -/
def tokenMissing (token : Option String) : Bool :=
  match token with
  | none => true
  | some t => t == ""

/-- The response `res.status(401).json({ message: 'No token, authorization denied' })`. -/
def unauthorized : Response := ⟨401, .message "No token, authorization denied"⟩

/-- The middleware `verifyToken` of the mock server: `.error r` when it answers `r`
itself, `.ok user` when it sets `req.user = user` and calls `next()`. -/
def verifyToken (req : Request) : Except Response User :=
  if tokenMissing (req.header "x-auth-token") then .error unauthorized
  else .ok mockUser

/-- The middleware `directVerifyToken` of `server.js`. -/
def directVerifyToken (req : Request) : Except Response User :=
  if tokenMissing (req.header "x-auth-token") then .error unauthorized
  else .ok mockUser

/-- The permission list of the profile routes. -/
def profilePermissions : List String :=
  ["manage_courses", "manage_lectures", "manage_projects", "manage_professors"]

/-- The handler of `GET /api/auth/profile`, after the gate (both servers). -/
def profileHandler (user : User) : Response :=
  ⟨200, .profile user profilePermissions⟩

/-- The body both login handlers send. -/
def loginResult (body : Body) : LoginResult :=
  { id := 1
    firstName := "Mock"
    lastName := "User"
    email := body.email.orElse (.prim (.str "admin@example.com"))
    token := "mock-jwt-token-for-development-only"
    role := "admin"
    redirectTo := "/dashboard" }

/-- The handler of `POST /api/auth/login` of the mock server.  It first logs
`Login attempt: ${email || 'unknown'}`; when that conversion throws, the error
reaches the error-handling middleware registered last, which answers 500. -/
def loginHandler (body : Body) : Response :=
  match (body.email.orElse (.prim (.str "unknown"))).toStr with
  | .error e => ⟨500, .serverError e⟩
  | .ok _ => ⟨200, .login (loginResult body)⟩

/-- The handler of `POST /api/auth/login` of `server.js`.  It first logs
`Login attempt: ${email}`; the error-handling middleware of `server.js` is registered
before the routes, so a throw is answered by Express's default error handler. -/
def directLoginHandler (body : Body) : Response :=
  match body.email.toStr with
  | .error e => ⟨500, .errorPage e⟩
  | .ok _ => ⟨200, .login (loginResult body)⟩

/-- The route `GET /api/auth/profile` of `server.js`: gate, then handler. -/
def directProfile (req : Request) : Response :=
  match directVerifyToken req with
  | .error r => r
  | .ok user => profileHandler user

/-! ## Course and lecture handlers of the mock server -/

/-- The handler of `GET /api/courses`. -/
def getCoursesHandler (db : MockDatabase) : Response := ⟨200, .courses db.courses⟩

/-- The handler of `POST /api/courses`.  The counter is pre-incremented while the
object literal is built, before `name.substring` is evaluated; when that throws, the
`catch` block answers 500 and the increment stays. -/
def postCoursesHandler (req : Request) (db : MockDatabase) : Response × MockDatabase :=
  let id := db.lastCourseId + 1
  let db1 := { db with lastCourseId := id }
  match req.body.name with
  | .prim (.str name) =>
    let newCourse : Course := {
      id := id
      name := name
      title := name
      code := upperAscii (substring0 3 name) ++ numberToString id
      description := req.body.description
      professor_id := .null
      created_by := .null
      created_at := req.clock.createdAt
      updated_at := req.clock.updatedAt
      lectures := [] }
    (⟨201, .courseCreated "Course created successfully" newCourse.id⟩,
      { db1 with courses := db1.courses ++ [newCourse] })
  | .prim .undefined => (⟨500, .serverError (.readOfNullish "substring")⟩, db1)
  | .prim .null => (⟨500, .serverError (.readOfNullish "substring")⟩, db1)
  | _ => (⟨500, .serverError (.notAFunction "substring")⟩, db1)

/-- The handler of `GET /api/lectures`. -/
def getLecturesHandler (db : MockDatabase) : Response := ⟨200, .lectures db.lectures⟩

/-- The handler of `GET /api/lectures/course/:courseId`. -/
def getLecturesByCourseHandler (courseId : String) (db : MockDatabase) : Response :=
  let courseId := parseIntStr courseId
  ⟨200, .lectures (db.lectures.filter (fun lecture => lecture.course_id.strictEq courseId))⟩

/-- The `fileInfo` of `POST /api/lectures`: `null` without an upload. -/
def fileInfoOf (file : Option UploadedFile) : Option FileInfo :=
  file.map fun f => {
    originalName := f.originalname
    filename := f.filename
    mimetype := f.mimetype
    path := f.path
    size := f.size
    url := "/api/lectures/download/" ++ f.filename
    type := "pdf" }

/-- The `notesObj` of `POST /api/lectures`; without an upload it reads `notes.type`
and `notes.content`, which throws when `notes` is `undefined` or `null`. -/
def notesObjOf (fileInfo : Option FileInfo) (notes : JVal) : Except JsError Notes :=
  match fileInfo with
  | some fi => .ok (.pdf fi.originalName fi.url fi)
  | none =>
    match notes.getProp "type", notes.getProp "content" with
    | .ok type, .ok content =>
      .ok (.plain (type.orElse (.prim (.str "url"))) (content.orElse (.prim (.str ""))))
    | .error e, _ => .error e
    | _, .error e => .error e

/-- The expression `notes && notes.content ? notes.content : 'No description provided'`. -/
def descriptionOf (notes : JVal) : JVal :=
  if notes.truthy then
    match notes.getProp "content" with
    | .ok content => if content.truthy then content else .prim (.str "No description provided")
    | .error _ => .prim (.str "No description provided")
  else .prim (.str "No description provided")

/-- The call `mockDatabase.courses.findIndex(course => course.id === parseInt(courseId))`:
the callback, and with it `parseInt(courseId)`, runs once per course visited, so the
conversion of `courseId` throws as soon as there is a course to visit.  The answer is
the index found, with the value `parseInt(courseId)` has. -/
def findCourseIndex (courses : List Course) (courseId : JVal) :
    Except JsError (Option (Nat × JsNum)) :=
  match courses with
  | [] => .ok none
  | _ :: _ =>
    match parseInt courseId with
    | .error e => .error e
    | .ok parsed =>
      .ok ((findIndex (fun course => JsNum.strictEq (some course.id) parsed) courses).map
        fun courseIndex => (courseIndex, parsed))

/-- The handler of `POST /api/lectures`.  Every throw is answered by the `catch`
block with 500.  The conversion of `courseId` and the reading of `notes` come before
the counter is touched.  The title `Lecture ${lectureNo}: ${topic}` is built after
`++mockDatabase.lastLectureId`, so when one of its two conversions throws the
increment stays and nothing is pushed.  The later `parseInt(courseId)` and
`parseInt(lectureNo)` convert values that were converted before and give what those
conversions gave. -/
def postLecturesHandler (req : Request) (db : MockDatabase) : Response × MockDatabase :=
  let b := req.body
  match findCourseIndex db.courses b.courseId with
  | .error e => (⟨500, .serverError e⟩, db)
  | .ok none => (⟨404, .message "Course not found"⟩, db)
  | .ok (some (courseIndex, courseId)) =>
    let fileInfo := fileInfoOf req.file
    match notesObjOf fileInfo b.notes with
    | .error e => (⟨500, .serverError e⟩, db)
    | .ok notesObj =>
      match b.lectureNo.toStr with
      | .error e => (⟨500, .serverError e⟩, { db with lastLectureId := db.lastLectureId + 1 })
      | .ok lectureNo =>
        match b.topic.toStr with
        | .error e =>
          (⟨500, .serverError e⟩, { db with lastLectureId := db.lastLectureId + 1 })
        | .ok topic =>
          let newLecture : Lecture := {
            id := db.lastLectureId + 1
            title := "Lecture " ++ lectureNo ++ ": " ++ topic
            course_id := courseId
            lecture_date := b.date
            description := descriptionOf b.notes
            slides_url := fileInfo.map (·.url)
            video_url := .null
            created_by := .null
            created_at := req.clock.createdAt
            updated_at := req.clock.updatedAt
            file := some fileInfo }
          let entry : NestedLecture := {
            id := newLecture.id
            lectureNo := parseIntStr lectureNo
            topic := b.topic
            date := b.date
            notes := notesObj }
          (⟨201, .lectureCreated "Lecture created successfully" newLecture.id fileInfo⟩,
            { courses := updateAt (fun c => { c with lectures := c.lectures ++ [entry] })
                courseIndex db.courses
              lectures := db.lectures ++ [newLecture]
              lastCourseId := db.lastCourseId
              lastLectureId := newLecture.id })

/-- The handler of `GET /api/lectures/:id`. -/
def getLectureByIdHandler (id : String) (db : MockDatabase) : Response :=
  let lectureId := parseIntStr id
  match db.lectures.find? (fun lecture => JsNum.strictEq (some lecture.id) lectureId) with
  | none => ⟨404, .message "Lecture not found"⟩
  | some lecture => ⟨200, .lecture lecture⟩

/-- Whether the route is registered behind `verifyToken`. -/
def Route.guarded : Route → Bool
  | .postLogin => false
  | .unmatched => false
  | _ => true

/-- A route registered as `app.METHOD(path, verifyToken, handler)`: the handler runs
only when the gate calls `next()`; otherwise the gate's answer is the response and
the database is not touched. -/
def guardedBy (req : Request) (db : MockDatabase)
    (handler : User → Response × MockDatabase) : Response × MockDatabase :=
  match verifyToken req with
  | .error r => (r, db)
  | .ok user => handler user

/-- One request served by the mock server: the response and the database after it. -/
def handle (req : Request) (db : MockDatabase) : Response × MockDatabase :=
  match req.route with
  | .getProfile => guardedBy req db fun user => (profileHandler user, db)
  | .postLogin => (loginHandler req.body, db)
  | .getCourses => guardedBy req db fun _ => (getCoursesHandler db, db)
  | .postCourses => guardedBy req db fun _ => postCoursesHandler req db
  | .getLectures => guardedBy req db fun _ => (getLecturesHandler db, db)
  | .getLecturesByCourse courseId =>
    guardedBy req db fun _ => (getLecturesByCourseHandler courseId db, db)
  | .postLectures => guardedBy req db fun _ => postLecturesHandler req db
  | .getLectureById id => guardedBy req db fun _ => (getLectureByIdHandler id db, db)
  | .unmatched => (⟨404, .message "API endpoint not found"⟩, db)

/-! ## Client side -/

/-- The helper `getAuthHeader` of the dashboards, given `localStorage.getItem('token')`:
the request headers it contributes. -/
def getAuthHeader (token : Option String) : List (String × String) :=
  match token with
  | some t => if t != "" then [("Authorization", "Bearer " ++ t)] else []
  | none => []

/-- Header names as the server receives them: Node lower-cases them. -/
def onTheWire (headers : List (String × String)) : List (String × String) :=
  headers.map fun h => (lowerAscii h.1, h.2)

/-- A lecture record as `pages/Lectures.js` reads it from `GET /api/lectures`: the two
keys its fallback filter looks at. -/
structure ClientLecture where
  id : Int
  course_id : Prim
  courseId : Prim
  deriving DecidableEq, Repr

/-- Strict equality `a === b` of two primitives. -/
def Prim.strictEq : Prim → Prim → Bool
  | .undefined, .undefined => true
  | .null, .null => true
  | .bool a, .bool b => a == b
  | .num a, .num b => a == b
  | .str a, .str b => a == b
  | _, _ => false

/-- The expression `a || b` on primitives. -/
def Prim.orElse (a b : Prim) : Prim := if a.truthy then a else b

/-- The comparison `p === n` of a value with a `parseInt` result. -/
def Prim.strictEqNum (p : Prim) (n : JsNum) : Bool :=
  match p, n with
  | .num a, some b => a == b
  | _, _ => false

/-- The predicate of the fallback filter of `fetchLectures` in `pages/Lectures.js`. -/
def fallbackKeeps (selectedCourse : Prim) (lecture : ClientLecture) : Bool :=
  let lectureId := lecture.course_id.orElse lecture.courseId
  lectureId.strictEqNum (parseIntStr selectedCourse.toStr) ||
    lectureId.strictEq selectedCourse

/-- The fallback of `fetchLectures`: all lectures filtered on the client. -/
def fallbackFilter (selectedCourse : Prim) (all : List ClientLecture) : List ClientLecture :=
  all.filter (fallbackKeeps selectedCourse)

/-! ## Sample inputs -/

/-- A boot clock for the examples. -/
def sampleBoot : BootClock :=
  { courseCreatedAt := "2025-01-01T10:00:00.000Z"
    courseUpdatedAt := "2025-01-01T10:00:00.000Z"
    lectureDate := "2025-01-01T10:00:00.001Z"
    lectureCreatedAt := "2025-01-01T10:00:00.001Z"
    lectureUpdatedAt := "2025-01-01T10:00:00.001Z"
    nestedDate := "2025-01-01T10:00:00.002Z" }

/-- The seeded database at the sample boot clock. -/
def sampleDb : MockDatabase := initialDatabase sampleBoot

/-- A request for `route` carrying the token `t` in `x-auth-token` and the body `b`. -/
def authedWith (t : String) (route : Route) (b : Body) : Request :=
  { headers := [("x-auth-token", t)], route := route, body := b,
    clock := ⟨"2025-01-02T09:00:00.000Z", "2025-01-02T09:00:00.000Z"⟩ }

/-- A request for `route` carrying the token `t` in `x-auth-token` and an empty body. -/
def authed (t : String) (route : Route) : Request := authedWith t route {}

/-- A login request without any header, with the given email and no password. -/
def loginAs (email : String) : Request :=
  { headers := [], route := .postLogin, body := { email := .prim (.str email) } }

/-- A login request whose email is the JSON object `{"toString": 1}`. -/
def loginWithObjectEmail : Request :=
  { headers := [], route := .postLogin,
    body := { email := .obj [("toString", .num 1)], password := .prim (.str "x") } }

/-- A request for `route` whose headers are those the dashboard's `getAuthHeader`
contributes for the stored token `t`. -/
def viaDashboard (t : Option String) (route : Route) : Request :=
  { headers := onTheWire (getAuthHeader t), route := route }

/-- A lecture creation for the seeded course with a number and notes but no topic. -/
def lectureWithoutTopic : Request :=
  authedWith "t" .postLectures
    { courseId := .prim (.num 1), lectureNo := .prim (.str "2"),
      date := .prim (.str "2025-01-02"),
      notes := .obj [("type", .str "url"), ("content", .str "https://example.org/l2")] }

/-- A lecture creation for course 7, which the seeded database does not have. -/
def lectureForCourse7 : Request :=
  authedWith "t" .postLectures
    { courseId := .prim (.str "7"), lectureNo := .prim (.str "1"),
      topic := .prim (.str "RSA"), notes := .obj [("content", .str "x")] }

/-- A lecture creation whose `courseId` is the JSON object `{"toString": 1}`. -/
def lectureForObjectCourse : Request :=
  authedWith "t" .postLectures
    { courseId := .obj [("toString", .num 1)], lectureNo := .prim (.str "1"),
      topic := .prim (.str "RSA"), notes := .obj [("content", .str "x")] }

/-! ## Reachable states of the mock server -/

/-- The states of `mockDatabase` the mock server can be in: the seeded state, and the
state after one more request served from such a state.  The download route, which
`Route` leaves out, does not mention `mockDatabase`. -/
inductive Reachable (boot : BootClock) : MockDatabase → Prop where
  | init : Reachable boot (initialDatabase boot)
  | step (req : Request) {db : MockDatabase} :
    Reachable boot db → Reachable boot (handle req db).2

/-- Referential integrity of the mock database: every lecture row points to the id of
some course row. -/
def ReferentialIntegrity (db : MockDatabase) : Prop :=
  ∀ lecture ∈ db.lectures, ∃ course ∈ db.courses, lecture.course_id = some course.id

/-- A course creation on the seeded database, followed by a lecture for the new
course 2. -/
def sampleSession : MockDatabase :=
  (handle (authedWith "t" .postLectures
      { courseId := .prim (.str "2"), lectureNo := .prim (.num 1),
        topic := .prim (.str "One-time pad"), notes := .obj [("content", .str "otp")] })
    (handle (authedWith "t" .postCourses { name := .prim (.str "Intro to Crypto") })
      sampleDb).2).2

/-! ## The direct lecture creation of `server.js` -/

/-- The function `parseInt(s, 10)` on a string: as `parseInt(s)`, but the radix is
given and no `0x` prefix is recognised. -/
def parseIntStrRadix10 (s : String) : Option Int :=
  let (neg, cs) := splitSign (s.data.dropWhile isStrWhiteSpace)
  match cs with
  | [] => none
  | c :: _ =>
    if (digitIn 10 c).isSome then
      let v : Int := (digitsValue 10 0 cs : Nat)
      some (toDouble (if neg then -v else v))
    else none

/-- The expression `parseInt(lectureNo, 10) || 1`: `NaN` and `0` are falsy; the
conversion of `lectureNo` to a string may throw. -/
def lectureNumberOf (lectureNo : JVal) : Except JsError Int :=
  match lectureNo.toStr with
  | .error e => .error e
  | .ok s =>
    match parseIntStrRadix10 s with
    | some n => .ok (if n != 0 then n else 1)
    | none => .ok 1

/-- What the database answers during one direct lecture creation: the rows of
`SELECT id FROM users LIMIT 1` (their ids) and the `insertId` of the `INSERT`, or the
message of the error `executeQuery` throws; `random` is the value of
`Math.floor(Math.random() * 1000)` the fallback draws. -/
structure DirectReplies where
  users : Except String (List Int)
  insert : Except String Int
  random : Nat

/-- The positional parameters `[title, courseId, date, notes.content, createdBy]` of
the `INSERT INTO lectures`. -/
structure LectureInsert where
  title : String
  course_id : JVal
  lecture_date : JVal
  description : JVal
  created_by : Option Int
  deriving DecidableEq, Repr

/-- The JSON bodies of the direct lecture creation. -/
inductive DirectResBody where
  /-- The body `{message: 'Server error', error: err.message}`. -/
  | serverError (error : String)
  /-- The body `{message, lectureId}`. -/
  | created (message : String) (lectureId : Int)
  deriving DecidableEq, Repr

/-- The outcome of a direct lecture creation: the response and the `INSERT`
statements handed to `executeQuery`, by their parameters. -/
structure DirectOutcome where
  status : Nat
  body : DirectResBody
  inserts : List LectureInsert
  deriving DecidableEq, Repr

/-- The parameters of the `INSERT` built inside the inner `try`: the lecture number,
the title template and `notes.content` are evaluated in that order, and each may
throw. -/
def directQueryParams (body : Body) (createdBy : Option Int) : Except JsError LectureInsert :=
  match lectureNumberOf body.lectureNo with
  | .error e => .error e
  | .ok lectureNumber =>
    match body.topic.toStr with
    | .error e => .error e
    | .ok topic =>
      match body.notes.getProp "content" with
      | .error e => .error e
      | .ok content =>
        .ok { title := "Lecture " ++ numberToString lectureNumber ++ ": " ++ topic,
              course_id := body.courseId, lecture_date := body.date,
              description := content, created_by := createdBy }

/-- The handler of `POST /api/lectures` in `server.js`, after `directVerifyToken`.
A failing user lookup reaches the outer `catch`; inside the inner `try`, building the
parameters or the `INSERT` may throw, and the inner `catch` then answers 201 with a
simulated id. -/
def directPostLecturesHandler (body : Body) (db : DirectReplies) : DirectOutcome :=
  match db.users with
  | .error message => ⟨500, .serverError message, []⟩
  | .ok users =>
    let createdBy : Option Int := users.head?
    match directQueryParams body createdBy with
    | .error _ =>
      ⟨201, .created "Lecture created successfully (mock)" (db.random + 1), []⟩
    | .ok queryParams =>
      match db.insert with
      | .ok insertId => ⟨201, .created "Lecture created successfully" insertId, [queryParams]⟩
      | .error _ =>
        ⟨201, .created "Lecture created successfully (mock)" (db.random + 1), [queryParams]⟩

/-- The route `POST /api/lectures` of `server.js`: gate, then handler. -/
def directPostLectures (req : Request) (db : DirectReplies) : Except Response DirectOutcome :=
  match directVerifyToken req with
  | .error r => .error r
  | .ok _ => .ok (directPostLecturesHandler req.body db)

/-- A database that has one user and accepts the `INSERT` as row 5. -/
def sampleReplies : DirectReplies := { users := .ok [1], insert := .ok 5, random := 41 }

/-- A lecture body with the number written `03`. -/
def lectureNumber03 : Body :=
  { courseId := .prim (.num 1), lectureNo := .prim (.str "03"), topic := .prim (.str "RSA"),
    date := .prim (.str "2025-01-02"), notes := .obj [("content", .str "rsa")] }

/-- A lecture body whose number is `2 ^ 53 + 1`, written in decimal. -/
def lectureNumberBig : Body :=
  { courseId := .prim (.num 1), lectureNo := .prim (.str "9007199254740993"),
    topic := .prim (.str "RSA"), date := .prim (.str "2025-01-02"),
    notes := .obj [("content", .str "rsa")] }

/-- A lecture body whose number is written `-5`. -/
def lectureNumberNegative : Body :=
  { courseId := .prim (.num 1), lectureNo := .prim (.str "-5"),
    topic := .prim (.str "RSA"), date := .prim (.str "2025-01-02"),
    notes := .obj [("content", .str "rsa")] }

/-! ## Uploads and downloads -/

/-- The last portion of a path, reversed: trailing slashes dropped, then everything
after the last remaining slash. -/
def lastPortionRev (path : List Char) : List Char :=
  (path.reverse.dropWhile (· == '/')).takeWhile (· != '/')

/-- The extension of a last portion given reversed: from its last `.` to its end;
empty when it has no `.`, when its only `.` is its first character, and when it is
`..`. -/
def extnameOfPortionRev (baseRev : List Char) : String :=
  match baseRev.dropWhile (· != '.') with
  | [] => ""
  | [_] => ""
  | _ :: _ :: _ =>
    if baseRev = ['.', '.'] then ""
    else String.mk ('.' :: (baseRev.takeWhile (· != '.')).reverse)

/-- Node's `path.extname` (POSIX): the extension of the last portion of the path. -/
def extname (path : String) : String := extnameOfPortionRev (lastPortionRev path.data)

/-- The `filename` callback of the lecture upload storage of the mock server, given
the readings of `Date.now()` and `Math.round(Math.random() * 1E9)`. -/
def lectureStorageFilename (fieldname originalname : String) (now random : Nat) : String :=
  let uniqueSuffix := toString now ++ "-" ++ toString random
  let ext := extname originalname
  fieldname ++ "-" ++ uniqueSuffix ++ ext

/-- The `filename` callback of the Resources upload storage, given the reading of
`Date.now()`. -/
def resourcesStorageFilename (originalname : String) (now : Nat) : String :=
  toString now ++ "-" ++ originalname

/-- Whether `pattern` occurs in `s` as a contiguous run of characters. -/
def occursIn (pattern s : List Char) : Bool :=
  s.tails.any (fun t => pattern.isPrefixOf t)

/-- The call `/pdf|ppt|pptx|doc|docx/.test(s)`: the expression is not anchored, so it
holds when one of the alternatives occurs anywhere in `s`. -/
def filetypesTest (s : String) : Bool :=
  ["pdf", "ppt", "pptx", "doc", "docx"].any (fun alt => occursIn alt.data s.data)

/-- What a multer `fileFilter` hands to its callback. -/
inductive FilterResult where
  | accept
  | reject (error : String)
  deriving DecidableEq, Repr

/-- The `fileFilter` of the Resources upload. -/
def resourcesFileFilter (originalname : String) : FilterResult :=
  let extname := filetypesTest (lowerAscii (extname originalname))
  if extname then .accept
  else .reject "Only PDF, PPT, PPTX, DOC, DOCX files are allowed"

/-- The content type the download route infers from a lower-cased extension. -/
def contentTypeOf (ext : String) : String :=
  if ext = ".pdf" then "application/pdf"
  else if ext = ".doc" ∨ ext = ".docx" then "application/msword"
  else if ext = ".ppt" ∨ ext = ".pptx" then "application/vnd.ms-powerpoint"
  else if ext = ".xls" ∨ ext = ".xlsx" then "application/vnd.ms-excel"
  else if ext = ".zip" then "application/zip"
  else if ext = ".txt" then "text/plain"
  else "application/octet-stream"

/-- The answers of the download route: a JSON body, or the stored file streamed with
the two headers the handler sets. -/
inductive DownloadResponse where
  | json (status : Nat) (message : String)
  | file (contentDisposition : String) (contentType : String)
  deriving DecidableEq, Repr

/-- Whether Node accepts the text as a header value: `res.setHeader` throws on a
character other than the tab and the ranges U+0020 to U+007E and U+0080 to U+00FF. -/
def validHeaderValue (value : String) : Bool :=
  value.data.all fun c =>
    c.toNat == 0x09 || (0x20 ≤ c.toNat && c.toNat ≤ 0x7E) || (0x80 ≤ c.toNat && c.toNat ≤ 0xFF)

/-- The handler of `GET /api/lectures/download/:filename`; `existsSync` tells whether
the file `uploads/<filename>` of the server directory exists.  When `res.setHeader`
rejects the `Content-Disposition` value, the `catch` block answers 500. -/
def downloadHandler (existsSync : String → Bool) (filename : String) : DownloadResponse :=
  if !existsSync filename then .json 404 "File not found"
  else
    let ext := lowerAscii (extname filename)
    let contentDisposition := "attachment; filename=\"" ++ filename ++ "\""
    if validHeaderValue contentDisposition then .file contentDisposition (contentTypeOf ext)
    else .json 500 "Error downloading file"

/-- The object `req.file` multer leaves for a PDF uploaded to the lecture route under
the original name `originalname`. -/
def uploadedPdf (originalname : String) (now random : Nat) : UploadedFile :=
  { originalname := originalname
    filename := lectureStorageFilename "pdfFile" originalname now random
    mimetype := "application/pdf"
    path := "uploads/" ++ lectureStorageFilename "pdfFile" originalname now random
    size := 1024 }

/-- A lecture creation for the seeded course with the PDF `notes.pdf` attached. -/
def lectureWithPdf : Request :=
  { authedWith "t" .postLectures
      { courseId := .prim (.str "1"), lectureNo := .prim (.str "2"),
        topic := .prim (.str "Block ciphers"), date := .prim (.str "2025-01-02") } with
    file := some (uploadedPdf "notes.pdf" 1700000000000 123456789) }

/-! ## Projects: the form payload and the dashboard table -/

/-- The escape `JSON.stringify` writes for one character of a string. -/
def escapeChar (c : Char) : List Char :=
  if c = '"' then ['\\', '"']
  else if c = '\\' then ['\\', '\\']
  else if c = Char.ofNat 8 then ['\\', 'b']
  else if c = Char.ofNat 12 then ['\\', 'f']
  else if c = '\n' then ['\\', 'n']
  else if c = '\r' then ['\\', 'r']
  else if c = '\t' then ['\\', 't']
  else if c.toNat < 0x20 then
    ['\\', 'u', '0', '0', Nat.digitChar (c.toNat / 16), Nat.digitChar (c.toNat % 16)]
  else [c]

/-- The text `JSON.stringify` writes for a string: quoted and escaped. -/
def quoteJson (s : String) : List Char :=
  '"' :: (s.data.flatMap escapeChar ++ ['"'])

/-- The elements of an array after the first, each preceded by a comma, and the
closing bracket. -/
def stringifyTail : List String → List Char
  | [] => [']']
  | s :: rest => ',' :: (quoteJson s ++ stringifyTail rest)

/-- The call `JSON.stringify(items)` on an array of strings. -/
def jsonStringify (items : List String) : String :=
  match items with
  | [] => "[]"
  | s :: rest => String.mk ('[' :: (quoteJson s ++ stringifyTail rest))

/-- JSON whitespace. -/
def isJsonWhiteSpace (c : Char) : Bool :=
  c == ' ' || c == '\t' || c == '\n' || c == '\r'

/-- The character a one-letter escape stands for. -/
def unescape (e : Char) : Option Char :=
  if e = '"' then some '"'
  else if e = '\\' then some '\\'
  else if e = '/' then some '/'
  else if e = 'b' then some (Char.ofNat 8)
  else if e = 'f' then some (Char.ofNat 12)
  else if e = 'n' then some '\n'
  else if e = 'r' then some '\r'
  else if e = 't' then some '\t'
  else none

/-- The code unit written by the four hexadecimal digits of a `\u` escape. -/
def hex4 (a b c d : Char) : Option Nat :=
  match digitIn 16 a, digitIn 16 b, digitIn 16 c, digitIn 16 d with
  | some a, some b, some c, some d => some (((a * 16 + b) * 16 + c) * 16 + d)
  | _, _, _, _ => none

/-- Reads one unit of a JSON string body: the closing quote (`none`), or one
character, plain or escaped; with the text after it.  The answer is `none` on
malformed text, and on a `\u` escape of a surrogate code unit, which this model of
strings does not hold. -/
def readUnit : List Char → Option (Option Char × List Char)
  | [] => none
  | c :: rest =>
    if c = '"' then some (none, rest)
    else if c = '\\' then
      match rest with
      | [] => none
      | e :: rest' =>
        if e = 'u' then
          match rest' with
          | a :: b :: c :: d :: r =>
            match hex4 a b c d with
            | some n => if 0xD800 ≤ n ∧ n ≤ 0xDFFF then none else some (some (Char.ofNat n), r)
            | none => none
          | _ => none
        else
          match unescape e with
          | some ch => some (some ch, rest')
          | none => none
    else if c.toNat < 0x20 then none
    else some (some c, rest)

/-- Reads a JSON string after its opening quote: its characters, and the text after
its closing quote.  The fuel bounds the number of units read. -/
def parseStringBody : Nat → List Char → Option (List Char × List Char)
  | 0, _ => none
  | fuel + 1, cs =>
    match readUnit cs with
    | none => none
    | some (none, rest) => some ([], rest)
    | some (some ch, rest) => (parseStringBody fuel rest).map fun p => (ch :: p.1, p.2)

/-- Reads what follows an element of an array of strings: the remaining elements up to
the closing bracket, after which only whitespace may come. -/
def parseArrayTail : Nat → List Char → Option (List String)
  | 0, _ => none
  | fuel + 1, cs =>
    match cs.dropWhile isJsonWhiteSpace with
    | ']' :: r => if r.dropWhile isJsonWhiteSpace = [] then some [] else none
    | ',' :: r =>
      match r.dropWhile isJsonWhiteSpace with
      | '"' :: body =>
        match parseStringBody body.length body with
        | some (s, r') => (parseArrayTail fuel r').map fun l => String.mk s :: l
        | none => none
      | _ => none
    | _ => none

/-- What `JSON.parse` gives on a text, as far as the project table is concerned: an
array of strings, or anything else (a thrown `SyntaxError`, or another value). -/
inductive Parsed where
  | strings (items : List String)
  | other
  deriving DecidableEq, Repr

/-- The call `JSON.parse(text)` on the text of an array of strings. -/
def jsonParse (text : String) : Parsed :=
  match text.data.dropWhile isJsonWhiteSpace with
  | '[' :: rest =>
    match rest.dropWhile isJsonWhiteSpace with
    | ']' :: r => if r.dropWhile isJsonWhiteSpace = [] then .strings [] else .other
    | '"' :: body =>
      match parseStringBody body.length body with
      | some (s, r) =>
        match parseArrayTail text.data.length r with
        | some l => .strings (String.mk s :: l)
        | none => .other
      | none => .other
    | _ => .other
  | _ => .other

/-- A value of a project record: a primitive, or an array of strings. -/
inductive RecordValue where
  | prim (p : Prim)
  | strings (items : List String)
  deriving DecidableEq, Repr

/-- A project record: a JSON object, by its keys in order. -/
abbrev ProjectRecord := List (String × RecordValue)

/-- The expression `project.key`; an absent key reads as `undefined`. -/
def fieldOf (key : String) : ProjectRecord → RecordValue
  | [] => .prim .undefined
  | (k, v) :: rest => if k = key then v else fieldOf key rest

/-- The state `formData` of `AddProject`. -/
structure ProjectForm where
  title : String
  description : String
  type : String
  startDate : String
  endDate : String
  professor_id : String
  status : String
  technologies : List String
  members : List String
  publication_url : String
  deriving DecidableEq, Repr

/-- The object `projectData` that `handleSubmit` posts: the form with its two lists
replaced by their JSON texts. -/
def projectData (formData : ProjectForm) : ProjectRecord :=
  [ ("title", .prim (.str formData.title)),
    ("description", .prim (.str formData.description)),
    ("type", .prim (.str formData.type)),
    ("startDate", .prim (.str formData.startDate)),
    ("endDate", .prim (.str formData.endDate)),
    ("professor_id", .prim (.str formData.professor_id)),
    ("status", .prim (.str formData.status)),
    ("technologies", .prim (.str (jsonStringify formData.technologies))),
    ("members", .prim (.str (jsonStringify formData.members))),
    ("publication_url", .prim (.str formData.publication_url)) ]

/-- The `techArray` the project table of `DashboardCryptoIIITD` computes for a row; it
reads the key `tags`.  The result is `none` when `JSON.parse` gives `Parsed.other`,
where the array is either left empty or set to a value this model does not hold. -/
def techArrayOf (project : ProjectRecord) : Option (List String) :=
  match fieldOf "tags" project with
  | .strings items => some items
  | .prim (.str tags) =>
    if tags = "" then some []
    else
      match jsonParse tags with
      | .strings items => some items
      | .other => none
  | .prim _ => some []

/-- The form of the specification's example. -/
def sampleProject : ProjectForm :=
  { title := "Side channels", description := "Timing attacks", type := "Research",
    startDate := "2025-01-01", endDate := "", professor_id := "1", status := "Ongoing",
    technologies := ["Python", "TensorFlow"], members := ["Alice", "Bob"],
    publication_url := "" }

/-! ## The dashboards: deleting a course -/

/-- A lecture nested under a course in the state of the `Lectures` component. -/
structure NestedItem where
  id : Prim
  courseId : Prim
  lectureNo : Prim
  topic : Prim
  date : Prim
  notes : JVal
  deriving DecidableEq, Repr

/-- A course in the state `courses` of the `Lectures` component; `lectures` may be
absent. -/
structure CourseItem where
  id : Prim
  name : Prim
  description : Prim
  lectures : Option (List NestedItem)
  deriving DecidableEq, Repr

/-- What a handler of the `Lectures` component leaves: the state `courses`, and the
text of the `alert` it raised, if any. -/
structure LecturesOutcome where
  courses : List CourseItem
  alert : Option String
  deriving DecidableEq, Repr

namespace LecturesComponent

/-- The `dummyData` that `fetchCourses` puts in the state. -/
def dummyData : List CourseItem :=
  [ { id := .num 1, name := .str "Introduction to Cryptography",
      description := .str "An introductory course to cryptography concepts",
      lectures := some [
        { id := .num 1, courseId := .num 1, lectureNo := .str "1",
          topic := .str "Symmetric Key Cryptography", date := .str "2023-09-15",
          notes := .obj [("type", .str "url"), ("content", .str "https://example.com/notes1")] },
        { id := .num 2, courseId := .num 1, lectureNo := .str "2",
          topic := .str "Public Key Infrastructure", date := .str "2023-09-22",
          notes := .obj [("type", .str "url"), ("content", .str "https://example.com/notes2")] }] },
    { id := .num 2, name := .str "Advanced Encryption",
      description := .str "Advanced topics in modern encryption techniques",
      lectures := some [
        { id := .num 3, courseId := .num 2, lectureNo := .str "1",
          topic := .str "Quantum Cryptography", date := .str "2023-10-05",
          notes := .obj [("type", .str "url"), ("content", .str "https://example.com/notes3")] }] } ]

/-- The handler `handleDeleteCourse` of the `Lectures` component; `confirmed` is the
answer to `window.confirm`.  It makes no request: the state is filtered and the
success alert raised. -/
def handleDeleteCourse (confirmed : Bool) (courses : List CourseItem) (courseId : Prim) :
    LecturesOutcome :=
  if confirmed then
    { courses := courses.filter (fun course => !(course.id.strictEq courseId))
      alert := some "Course deleted successfully" }
  else { courses := courses, alert := none }

end LecturesComponent

/-- A course row in the state `courses` of `DashboardLectures`. -/
structure CourseRow where
  id : Prim
  title : Prim
  code : Prim
  description : Prim
  semester : Prim
  year : Prim
  professor_name : Prim
  deriving DecidableEq, Repr

/-- A lecture row in the state `lectures` of `DashboardLectures`. -/
structure LectureRow where
  id : Prim
  title : Prim
  description : Prim
  course_id : Prim
  course_title : Prim
  lecture_date : Prim
  slides_url : Prim
  video_url : Prim
  deriving DecidableEq, Repr

/-- The list states of `DashboardLectures`. -/
structure DashboardState where
  courses : List CourseRow
  lectures : List LectureRow
  deriving DecidableEq, Repr

namespace DashboardLectures

/-- The placeholder courses of `fetchData`. -/
def placeholderCourses : List CourseRow :=
  [ { id := .num 1, title := .str "Introduction to Cryptography", code := .str "CRYPT101",
      description := .str "An introductory course to cryptography concepts",
      semester := .str "Fall", year := .num 2023, professor_name := .str "Dr. Smith" },
    { id := .num 2, title := .str "Advanced Encryption", code := .str "CRYPT201",
      description := .str "Advanced topics in modern encryption techniques",
      semester := .str "Spring", year := .num 2023, professor_name := .str "Dr. Johnson" } ]

/-- The placeholder lectures of `fetchData`. -/
def placeholderLectures : List LectureRow :=
  [ { id := .num 1, title := .str "Symmetric Key Cryptography",
      description := .str "Introduction to symmetric key algorithms",
      course_id := .num 1, course_title := .str "Introduction to Cryptography",
      lecture_date := .str "2023-09-15", slides_url := .str "https://example.com/slides1.pdf",
      video_url := .str "https://example.com/video1.mp4" },
    { id := .num 2, title := .str "Public Key Infrastructure",
      description := .str "Understanding PKI and its applications",
      course_id := .num 2, course_title := .str "Advanced Encryption",
      lecture_date := .str "2023-10-20", slides_url := .str "https://example.com/slides2.pdf",
      video_url := .str "https://example.com/video2.mp4" } ]

/-- The handler `handleDeleteCourse` of `DashboardLectures`: the list states it leaves
and the text of the `alert` it raised, if any.  `confirmed` is the answer to
`window.confirm`, whose text announces that the associated lectures are deleted too,
and `deleted` tells whether the `DELETE /api/courses/<courseId>` request resolved. -/
def handleDeleteCourse (confirmed deleted : Bool) (state : DashboardState) (courseId : Prim) :
    DashboardState × Option String :=
  if confirmed then
    if deleted then
      ({ state with
          courses := state.courses.filter (fun course => !(course.id.strictEq courseId)) },
        none)
    else (state, some "Failed to delete course. Please try again later.")
  else (state, none)

/-- The state of the dashboard showing the placeholder data. -/
def placeholderState : DashboardState :=
  { courses := placeholderCourses, lectures := placeholderLectures }

end DashboardLectures

/-! ## Resources: updating a resource -/

/-- A row of the table `resources`. -/
structure ResourceRow where
  id : Int
  title : Prim
  description : Prim
  type : Prim
  url : Prim
  file_path : Prim
  created_by : Prim
  created_at : Prim
  updated_at : Prim
  deriving DecidableEq, Repr

/-- A row of `SELECT r.*, u.name as creator_name FROM resources r LEFT JOIN users u`. -/
structure JoinedResource where
  row : ResourceRow
  creator_name : Prim
  deriving DecidableEq, Repr

/-- The fields `PUT /api/resources/:id` destructures from `req.body`. -/
structure ResourceBody where
  title : JVal := .prim .undefined
  description : JVal := .prim .undefined
  type : JVal := .prim .undefined
  url : JVal := .prim .undefined
  deriving DecidableEq, Repr

/-- The positional parameters `[title, description, type, url, formattedDate, id]` of
the `UPDATE resources`. -/
structure ResourceUpdate where
  title : JVal
  description : JVal
  type : JVal
  url : JVal
  updated_at : String
  id : String
  deriving DecidableEq, Repr

/-- The statements the update route hands to `executeQuery`. -/
inductive ResourceStatement where
  | selectById (id : String)
  | update (params : ResourceUpdate)
  | selectJoinedById (id : String)
  deriving DecidableEq, Repr

/-- The persistence client `executeQuery` of `config/db`, which is not among the
sources, as the update route uses it, over a database state `σ`: each statement
answers its rows or the message of the error it throws; the `UPDATE` answers
`affectedRows` and leaves a new state. -/
structure ResourceStore (σ : Type) where
  selectById : σ → String → Except String (List ResourceRow)
  update : σ → ResourceUpdate → Except String Nat × σ
  selectJoinedById : σ → String → Except String (List JoinedResource)

/-- The call `s.replace(a, b)` with one-character strings: the first `a` becomes `b`. -/
def replaceFirst (a b : Char) : List Char → List Char
  | [] => []
  | c :: rest => if c = a then b :: rest else c :: replaceFirst a b rest

/-- The expression `now.toISOString().slice(0, 19).replace('T', ' ')`, given the ISO
text of `now`. -/
def formattedDate (iso : String) : String :=
  String.mk (replaceFirst 'T' ' ' (iso.data.take 19))

/-- The JSON body `{message}` or `{message, resource}` of the update route, with its
status. -/
structure ResourceResponse where
  status : Nat
  message : String
  resource : Option JoinedResource
  deriving DecidableEq, Repr

/-- What the update route leaves: the response, the database state, and the
statements it issued, in order. -/
structure ResourceOutcome (σ : Type) where
  response : ResourceResponse
  state : σ
  issued : List ResourceStatement

/-- The handler of `PUT /api/resources/:id`, after the `auth` and upload middlewares;
`iso` is the ISO text of the clock reading.  Every error thrown by a statement is
answered by the outer `catch`. -/
def putResourceHandler {σ : Type} (db : ResourceStore σ) (state : σ) (id : String)
    (body : ResourceBody) (iso : String) : ResourceOutcome σ :=
  match db.selectById state id with
  | .error _ => ⟨⟨500, "Server error", none⟩, state, [.selectById id]⟩
  | .ok checkResource =>
    if checkResource.length = 0 then
      ⟨⟨404, "Resource not found for update", none⟩, state, [.selectById id]⟩
    else
      let queryParams : ResourceUpdate :=
        { title := body.title, description := body.description, type := body.type,
          url := body.url, updated_at := formattedDate iso, id := id }
      match db.update state queryParams with
      | (.error _, state') =>
        ⟨⟨500, "Server error", none⟩, state', [.selectById id, .update queryParams]⟩
      | (.ok affectedRows, state') =>
        if affectedRows = 0 then
          ⟨⟨404, "Resource not updated - no matching record found", none⟩, state',
            [.selectById id, .update queryParams]⟩
        else
          match db.selectJoinedById state' id with
          | .error _ =>
            ⟨⟨500, "Server error", none⟩, state',
              [.selectById id, .update queryParams, .selectJoinedById id]⟩
          | .ok updatedResource =>
            ⟨⟨200, "Resource updated successfully", updatedResource.head?⟩, state',
              [.selectById id, .update queryParams, .selectJoinedById id]⟩

/-- The SQL value a statement parameter is stored as. -/
def sqlValue : JVal → Prim
  | .prim .undefined => .null
  | .prim p => p
  | .obj _ => .str "[object Object]"

/-- A database state: the tables `resources` and `users` (id and name). -/
structure Tables where
  resources : List ResourceRow
  users : List (Int × String)
  deriving DecidableEq, Repr

/-- Modelled from the spec: the persistence client `executeQuery` of `config/db`, which
is not among the sources, run on in-memory tables.  Parameters are substituted
positionally; a row matches the id parameter when the parameter is the decimal text
of its id; `UPDATE` replaces the five named columns of the matching rows and answers
their number; no statement fails. -/
def tableStore : ResourceStore Tables where
  selectById := fun t id => .ok (t.resources.filter (fun r => toString r.id == id))
  update := fun t p =>
    (.ok (t.resources.filter (fun r => toString r.id == p.id)).length,
      { t with resources := t.resources.map fun r =>
          if toString r.id == p.id then
            { r with title := sqlValue p.title, description := sqlValue p.description,
                     type := sqlValue p.type, url := sqlValue p.url,
                     updated_at := .str p.updated_at }
          else r })
  selectJoinedById := fun t id =>
    .ok ((t.resources.filter (fun r => toString r.id == id)).map fun r =>
      { row := r
        creator_name :=
          match t.users.find? (fun u => r.created_by == .num u.1) with
          | some u => .str u.2
          | none => .null })

/-- Tables with one user and two resources. -/
def sampleTables : Tables :=
  { users := [(1, "Dr. Jane Smith")]
    resources := [
      { id := 1, title := .str "Introduction to Symmetric Cryptography",
        description := .str "An overview", type := .str "video",
        url := .str "https://example.com/video1", file_path := .null, created_by := .num 1,
        created_at := .str "2025-01-01 10:00:00", updated_at := .null },
      { id := 2, title := .str "Public Key Infrastructure Explained",
        description := .str "Deep dive into PKI", type := .str "pdf",
        url := .str "https://example.com/pki-guide.pdf",
        file_path := .str "/uploads/resources/pki-guide.pdf", created_by := .num 1,
        created_at := .str "2025-01-01 10:00:00", updated_at := .null } ] }

/-- A new title and description for a resource. -/
def sampleUpdate : ResourceBody :=
  { title := .prim (.str "PKI explained"), description := .prim (.str "Second edition"),
    type := .prim (.str "pdf"), url := .prim (.str "https://example.com/pki-2.pdf") }

/-! ## The dashboards: fetching the lists -/

namespace DashboardLectures

/-- What the list request of `fetchData` gave for the active tab: the rows of
`response.data`, or `none` when the request failed. -/
inductive Fetched where
  | courses (response : Option (List CourseRow))
  | lectures (response : Option (List LectureRow))
  deriving DecidableEq, Repr

/-- The list states `fetchData` leaves for the active tab: the rows received when
there are some, the placeholder records otherwise. -/
def fetchData (fetched : Fetched) (state : DashboardState) : DashboardState :=
  match fetched with
  | .courses (some data) =>
    { state with courses := if data.length > 0 then data else placeholderCourses }
  | .courses none => { state with courses := placeholderCourses }
  | .lectures (some data) =>
    { state with lectures := if data.length > 0 then data else placeholderLectures }
  | .lectures none => { state with lectures := placeholderLectures }

end DashboardLectures

/-! ## Dates in MySQL format -/

/-- An instant by its UTC calendar fields, as `Date` reports them. -/
structure UtcInstant where
  year : Int
  month : Nat
  day : Nat
  hours : Nat
  minutes : Nat
  seconds : Nat
  milliseconds : Nat
  deriving DecidableEq, Repr

/-- The last `width` decimal digits of `n`, zero-padded: the decimal text of `n` padded
to `width` when `n < 10 ^ width`. -/
def padDigits : Nat → Nat → List Char
  | 0, _ => []
  | width + 1, n => padDigits width (n / 10) ++ [Nat.digitChar (n % 10)]

/-- The method `Date.prototype.toISOString`: `YYYY-MM-DDTHH:mm:ss.sssZ`, the year
written with a sign and six digits outside 0 to 9999. -/
def toISOString (d : UtcInstant) : String :=
  let year : List Char :=
    if 0 ≤ d.year ∧ d.year ≤ 9999 then padDigits 4 d.year.toNat
    else (if d.year < 0 then '-' else '+') :: padDigits 6 d.year.natAbs
  String.mk (year ++ '-' :: (padDigits 2 d.month ++ '-' :: (padDigits 2 d.day ++ 'T' ::
    (padDigits 2 d.hours ++ ':' :: (padDigits 2 d.minutes ++ ':' :: (padDigits 2 d.seconds
      ++ '.' :: (padDigits 3 d.milliseconds ++ ['Z'])))))))

/-- The instant 2025-03-07 at 09:05:01.042 UTC. -/
def sampleInstant : UtcInstant :=
  { year := 2025, month := 3, day := 7, hours := 9, minutes := 5, seconds := 1,
    milliseconds := 42 }

/-! ## Ids of the mock database -/

/-- Ids are unique and bounded by the counters: course ids are pairwise distinct and
at most `lastCourseId`, lecture ids are pairwise distinct and at most
`lastLectureId`. -/
def UniqueIds (db : MockDatabase) : Prop :=
  (db.courses.map (·.id)).Nodup ∧ (db.lectures.map (·.id)).Nodup ∧
  (∀ course ∈ db.courses, course.id ≤ db.lastCourseId) ∧
  (∀ lecture ∈ db.lectures, lecture.id ≤ db.lastLectureId)

/-- The ids of the nested lecture entries of all courses, course by course. -/
def nestedIds (courses : List Course) : List Int :=
  courses.flatMap fun course => course.lectures.map (·.id)

/-- The two places a lecture is written to agree: the nested entries carry the ids of
the lecture rows, each once, and an entry sits under the course its lecture row points
to. -/
def DualWrite (db : MockDatabase) : Prop :=
  (nestedIds db.courses).Perm (db.lectures.map (·.id)) ∧
  (nestedIds db.courses).Nodup ∧
  (∀ course ∈ db.courses, ∀ entry ∈ course.lectures, ∀ row ∈ db.lectures,
    row.id = entry.id → row.course_id = some course.id)

/-- A lecture body with the number written `0`. -/
def lectureNumber0 : Body :=
  { courseId := .prim (.num 1), lectureNo := .prim (.str "0"), topic := .prim (.str "RSA"),
    date := .prim (.str "2025-01-02"), notes := .obj [("content", .str "rsa")] }

/-- A lecture body with the number written `7`. -/
def lectureNumber7 : Body :=
  { courseId := .prim (.num 1), lectureNo := .prim (.str (toString (7 : Int))),
    topic := .prim (.str "RSA"), date := .prim (.str "2025-01-02"),
    notes := .obj [("content", .str "rsa")] }

/-! ## The direct course listing of `server.js` -/

/-- A row of `SELECT * FROM courses`, by the columns the handler reads. -/
structure CourseDbRow where
  id : Prim
  title : Prim
  description : Prim
  code : Prim
  professor_id : Prim
  created_at : Prim
  deriving DecidableEq, Repr

/-- A row of `SELECT * FROM lectures`, by the columns the handler reads. -/
structure LectureDbRow where
  id : Prim
  title : Prim
  course_id : Prim
  lecture_date : Prim
  description : Prim
  deriving DecidableEq, Repr

/-- The object `{type: 'url', content}` of a listed lecture. -/
structure DirectNotes where
  type : String
  content : Prim
  deriving DecidableEq, Repr

/-- A lecture as nested in a listed course. -/
structure DirectLectureEntry where
  id : Prim
  lectureNo : Prim
  topic : Prim
  date : Prim
  notes : DirectNotes
  deriving DecidableEq, Repr

/-- A course as listed by the direct `GET /api/courses`. -/
structure DirectCourse where
  id : Prim
  name : Prim
  description : Prim
  code : Prim
  professor_id : Prim
  created_at : Prim
  lectures : List DirectLectureEntry
  deriving DecidableEq, Repr

/-- The callback of `courses.map(...)`: the client-facing course with no lectures. -/
def transformCourse (course : CourseDbRow) : DirectCourse :=
  { id := course.id
    name := course.title
    description := course.description
    code := course.code
    professor_id := course.professor_id
    created_at := course.created_at
    lectures := [] }

/-- The object pushed for one lecture row. -/
def lectureEntryOf (lecture : LectureDbRow) : DirectLectureEntry :=
  { id := lecture.id
    lectureNo := lecture.id
    topic := lecture.title
    date := lecture.lecture_date
    notes := { type := "url", content := lecture.description.orElse (.str "") } }

/-- The callback of `lectures.forEach(...)`: the lecture is pushed onto the first
course whose id is strictly equal to its `course_id`, if there is one.  The `lectures`
property of a transformed course is always an array, so the guard that would reset it
never fires. -/
def attachLecture (transformedCourses : List DirectCourse) (lecture : LectureDbRow) :
    List DirectCourse :=
  match findIndex (fun c => Prim.strictEq c.id lecture.course_id) transformedCourses with
  | none => transformedCourses
  | some courseIndex =>
    updateAt (fun c => { c with lectures := c.lectures ++ [lectureEntryOf lecture] })
      courseIndex transformedCourses

/-- What the database answers during one direct course listing: the rows of the two
`SELECT` statements, or the message of the error `executeQuery` throws. -/
structure CoursesReplies where
  courses : Except String (List CourseDbRow)
  lectures : Except String (List LectureDbRow)

/-- The JSON bodies of the direct course listing. -/
inductive DirectCoursesBody where
  /-- The body `{message: 'Server error', error: err.message}`. -/
  | serverError (error : String)
  /-- The array of transformed courses. -/
  | courses (list : List DirectCourse)
  deriving DecidableEq, Repr

/-- The response of the direct course listing. -/
structure DirectCoursesResponse where
  status : Nat
  body : DirectCoursesBody
  deriving DecidableEq, Repr

/-- The handler of `GET /api/courses` in `server.js`, after `directVerifyToken`.  The
`DESCRIBE` query only logs.  A failing course query reaches the outer `catch`; a
failing lecture query is caught and the courses are sent without lectures. -/
def directGetCoursesHandler (db : CoursesReplies) : DirectCoursesResponse :=
  match db.courses with
  | .error message => ⟨500, .serverError message⟩
  | .ok courses =>
    let transformedCourses := courses.map transformCourse
    if transformedCourses.length > 0 then
      match db.lectures with
      | .ok lectures => ⟨200, .courses (lectures.foldl attachLecture transformedCourses)⟩
      | .error _ => ⟨200, .courses transformedCourses⟩
    else ⟨200, .courses transformedCourses⟩

/-- The route `GET /api/courses` of `server.js`: gate, then handler. -/
def directGetCourses (req : Request) (db : CoursesReplies) :
    Except Response DirectCoursesResponse :=
  match directVerifyToken req with
  | .error r => .error r
  | .ok _ => .ok (directGetCoursesHandler db)

/-- Two course rows. -/
def sampleCourseRows : List CourseDbRow :=
  [⟨.num 2, .str "Number Theory", .str "primes", .str "NT", .null, .str "2025-02-01"⟩,
   ⟨.num 1, .str "Cryptography 101", .null, .str "CRY101", .null, .str "2025-01-01"⟩]

/-- Four lecture rows: two of course 1, one of course 2, one of no listed course. -/
def sampleLectureRows : List LectureDbRow :=
  [⟨.num 14, .str "Lecture 4: DH", .num 1, .str "2025-03-04", .null⟩,
   ⟨.num 13, .str "Lecture 1: Primes", .num 2, .str "2025-03-03", .str "sieve"⟩,
   ⟨.num 12, .str "Lecture 9: Orphan", .num 9, .str "2025-03-02", .str "none"⟩,
   ⟨.num 11, .str "Lecture 3: RSA", .num 1, .str "2025-03-01", .str "rsa"⟩]

/-- A database answering both queries with the sample rows. -/
def sampleCoursesReplies : CoursesReplies :=
  { courses := .ok sampleCourseRows, lectures := .ok sampleLectureRows }

/-- A request to `PUT /api/resources/:id` as it reaches the handler: `file` is
`req.file`, which `upload.single('file')` sets when the form carried a file. -/
structure ResourceRequest where
  id : String
  body : ResourceBody
  file : Option UploadedFile
  deriving DecidableEq, Repr

/-- The route `PUT /api/resources/:id` on a request: the handler destructures
`req.params` and `req.body` and never reads `req.file`. -/
def putResource {σ : Type} (db : ResourceStore σ) (state : σ) (req : ResourceRequest)
    (iso : String) : ResourceOutcome σ :=
  putResourceHandler db state req.id req.body iso

/-- The sample update of resource 2, carrying a newly uploaded file. -/
def sampleUpdateWithFile : ResourceRequest :=
  { id := "2", body := sampleUpdate,
    file := some
      { originalname := "pki-2.pdf", filename := "1735810200000-pki-2.pdf",
        mimetype := "application/pdf",
        path := "uploads/resources/1735810200000-pki-2.pdf", size := 2048 } }

/-! ## The `Lectures` component: adding courses and lectures -/

/-- The form state `newCourse`. -/
structure CourseForm where
  name : Prim
  description : Prim
  deriving DecidableEq, Repr

/-- The form state `newLecture`. -/
structure LectureForm where
  courseId : Prim
  lectureNo : Prim
  topic : Prim
  date : Prim
  notes : JVal
  deriving DecidableEq, Repr

namespace LecturesComponent

/-- The value of `Math.max(...ids, 0)` when every id is a number.  For another id
`Math.max` coerces (`ToNumber`), which may give `NaN` or a fraction; that is outside
the integers of this embedding and is answered `none`.  The handlers add 1 to the
maximum, which rounds to a double. -/
def mathMax0 : List Prim → Option Int
  | [] => some 0
  | p :: rest =>
    match p with
    | .num n => (mathMax0 rest).map (max n)
    | _ => none

/-- The expression `courses.flatMap(c => c.lectures?.map(l => l.id) || [])`. -/
def lectureIds (courses : List CourseItem) : List Prim :=
  courses.flatMap fun c =>
    match c.lectures with
    | some lectures => lectures.map (·.id)
    | none => []

/-- The handler `handleAddCourse`: with a course being edited its name and
description are replaced in place; otherwise a course with the next id and no
lectures is appended.  The outcome is `none` only where `mathMax0` is. -/
def handleAddCourse (courses : List CourseItem) (editingCourse : Option CourseItem)
    (newCourse : CourseForm) : Option LecturesOutcome :=
  match editingCourse with
  | some editing =>
    some
      { courses := courses.map fun course =>
          if course.id.strictEq editing.id then
            { course with name := newCourse.name, description := newCourse.description }
          else course
        alert := some "Course updated successfully" }
  | none =>
    match mathMax0 (courses.map (·.id)) with
    | none => none
    | some m =>
      some
        { courses := courses ++
            [{ id := .num (toDouble (m + 1)), name := newCourse.name,
               description := newCourse.description, lectures := some [] }]
          alert := some "Course added successfully" }

/-- The lecture object `handleAddLecture` appends; `today` is the value of
`new Date().toISOString().split('T')[0]`. -/
def newLectureItem (newId courseId : Int) (newLecture : LectureForm) (today : String) :
    NestedItem :=
  { id := .num newId
    courseId := .num courseId
    lectureNo := newLecture.lectureNo
    topic := newLecture.topic
    date := newLecture.date.orElse (.str today)
    notes := newLecture.notes }

/-- The object `{...course, lectures: [...(course.lectures || []), item]}`. -/
def appendLecture (course : CourseItem) (item : NestedItem) : CourseItem :=
  { course with lectures := some (course.lectures.getD [] ++ [item]) }

/-- The handler `handleAddLecture`.  It returns early, leaving the state, without a
selected course and a lecture being edited, with a course id that parses to `NaN`, and
(with an alert) with a falsy lecture number or topic.  With a lecture being edited the
lectures of the courses with the parsed id are rewritten in place, and reading the
lectures of such a course that has none throws into the `catch`; otherwise the new
lecture is appended to every course with the parsed id.  The outcome is `none` only
where `mathMax0` is. -/
def handleAddLecture (courses : List CourseItem) (selectedCourse : Option CourseItem)
    (editingLecture : Option NestedItem) (newLecture : LectureForm) (today : String) :
    Option LecturesOutcome :=
  if selectedCourse.isNone && editingLecture.isNone then some ⟨courses, none⟩
  else
    let parsed : JsNum :=
      match editingLecture, selectedCourse with
      | some editing, _ => parseIntStrRadix10 editing.courseId.toStr
      | none, some selected => parseIntStrRadix10 selected.id.toStr
      | none, none => none
    match parsed with
    | none => some ⟨courses, none⟩
    | some courseId =>
      if !newLecture.lectureNo.truthy || !newLecture.topic.truthy then
        some ⟨courses,
          some "Please fill in all required fields (Lecture Number and Topic)"⟩
      else
        match editingLecture with
        | some editing =>
          if courses.any fun course =>
              course.id.strictEq (.num courseId) && course.lectures.isNone then
            some ⟨courses,
              some "Failed to update lecture. Make sure you have the right permissions."⟩
          else
            some
              { courses := courses.map fun course =>
                  if course.id.strictEq (.num courseId) then
                    { course with lectures := course.lectures.map fun lectures =>
                        lectures.map fun lecture =>
                          if lecture.id.strictEq editing.id then
                            { lecture with lectureNo := newLecture.lectureNo,
                                           topic := newLecture.topic,
                                           date := newLecture.date,
                                           notes := newLecture.notes }
                          else lecture }
                  else course
                alert := some
                  ("Lecture \"" ++ newLecture.topic.toStr ++ "\" updated successfully") }
        | none =>
          match mathMax0 (lectureIds courses) with
          | none => none
          | some m =>
            some
              { courses := courses.map fun course =>
                  if course.id.strictEq (.num courseId) then
                    appendLecture course
                      (newLectureItem (toDouble (m + 1)) courseId newLecture today)
                  else course
                alert := some
                  ("Lecture \"" ++ newLecture.topic.toStr ++ "\" added successfully") }

/-- A filled lecture form. -/
def sampleForm : LectureForm :=
  { courseId := .num 1, lectureNo := .str "3", topic := .str "Hash functions",
    date := .str "", notes := .obj [("type", .str "url"), ("content", .str "")] }

/-- The first lecture of the first course of `dummyData`. -/
def firstLecture : NestedItem :=
  { id := .num 1, courseId := .num 1, lectureNo := .str "1",
    topic := .str "Symmetric Key Cryptography", date := .str "2023-09-15",
    notes := .obj [("type", .str "url"), ("content", .str "https://example.com/notes1")] }

/-- A state saved with a textual course id. -/
def textualIdState : List CourseItem :=
  [{ id := .str "1", name := .str "Introduction to Cryptography", description := .str "",
     lectures := some [] }]

/-- A state saved with the course ids 1 and `10 ^ 21`. -/
def hugeIdState : List CourseItem :=
  [{ id := .num 1, name := .str "Introduction to Cryptography", description := .str "",
     lectures := some [] },
   { id := .num 1000000000000000000000, name := .str "Advanced Encryption",
     description := .str "", lectures := some [] }]

/-- A state saved with the course id and the lecture id `2 ^ 53`. -/
def saturatedState : List CourseItem :=
  [{ id := .num 9007199254740992, name := .str "Introduction to Cryptography",
     description := .str "",
     lectures := some [
       { id := .num 9007199254740992, courseId := .num 9007199254740992,
         lectureNo := .str "1", topic := .str "Symmetric Key Cryptography",
         date := .str "2023-09-15", notes := .obj [("type", .str "url"), ("content", .str "")] }] }]

end LecturesComponent

/-! # Theorems -/

/-! ## The Auth Gate -/

theorem tokenMissing_iff (token : Option String) :
    tokenMissing token = true ↔ token = none ∨ token = some "" := by
  cases token with
  | none => simp [tokenMissing]
  | some t => simp [tokenMissing]

theorem tokenMissing_of_nonempty {t : String} (h : t ≠ "") : tokenMissing (some t) = false := by
  simp [tokenMissing, h]

theorem verifyToken_of_missing {req : Request}
    (h : tokenMissing (req.header "x-auth-token") = true) :
    verifyToken req = .error unauthorized := by
  simp [verifyToken, h]

theorem verifyToken_of_token {req : Request} {t : String}
    (h : req.header "x-auth-token" = some t) (ht : t ≠ "") :
    verifyToken req = .ok mockUser := by
  simp [verifyToken, h, tokenMissing_of_nonempty ht]

theorem guardedBy_of_missing {req : Request} (db : MockDatabase)
    (handler : User → Response × MockDatabase)
    (h : tokenMissing (req.header "x-auth-token") = true) :
    guardedBy req db handler = (unauthorized, db) := by
  simp [guardedBy, verifyToken_of_missing h]

theorem guardedBy_of_token {req : Request} {t : String} (db : MockDatabase)
    (handler : User → Response × MockDatabase)
    (h : req.header "x-auth-token" = some t) (ht : t ≠ "") :
    guardedBy req db handler = handler mockUser := by
  simp [guardedBy, verifyToken_of_token h ht]

theorem handle_guarded_of_missing (req : Request) (db : MockDatabase)
    (hroute : req.route.guarded = true)
    (hm : tokenMissing (req.header "x-auth-token") = true) :
    handle req db = (unauthorized, db) := by
  unfold handle
  cases hr : req.route <;> simp [hr, Route.guarded] at hroute ⊢ <;>
    exact guardedBy_of_missing db _ hm

/-- C1. Both gates, `verifyToken` and `directVerifyToken`, answer 401 with the body
`{message: 'No token, authorization denied'}` exactly when the `x-auth-token` header
is absent or empty, and for every non-empty token they call `next()` with `req.user`
set to the fixed identity. -/
theorem auth_gate_rejects_iff_token_missing (req : Request) :
    (verifyToken req = .error ⟨401, .message "No token, authorization denied"⟩ ↔
      (req.header "x-auth-token" = none ∨ req.header "x-auth-token" = some "")) ∧
    (directVerifyToken req = .error ⟨401, .message "No token, authorization denied"⟩ ↔
      (req.header "x-auth-token" = none ∨ req.header "x-auth-token" = some "")) ∧
    (∀ t : String, req.header "x-auth-token" = some t → t ≠ "" →
      verifyToken req = .ok ⟨1, "Mock", "User", "admin@example.com", "admin"⟩ ∧
      directVerifyToken req = .ok ⟨1, "Mock", "User", "admin@example.com", "admin"⟩) := by
  refine ⟨?_, ?_, ?_⟩
  · rw [← tokenMissing_iff]
    by_cases h : tokenMissing (req.header "x-auth-token") = true
    · simp [verifyToken, h, unauthorized]
    · simp [verifyToken, h]
  · rw [← tokenMissing_iff]
    by_cases h : tokenMissing (req.header "x-auth-token") = true
    · simp [directVerifyToken, h, unauthorized]
    · simp [directVerifyToken, h]
  · intro t h ht
    simp [verifyToken, directVerifyToken, h, tokenMissing_of_nonempty ht, mockUser]

/-- Witness of C1 at a request carrying the token `abc`. -/
theorem auth_gate_rejects_iff_token_missing_witness :
    verifyToken (authed "abc" .getCourses) = .ok ⟨1, "Mock", "User", "admin@example.com", "admin"⟩ ∧
    directVerifyToken (authed "abc" .getCourses)
      = .ok ⟨1, "Mock", "User", "admin@example.com", "admin"⟩ :=
  (auth_gate_rejects_iff_token_missing (authed "abc" .getCourses)).2.2 "abc" (by decide)
    (by decide)

/-- C2. A request to a guarded mock-server route that carries no `x-auth-token`
header is answered 401 with only the denial message, and the mock database is left
as it was. -/
theorem guarded_route_without_token (req : Request) (db : MockDatabase)
    (hroute : req.route.guarded = true) (hno : req.header "x-auth-token" = none) :
    handle req db = (⟨401, .message "No token, authorization denied"⟩, db) := by
  have hm : tokenMissing (req.header "x-auth-token") = true := by simp [hno, tokenMissing]
  exact handle_guarded_of_missing req db hroute hm

/-- Witness of C2: creating a course without a token. -/
theorem guarded_route_without_token_witness :
    handle { headers := [], route := .postCourses, body := { name := .prim (.str "X") } } sampleDb
      = (⟨401, .message "No token, authorization denied"⟩, sampleDb) :=
  guarded_route_without_token _ sampleDb (by decide) (by decide)

/-- C3. The profile response does not depend on the token: any two requests with
non-empty tokens get the same body, the fixed user with the four permissions, from
the mock server and from the direct route. -/
theorem profile_independent_of_token (req₁ req₂ : Request) (db₁ db₂ : MockDatabase)
    (t₁ t₂ : String)
    (h₁ : req₁.header "x-auth-token" = some t₁) (hne₁ : t₁ ≠ "")
    (h₂ : req₂.header "x-auth-token" = some t₂) (hne₂ : t₂ ≠ "")
    (hr₁ : req₁.route = .getProfile) (hr₂ : req₂.route = .getProfile) :
    (handle req₁ db₁).1 = (handle req₂ db₂).1 ∧
    (handle req₁ db₁).1 = ⟨200, .profile ⟨1, "Mock", "User", "admin@example.com", "admin"⟩
      ["manage_courses", "manage_lectures", "manage_projects", "manage_professors"]⟩ ∧
    directProfile req₁ = directProfile req₂ ∧
    directProfile req₁ = (handle req₁ db₁).1 := by
  have e₁ : (handle req₁ db₁).1 = profileHandler mockUser := by
    simp [handle, hr₁, guardedBy_of_token db₁ _ h₁ hne₁]
  have e₂ : (handle req₂ db₂).1 = profileHandler mockUser := by
    simp [handle, hr₂, guardedBy_of_token db₂ _ h₂ hne₂]
  have d₁ : directProfile req₁ = profileHandler mockUser := by
    simp [directProfile, directVerifyToken, h₁, tokenMissing_of_nonempty hne₁]
  have d₂ : directProfile req₂ = profileHandler mockUser := by
    simp [directProfile, directVerifyToken, h₂, tokenMissing_of_nonempty hne₂]
  refine ⟨by rw [e₁, e₂], ?_, by rw [d₁, d₂], by rw [d₁, e₁]⟩
  rw [e₁]; rfl

/-- Witness of C3 at the tokens `abc` and `not-a-jwt`. -/
theorem profile_independent_of_token_witness :
    (handle (authed "abc" .getProfile) sampleDb).1
      = (handle (authed "not-a-jwt" .getProfile) sampleDb).1 :=
  (profile_independent_of_token (authed "abc" .getProfile) (authed "not-a-jwt" .getProfile)
    sampleDb sampleDb "abc" "not-a-jwt" (by decide) (by decide) (by decide) (by decide)
    rfl rfl).1

/-! ## Bearer tokens -/

theorem header_viaDashboard (t : Option String) (route : Route) :
    (viaDashboard t route).header "x-auth-token" = none := by
  have hl : lowerAscii "x-auth-token" = "x-auth-token" := by decide
  have hk : (lowerAscii "Authorization" == "x-auth-token") = false := by decide
  cases t with
  | none => simp [viaDashboard, getAuthHeader, onTheWire, Request.header]
  | some t =>
    by_cases ht : t = ""
    · simp [viaDashboard, getAuthHeader, onTheWire, Request.header, ht]
    · simp [viaDashboard, getAuthHeader, onTheWire, Request.header, ht, hl, hk]

/-- C4, as stated, fails: a request whose only credential is the header produced by
`getAuthHeader` for the stored token `mock-jwt-token-for-development-only` is answered
401 by `verifyToken` and is not passed on. -/
theorem bearer_header_alone_is_rejected :
    verifyToken (viaDashboard (some "mock-jwt-token-for-development-only") .getCourses)
      = .error ⟨401, .message "No token, authorization denied"⟩ ∧
    ¬ ∃ user, verifyToken
      (viaDashboard (some "mock-jwt-token-for-development-only") .getCourses) = .ok user := by
  have h : verifyToken
      (viaDashboard (some "mock-jwt-token-for-development-only") .getCourses)
      = .error ⟨401, .message "No token, authorization denied"⟩ := by
    simp [verifyToken, header_viaDashboard, tokenMissing, unauthorized]
  refine ⟨h, ?_⟩
  rintro ⟨user, h'⟩
  rw [h] at h'
  cases h'

/-- C4, amended. The gate reads only `x-auth-token`: a non-empty value of that header
is sufficient to pass, whatever else the request carries, while a request whose only
credential is the `Authorization: Bearer <token>` header of `getAuthHeader` is answered
401 on every guarded route, with the database untouched. -/
theorem gate_reads_only_x_auth_token (t : String) (ht : t ≠ "") :
    (∀ req : Request, req.header "x-auth-token" = some t → verifyToken req = .ok mockUser) ∧
    (∀ (route : Route) (db : MockDatabase),
      verifyToken (viaDashboard (some t) route)
        = .error ⟨401, .message "No token, authorization denied"⟩ ∧
      (route.guarded = true → handle (viaDashboard (some t) route) db
        = (⟨401, .message "No token, authorization denied"⟩, db))) := by
  refine ⟨fun req h => verifyToken_of_token h ht, fun route db => ⟨?_, fun hg => ?_⟩⟩
  · have := @verifyToken_of_missing (viaDashboard (some t) route)
      (by simp [header_viaDashboard, tokenMissing])
    simpa [unauthorized] using this
  · have hr : (viaDashboard (some t) route).route = route := rfl
    exact handle_guarded_of_missing _ db (by rw [hr]; exact hg)
      (by simp [header_viaDashboard, tokenMissing])

/-- Witness of the amended C4 at the token `abc`. -/
theorem gate_reads_only_x_auth_token_witness :
    verifyToken (authed "abc" .getCourses) = .ok mockUser ∧
    verifyToken (viaDashboard (some "abc") .getCourses)
      = .error ⟨401, .message "No token, authorization denied"⟩ :=
  ⟨(gate_reads_only_x_auth_token "abc" (by decide)).1 (authed "abc" .getCourses) (by decide),
    ((gate_reads_only_x_auth_token "abc" (by decide)).2 .getCourses sampleDb).1⟩

/-! ## Login -/

theorem orElse_toStr_ok (v fallback : JVal) (s t : String) (hv : v.toStr = .ok s)
    (hf : fallback.toStr = .ok t) : ∃ u, (v.orElse fallback).toStr = .ok u := by
  unfold JVal.orElse
  split
  · exact ⟨s, hv⟩
  · exact ⟨t, hf⟩

/-- C5, as stated, fails: a login whose `email` is the JSON object `{"toString": 1}`
is not answered with the login body.  The line that logs the attempt converts the
email to a string, which throws; the mock server answers 500 through its
error-handling middleware, `server.js` through Express's default error handler. -/
theorem login_with_unprintable_email_fails :
    loginWithObjectEmail.body.email = .obj [("toString", .num 1)] ∧
    (handle loginWithObjectEmail sampleDb).1 = ⟨500, .serverError .cannotConvert⟩ ∧
    directLoginHandler loginWithObjectEmail.body = ⟨500, .errorPage .cannotConvert⟩ := by
  decide

/-- C5, amended. `POST /api/auth/login` succeeds for every body whose email can be
converted to a string, which is every primitive value, absent and empty included, and
every object without an own property `toString`: whatever the headers, both servers
answer 200 with id 1, the fixed names, role `admin`, redirect `/dashboard` and the
static token, and the mock database is not touched; the email is the submitted one
when it is a non-empty string (more generally, when it is truthy) and
`admin@example.com` when it is absent or empty (more generally, falsy); the password
has no influence. -/
theorem login_succeeds_for_printable_email (req : Request) (db : MockDatabase)
    (hr : req.route = .postLogin) (hemail : ∃ s, req.body.email.toStr = .ok s) :
    (∃ email : JVal, handle req db = (⟨200, .login ⟨1, "Mock", "User", email,
      "mock-jwt-token-for-development-only", "admin", "/dashboard"⟩⟩, db) ∧
      directLoginHandler req.body = ⟨200, .login ⟨1, "Mock", "User", email,
        "mock-jwt-token-for-development-only", "admin", "/dashboard"⟩⟩ ∧
      email = (if req.body.email.truthy then req.body.email
        else .prim (.str "admin@example.com")) ∧
      (∀ s : String, s ≠ "" → req.body.email = .prim (.str s) → email = .prim (.str s)) ∧
      ((req.body.email = .prim .undefined ∨ req.body.email = .prim (.str "")) →
        email = .prim (.str "admin@example.com"))) ∧
    (∀ password : JVal,
      handle { req with body := { req.body with password := password } } db
        = handle req db ∧
      directLoginHandler { req.body with password := password }
        = directLoginHandler req.body) := by
  obtain ⟨s, hs⟩ := hemail
  obtain ⟨u, hu⟩ := orElse_toStr_ok req.body.email (.prim (.str "unknown")) s "unknown" hs rfl
  refine ⟨⟨req.body.email.orElse (.prim (.str "admin@example.com")), ?_, ?_, rfl, ?_, ?_⟩, ?_⟩
  · simp [handle, hr, loginHandler, hu, loginResult]
  · simp [directLoginHandler, hs, loginResult]
  · intro s hs he
    simp [he, JVal.orElse, JVal.truthy, Prim.truthy, hs]
  · rintro (he | he) <;> simp [he, JVal.orElse, JVal.truthy, Prim.truthy]
  · intro password
    exact ⟨by simp [handle, hr, loginHandler, loginResult], by
      simp [directLoginHandler, loginResult]⟩

/-- Witness of the amended C5: a login with an email, with and without a password,
and without any header. -/
theorem login_succeeds_for_printable_email_witness :
    (handle (loginAs "eve@example.com") sampleDb).1.status = 200 ∧
    handle { loginAs "eve@example.com" with
        body := { (loginAs "eve@example.com").body with password := .prim (.str "hunter2") } }
        sampleDb
      = handle (loginAs "eve@example.com") sampleDb :=
  ⟨by decide,
    ((login_succeeds_for_printable_email (loginAs "eve@example.com") sampleDb rfl
      ⟨"eve@example.com", rfl⟩).2 (.prim (.str "hunter2"))).1⟩

/-! ## Creating courses -/

theorem findIndex_eq_none_iff {α : Type} (p : α → Bool) (xs : List α) :
    findIndex p xs = none ↔ ∀ x ∈ xs, p x = false := by
  induction xs with
  | nil => simp [findIndex]
  | cons x xs ih =>
    by_cases hx : p x = true
    · simp [findIndex, hx]
    · simp [findIndex, hx, ih]

theorem findIndex_some_get {α : Type} (p : α → Bool) (xs : List α) (i : Nat)
    (h : findIndex p xs = some i) : ∃ y, xs[i]? = some y ∧ p y = true := by
  induction xs generalizing i with
  | nil => simp [findIndex] at h
  | cons y ys ih =>
    by_cases hy : p y = true
    · simp [findIndex, hy] at h
      subst h
      exact ⟨y, by simp, hy⟩
    · simp only [findIndex, hy, Bool.false_eq_true, if_false, Option.map_eq_some'] at h
      obtain ⟨j, hj, rfl⟩ := h
      obtain ⟨z, hz, hpz⟩ := ih j hj
      exact ⟨z, by simpa using hz, hpz⟩

theorem findIndex_of_mem {α : Type} (p : α → Bool) (xs : List α) (x : α)
    (hx : x ∈ xs) (hp : p x = true) :
    ∃ i y, findIndex p xs = some i ∧ xs[i]? = some y ∧ p y = true := by
  cases h : findIndex p xs with
  | none =>
    rw [findIndex_eq_none_iff] at h
    rw [h x hx] at hp
    cases hp
  | some i =>
    obtain ⟨y, hy, hpy⟩ := findIndex_some_get p xs i h
    exact ⟨i, y, rfl, hy, hpy⟩

theorem strictEq_some_iff (a : Int) (n : JsNum) :
    JsNum.strictEq (some a) n = true ↔ n = some a := by
  cases n with
  | none => simp [JsNum.strictEq]
  | some b =>
    simp only [JsNum.strictEq, beq_iff_eq, Option.some.injEq]
    exact eq_comm

theorem handle_postCourses {req : Request} {t name : String} (db : MockDatabase)
    (hr : req.route = .postCourses) (htok : req.header "x-auth-token" = some t) (ht : t ≠ "")
    (hname : req.body.name = .prim (.str name)) :
    handle req db =
      (⟨201, .courseCreated "Course created successfully" (db.lastCourseId + 1)⟩,
        { db with
          lastCourseId := db.lastCourseId + 1
          courses := db.courses ++ [{
            id := db.lastCourseId + 1
            name := name
            title := name
            code := upperAscii (substring0 3 name) ++ numberToString (db.lastCourseId + 1)
            description := req.body.description
            professor_id := .null
            created_by := .null
            created_at := req.clock.createdAt
            updated_at := req.clock.updatedAt
            lectures := [] }] }) := by
  simp [handle, hr, guardedBy_of_token db _ htok ht, postCoursesHandler, hname]

theorem handle_getCourses {req : Request} {t : String} (db : MockDatabase)
    (hr : req.route = .getCourses) (htok : req.header "x-auth-token" = some t) (ht : t ≠ "") :
    handle req db = (⟨200, .courses db.courses⟩, db) := by
  simp [handle, hr, guardedBy_of_token db _ htok ht, getCoursesHandler]

/-- C6. An authenticated `POST /api/courses` with a string `name` (empty or not) and
any description answers 201 with the numeric id `lastCourseId + 1`; an authenticated
`GET /api/courses` issued afterwards returns the list it returned before with exactly
one row appended, whose id is the returned `courseId` and whose `name` and `title`
are the submitted name. -/
theorem course_creation_appends_one_row (req get : Request) (db : MockDatabase)
    (t t' name : String)
    (hr : req.route = .postCourses) (htok : req.header "x-auth-token" = some t) (ht : t ≠ "")
    (hname : req.body.name = .prim (.str name))
    (hg : get.route = .getCourses) (htok' : get.header "x-auth-token" = some t')
    (ht' : t' ≠ "") :
    ∃ (courseId : Int) (row : Course),
      (handle req db).1 = ⟨201, .courseCreated "Course created successfully" courseId⟩ ∧
      (handle get db).1 = ⟨200, .courses db.courses⟩ ∧
      (handle get (handle req db).2).1 = ⟨200, .courses (db.courses ++ [row])⟩ ∧
      row.id = courseId ∧ row.name = name ∧ row.title = name ∧
      row.description = req.body.description := by
  rw [handle_postCourses db hr htok ht hname, handle_getCourses db hg htok' ht',
    handle_getCourses _ hg htok' ht']
  exact ⟨_, _, rfl, rfl, rfl, rfl, rfl, rfl, rfl⟩

/-- Witness of C6: the scenario of the specification on the seeded database. -/
theorem course_creation_appends_one_row_witness :
    ∃ (courseId : Int) (row : Course),
      (handle (authedWith "t" .postCourses
        { name := .prim (.str "Intro to Crypto"), description := .prim (.str "desc") })
        sampleDb).1 = ⟨201, .courseCreated "Course created successfully" courseId⟩ ∧
      (handle (authed "t" .getCourses) sampleDb).1 = ⟨200, .courses sampleDb.courses⟩ ∧
      (handle (authed "t" .getCourses) (handle (authedWith "t" .postCourses
        { name := .prim (.str "Intro to Crypto"), description := .prim (.str "desc") })
        sampleDb).2).1 = ⟨200, .courses (sampleDb.courses ++ [row])⟩ ∧
      row.id = courseId ∧ row.name = "Intro to Crypto" ∧ row.title = "Intro to Crypto" ∧
      row.description = .prim (.str "desc") :=
  course_creation_appends_one_row
    (authedWith "t" .postCourses
      { name := .prim (.str "Intro to Crypto"), description := .prim (.str "desc") })
    (authed "t" .getCourses) sampleDb "t" "t" "Intro to Crypto"
    rfl (by decide) (by decide) rfl rfl (by decide) (by decide)

/-- C7, as stated, fails: an authenticated `POST /api/courses` with an empty body on
the seeded database is answered 500, which is no client error, and the counter
`lastCourseId` has moved from 1 to 2. -/
theorem course_without_name_is_a_server_error :
    ¬ (400 ≤ (handle (authed "t" .postCourses) sampleDb).1.status ∧
        (handle (authed "t" .postCourses) sampleDb).1.status < 500 ∧
        (handle (authed "t" .postCourses) sampleDb).2 = sampleDb) ∧
    (handle (authed "t" .postCourses) sampleDb).1.status = 500 ∧
    sampleDb.lastCourseId = 1 ∧
    (handle (authed "t" .postCourses) sampleDb).2.lastCourseId = 2 := by
  decide

/-- C7, amended. An authenticated `POST /api/courses` whose body has no `name` throws
on `name.substring` and is answered by the `catch` block with 500 and the message
`Server error`; no course is appended: the courses list and the lectures, with their
counter, are the same before and after the request. -/
theorem course_without_name_appends_nothing (req : Request) (db : MockDatabase) (t : String)
    (hr : req.route = .postCourses) (htok : req.header "x-auth-token" = some t) (ht : t ≠ "")
    (hname : req.body.name = .prim .undefined) :
    (handle req db).1 = ⟨500, .serverError (.readOfNullish "substring")⟩ ∧
    (handle req db).2.courses = db.courses ∧
    (handle req db).2.lectures = db.lectures ∧
    (handle req db).2.lastLectureId = db.lastLectureId := by
  simp [handle, hr, guardedBy_of_token db _ htok ht, postCoursesHandler, hname]

/-- Witness of the amended C7 on the seeded database. -/
theorem course_without_name_appends_nothing_witness :
    (handle (authed "t" .postCourses) sampleDb).1
      = ⟨500, .serverError (.readOfNullish "substring")⟩ ∧
    (handle (authed "t" .postCourses) sampleDb).2.courses = sampleDb.courses ∧
    (handle (authed "t" .postCourses) sampleDb).2.lectures = sampleDb.lectures ∧
    (handle (authed "t" .postCourses) sampleDb).2.lastLectureId = sampleDb.lastLectureId :=
  course_without_name_appends_nothing (authed "t" .postCourses) sampleDb "t" rfl (by decide)
    (by decide) rfl

/-! ## Creating lectures -/

theorem notesObjOf_ok (file : Option UploadedFile) (notes : JVal)
    (h : file.isSome = true ∨ (notes ≠ .prim .undefined ∧ notes ≠ .prim .null)) :
    ∃ n, notesObjOf (fileInfoOf file) notes = .ok n := by
  cases file with
  | some f => exact ⟨_, rfl⟩
  | none =>
    rcases h with h | ⟨h₁, h₂⟩
    · simp at h
    · cases notes with
      | obj fields => exact ⟨_, rfl⟩
      | prim p =>
        cases p with
        | undefined => exact absurd rfl h₁
        | null => exact absurd rfl h₂
        | bool b => exact ⟨_, rfl⟩
        | num n => exact ⟨_, rfl⟩
        | str s => exact ⟨_, rfl⟩

theorem findIndex_first {α : Type} (p : α → Bool) (xs : List α) (i : Nat)
    (h : findIndex p xs = some i) : ∀ j < i, ∀ y, xs[j]? = some y → p y = false := by
  induction xs generalizing i with
  | nil => simp [findIndex] at h
  | cons x xs ih =>
    by_cases hx : p x = true
    · simp [findIndex, hx] at h
      subst h
      intro j hj
      omega
    · simp only [findIndex, hx, Bool.false_eq_true, if_false, Option.map_eq_some'] at h
      obtain ⟨k, hk, rfl⟩ := h
      intro j hj y hy
      cases j with
      | zero =>
        have : x = y := by simpa using hy
        subst this
        simpa using hx
      | succ j => exact ih k hk j (by omega) y (by simpa using hy)

theorem findCourseIndex_ok (courses : List Course) (courseId : JVal) (parsed : JsNum)
    (h : parseInt courseId = .ok parsed) :
    findCourseIndex courses courseId =
      .ok ((findIndex (fun course => JsNum.strictEq (some course.id) parsed) courses).map
        fun courseIndex => (courseIndex, parsed)) := by
  cases courses with
  | nil => rfl
  | cons c cs => simp [findCourseIndex, h]

theorem findCourseIndex_error (courses : List Course) (courseId : JVal) (e : JsError)
    (h : parseInt courseId = .error e) (hne : courses ≠ []) :
    findCourseIndex courses courseId = .error e := by
  cases courses with
  | nil => exact absurd rfl hne
  | cons c cs => simp [findCourseIndex, h]

/-- What `findCourseIndex` answers: a throw of `parseInt(courseId)`, no course, or the
first course whose id is the parsed value. -/
theorem findCourseIndex_cases (courses : List Course) (courseId : JVal) :
    (∃ e, parseInt courseId = .error e ∧ findCourseIndex courses courseId = .error e) ∨
    findCourseIndex courses courseId = .ok none ∨
    (∃ (idx : Nat) (parsed : JsNum), parseInt courseId = .ok parsed ∧
      findIndex (fun course => JsNum.strictEq (some course.id) parsed) courses = some idx ∧
      findCourseIndex courses courseId = .ok (some (idx, parsed))) := by
  cases courses with
  | nil => right; left; rfl
  | cons c cs =>
    cases hp : parseInt courseId with
    | error e => left; exact ⟨e, rfl, by simp [findCourseIndex, hp]⟩
    | ok parsed =>
      cases hidx : findIndex (fun course => JsNum.strictEq (some course.id) parsed) (c :: cs) with
      | none => right; left; simp [findCourseIndex, hp, hidx]
      | some idx => right; right; exact ⟨idx, parsed, rfl, hidx, by simp [findCourseIndex, hp, hidx]⟩

theorem parseInt_of_toStr (v : JVal) (s : String) (h : v.toStr = .ok s) :
    parseInt v = .ok (parseIntStr s) := by
  simp [parseInt, h]

theorem handle_postLectures_created {req : Request} {t : String} (db : MockDatabase)
    (idx : Nat) (parsed : JsNum) (n : Notes) (lectureNo topic : String)
    (hr : req.route = .postLectures) (htok : req.header "x-auth-token" = some t) (ht : t ≠ "")
    (hcid : parseInt req.body.courseId = .ok parsed)
    (hidx : findIndex (fun course => JsNum.strictEq (some course.id) parsed) db.courses
      = some idx)
    (hn : notesObjOf (fileInfoOf req.file) req.body.notes = .ok n)
    (hno : req.body.lectureNo.toStr = .ok lectureNo)
    (htopic : req.body.topic.toStr = .ok topic) :
    handle req db =
      (⟨201, .lectureCreated "Lecture created successfully" (db.lastLectureId + 1)
          (fileInfoOf req.file)⟩,
        { courses := updateAt (fun c => { c with lectures := c.lectures ++ [{
              id := db.lastLectureId + 1
              lectureNo := parseIntStr lectureNo
              topic := req.body.topic
              date := req.body.date
              notes := n }] }) idx db.courses
          lectures := db.lectures ++ [{
            id := db.lastLectureId + 1
            title := "Lecture " ++ lectureNo ++ ": " ++ topic
            course_id := parsed
            lecture_date := req.body.date
            description := descriptionOf req.body.notes
            slides_url := (fileInfoOf req.file).map (·.url)
            video_url := .null
            created_by := .null
            created_at := req.clock.createdAt
            updated_at := req.clock.updatedAt
            file := some (fileInfoOf req.file) }]
          lastCourseId := db.lastCourseId
          lastLectureId := db.lastLectureId + 1 }) := by
  simp [handle, hr, guardedBy_of_token db _ htok ht, postLecturesHandler,
    findCourseIndex_ok db.courses _ parsed hcid, hidx, hn, hno, htopic]

theorem handle_postLectures_notFound {req : Request} {t : String} (db : MockDatabase)
    (parsed : JsNum)
    (hr : req.route = .postLectures) (htok : req.header "x-auth-token" = some t) (ht : t ≠ "")
    (hcid : parseInt req.body.courseId = .ok parsed)
    (hidx : findIndex (fun course => JsNum.strictEq (some course.id) parsed) db.courses
      = none) :
    handle req db = (⟨404, .message "Course not found"⟩, db) := by
  simp [handle, hr, guardedBy_of_token db _ htok ht, postLecturesHandler,
    findCourseIndex_ok db.courses _ parsed hcid, hidx]

/-- C8, as stated, fails: an authenticated `POST /api/lectures` for the seeded course
with `lectureNo` and `notes` but no `topic` is answered 201, a second row is in
`mockDatabase.lectures`, titled `Lecture 2: undefined`, and the course has a second
nested entry. -/
theorem lecture_without_topic_is_accepted :
    ¬ (400 ≤ (handle lectureWithoutTopic sampleDb).1.status ∧
        (handle lectureWithoutTopic sampleDb).1.status < 500 ∧
        (handle lectureWithoutTopic sampleDb).2.lectures = sampleDb.lectures ∧
        (handle lectureWithoutTopic sampleDb).2.courses = sampleDb.courses) ∧
    (handle lectureWithoutTopic sampleDb).1.status = 201 ∧
    (handle lectureWithoutTopic sampleDb).2.lectures.map (·.title)
      = ["Lecture 1: Introduction to Encryption", "Lecture 2: undefined"] ∧
    (handle lectureWithoutTopic sampleDb).2.courses.map (·.lectures.length) = [2] := by
  decide

/-- C8, amended. The mock server does not validate `topic` or `lectureNo`: an
authenticated `POST /api/lectures` for an existing course with either of them missing,
the other one convertible to a string, and with a file uploaded or a `notes` value
that is neither `undefined` nor `null`, is answered 201; exactly one row is appended
to `mockDatabase.lectures` and one nested entry to the first course with that id, and
the missing field is rendered as `undefined` in the row's title. -/
theorem lecture_with_missing_field_is_created (req : Request) (db : MockDatabase)
    (t : String) (course : Course) (lectureNo topic : String)
    (hr : req.route = .postLectures) (htok : req.header "x-auth-token" = some t) (ht : t ≠ "")
    (hmissing : req.body.topic = .prim .undefined ∨ req.body.lectureNo = .prim .undefined)
    (hno : req.body.lectureNo.toStr = .ok lectureNo)
    (htopic : req.body.topic.toStr = .ok topic)
    (hmem : course ∈ db.courses) (hcid : parseInt req.body.courseId = .ok (some course.id))
    (hnotes : req.file.isSome = true ∨
      (req.body.notes ≠ .prim .undefined ∧ req.body.notes ≠ .prim .null)) :
    ∃ (idx : Nat) (target : Course) (row : Lecture) (entry : NestedLecture),
      (handle req db).1 = ⟨201, .lectureCreated "Lecture created successfully" row.id
        (fileInfoOf req.file)⟩ ∧
      (handle req db).2.lectures = db.lectures ++ [row] ∧
      (handle req db).2.courses
        = updateAt (fun c => { c with lectures := c.lectures ++ [entry] }) idx db.courses ∧
      (handle req db).2.lastCourseId = db.lastCourseId ∧
      (handle req db).2.lastLectureId = db.lastLectureId + 1 ∧
      db.courses[idx]? = some target ∧ target.id = course.id ∧
      (∀ j < idx, ∀ c, db.courses[j]? = some c → c.id ≠ course.id) ∧
      row.id = db.lastLectureId + 1 ∧ entry.id = row.id ∧ row.course_id = some course.id ∧
      row.title = "Lecture " ++ lectureNo ++ ": " ++ topic ∧
      (req.body.topic = .prim .undefined →
        row.title = "Lecture " ++ lectureNo ++ ": undefined") ∧
      (req.body.lectureNo = .prim .undefined →
        row.title = "Lecture undefined: " ++ topic) := by
  obtain ⟨idx, target, hidx, hget, hp⟩ := findIndex_of_mem
    (fun c : Course => JsNum.strictEq (some c.id) (some course.id)) db.courses
    course hmem (by simp [JsNum.strictEq])
  obtain ⟨n, hn⟩ := notesObjOf_ok req.file req.body.notes hnotes
  have htarget : target.id = course.id := by
    have := (strictEq_some_iff target.id _).1 hp
    exact (Option.some.inj this).symm
  have hfirst : ∀ j < idx, ∀ c, db.courses[j]? = some c → c.id ≠ course.id := by
    intro j hj c hc heq
    have := findIndex_first _ _ _ hidx j hj c hc
    simp [JsNum.strictEq, heq] at this
  rw [handle_postLectures_created db idx (some course.id) n lectureNo topic hr htok ht hcid
    hidx hn hno htopic]
  refine ⟨idx, target, _, _, rfl, rfl, rfl, rfl, rfl, hget, htarget, hfirst, rfl, rfl, rfl,
    rfl, ?_, ?_⟩
  · intro h
    rw [h] at htopic
    have : topic = "undefined" := by
      have := Except.ok.inj htopic
      exact this.symm
    subst this
    show "Lecture " ++ lectureNo ++ ": " ++ "undefined" = _
    have e : ": " ++ "undefined" = ": undefined" := by decide
    rw [String.append_assoc _ ": " "undefined", e]
  · intro h
    rw [h] at hno
    have : lectureNo = "undefined" := by
      have := Except.ok.inj hno
      exact this.symm
    subst this
    show "Lecture " ++ "undefined" ++ ": " ++ topic = _
    have e : "Lecture " ++ "undefined" ++ ": " = "Lecture undefined: " := by decide
    rw [e]

/-- Witness of the amended C8: the creation without a topic on the seeded database. -/
theorem lecture_with_missing_field_is_created_witness :
    ∃ (idx : Nat) (target : Course) (row : Lecture) (entry : NestedLecture),
      (handle lectureWithoutTopic sampleDb).1 = ⟨201,
        .lectureCreated "Lecture created successfully" row.id
        (fileInfoOf lectureWithoutTopic.file)⟩ ∧
      (handle lectureWithoutTopic sampleDb).2.lectures = sampleDb.lectures ++ [row] ∧
      (handle lectureWithoutTopic sampleDb).2.courses
        = updateAt (fun c => { c with lectures := c.lectures ++ [entry] }) idx
          sampleDb.courses ∧
      sampleDb.courses[idx]? = some target ∧ target.id = (1 : Int) ∧
      row.id = sampleDb.lastLectureId + 1 ∧ entry.id = row.id ∧ row.course_id = some 1 ∧
      row.title = "Lecture 2: undefined" := by
  obtain ⟨idx, target, row, entry, h1, h2, h3, _, _, h4, h5, _, h6, h7, h8, _, h9, _⟩ :=
    lecture_with_missing_field_is_created lectureWithoutTopic sampleDb "t"
      (sampleDb.courses.head (by decide)) "2" "undefined" rfl (by decide) (by decide)
      (Or.inl rfl) rfl rfl (by decide) rfl (Or.inr ⟨by decide, by decide⟩)
  exact ⟨idx, target, row, entry, h1, h2, h3, h4, h5, h6, h7, h8, h9 rfl⟩

/-- C10, as stated, fails: a lecture creation whose `courseId` is the JSON object
`{"toString": 1}`, which parses to no course id since `parseInt` cannot even convert
it, is answered 500 by the `catch` block, not 404. -/
theorem lecture_for_unprintable_course_is_a_server_error :
    parseInt lectureForObjectCourse.body.courseId = .error .cannotConvert ∧
    handle lectureForObjectCourse sampleDb
      = (⟨500, .serverError .cannotConvert⟩, sampleDb) ∧
    (handle lectureForObjectCourse sampleDb).1.status ≠ 404 := by
  refine ⟨rfl, by decide, by decide⟩

/-- C10, amended. An authenticated `POST /api/lectures` whose `courseId` `parseInt`
maps to a value (`NaN` included) that is the id of no course of the database is
answered 404 with `Course not found`, and the database, counters included, is left as
it was.  When `parseInt` cannot convert `courseId` to a string and the database has a
course, the `catch` block answers 500, and the database is left as it was too. -/
theorem lecture_for_unknown_course_is_not_found (req : Request) (db : MockDatabase)
    (t : String)
    (hr : req.route = .postLectures) (htok : req.header "x-auth-token" = some t)
    (ht : t ≠ "") :
    (∀ parsed : JsNum, parseInt req.body.courseId = .ok parsed →
      (∀ course ∈ db.courses, parsed ≠ some course.id) →
      handle req db = (⟨404, .message "Course not found"⟩, db)) ∧
    (∀ e : JsError, parseInt req.body.courseId = .error e → db.courses ≠ [] →
      handle req db = (⟨500, .serverError e⟩, db)) := by
  constructor
  · intro parsed hcid hnone
    apply handle_postLectures_notFound db parsed hr htok ht hcid
    rw [findIndex_eq_none_iff]
    intro course hc
    cases h : JsNum.strictEq (some course.id) parsed with
    | false => rfl
    | true => exact absurd ((strictEq_some_iff _ _).1 h) (hnone course hc)
  · intro e he hne
    simp [handle, hr, guardedBy_of_token db _ htok ht, postLecturesHandler,
      findCourseIndex_error db.courses _ e he hne]

/-- Witness of the amended C10: a lecture for course 7 on the seeded database, which
has course 1 only. -/
theorem lecture_for_unknown_course_is_not_found_witness :
    handle lectureForCourse7 sampleDb = (⟨404, .message "Course not found"⟩, sampleDb) :=
  (lecture_for_unknown_course_is_not_found lectureForCourse7 sampleDb "t" rfl (by decide)
    (by decide)).1 (some 7) rfl (by decide)

/-! ## `parseInt` on decimal renderings -/

theorem roundNat_of_lt (n : Nat) (h : n < 9007199254740992) : roundNat n = n := by
  simp [roundNat, h]

/-- Integers below `2 ^ 53` in magnitude are doubles. -/
theorem toDouble_of_safe (v : Int) (h : v.natAbs < 9007199254740992) : toDouble v = v := by
  unfold toDouble
  rw [roundNat_of_lt _ h]
  split <;> omega

theorem numberToString_of_safe (v : Int) (h : v.natAbs < 9007199254740992) :
    numberToString v = toString v := by
  simp [numberToString, h]

theorem IsDecimal.digitIn {c : Char} (h : IsDecimal c) :
    ∃ d, d < 10 ∧ CRM.digitIn 10 c = some d ∧ c = Nat.digitChar d := by
  obtain ⟨d, hd, rfl⟩ := h
  refine ⟨d, hd, ?_, rfl⟩
  interval_cases d <;> rfl

theorem IsDecimal.facts {c : Char} (h : IsDecimal c) :
    isStrWhiteSpace c = false ∧ c ≠ '-' ∧ c ≠ '+' ∧ c ≠ 'x' ∧ c ≠ 'X' := by
  obtain ⟨d, hd, rfl⟩ := h
  interval_cases d <;> decide

theorem digitsValue_append (L rest : List Char) (hL : ∀ c ∈ L, IsDecimal c) (acc : Nat) :
    digitsValue 10 acc (L ++ rest) = digitsValue 10 (digitsValue 10 acc L) rest := by
  induction L generalizing acc with
  | nil => rfl
  | cons c L ih =>
    obtain ⟨d, _, hd, _⟩ := (hL c (List.mem_cons_self _ _)).digitIn
    simp only [List.cons_append, digitsValue, hd]
    exact ih (fun x hx => hL x (List.mem_cons_of_mem _ hx)) _

theorem toDigitsCore_spec (fuel n : Nat) (ds : List Char) (h : n < fuel) :
    ∃ L, Nat.toDigitsCore 10 fuel n ds = L ++ ds ∧ L ≠ [] ∧ (∀ c ∈ L, IsDecimal c) ∧
      ∀ acc, digitsValue 10 acc L = acc * 10 ^ L.length + n := by
  induction fuel generalizing n ds with
  | zero => omega
  | succ fuel ih =>
    have hdec : IsDecimal (Nat.digitChar (n % 10)) := ⟨n % 10, Nat.mod_lt _ (by norm_num), rfl⟩
    obtain ⟨d, hd10, hd, hdc⟩ := hdec.digitIn
    have hdn : d = n % 10 := by
      have : ∀ a b, a < 10 → b < 10 → Nat.digitChar a = Nat.digitChar b → a = b := by
        intro a b ha hb
        interval_cases a <;> interval_cases b <;> decide
      exact (this _ _ (Nat.mod_lt _ (by norm_num)) hd10 hdc).symm
    by_cases h0 : n / 10 = 0
    · refine ⟨[Nat.digitChar (n % 10)], ?_, by simp, ?_, ?_⟩
      · simp [Nat.toDigitsCore, h0]
      · intro c hc
        simp only [List.mem_singleton] at hc
        exact hc ▸ hdec
      · intro acc
        simp only [digitsValue, hd, List.length_singleton, pow_one]
        have : n < 10 := by
          by_contra hge
          have : 1 ≤ n / 10 := by
            apply (Nat.le_div_iff_mul_le (by norm_num)).2
            omega
          omega
        omega
    · have hlt : n / 10 < fuel := by
        have : n / 10 < n := Nat.div_lt_self (by omega) (by norm_num)
        omega
      obtain ⟨L, hL, hne, hall, hval⟩ := ih (n / 10) (Nat.digitChar (n % 10) :: ds) hlt
      refine ⟨L ++ [Nat.digitChar (n % 10)], ?_, by simp, ?_, ?_⟩
      · simp [Nat.toDigitsCore, h0, hL]
      · intro c hc
        rcases List.mem_append.1 hc with hc | hc
        · exact hall c hc
        · simp only [List.mem_singleton] at hc
          exact hc ▸ hdec
      · intro acc
        rw [digitsValue_append L _ hall, hval]
        simp only [digitsValue, hd, List.length_append, List.length_singleton, pow_succ]
        have := Nat.div_add_mod n 10
        rw [hdn]
        nlinarith [Nat.div_add_mod n 10]

theorem parseDigits_spec (L : List Char) (n : Nat) (hne : L ≠ []) (hall : ∀ c ∈ L, IsDecimal c)
    (hval : ∀ acc, digitsValue 10 acc L = acc * 10 ^ L.length + n) (neg : Bool) :
    (match splitRadix L with
      | (radix, ds) =>
        match ds with
        | [] => none
        | c :: _ =>
          if (digitIn radix c).isSome then
            let v : Int := (digitsValue radix 0 ds : Nat)
            some (toDouble (if neg then -v else v))
          else none) = some (toDouble (if neg then -(n : Int) else n)) := by
  have hr : splitRadix L = (10, L) := by
    match L, hall with
    | [], _ => rfl
    | [c], _ => unfold splitRadix; split <;> simp_all
    | c :: c2 :: r, hall =>
      have h2 := (hall c2 (by simp)).facts
      unfold splitRadix
      split <;> simp_all
  rw [hr]
  match L, hne, hall, hval with
  | c :: r, _, hall, hval =>
    obtain ⟨d, _, hd, _⟩ := (hall c (List.mem_cons_self _ _)).digitIn
    simp [hd, hval]

theorem parseIntStr_toString (c : Int) : parseIntStr (toString c) = some (toDouble c) := by
  cases c with
  | ofNat n =>
    obtain ⟨L, hL, hne, hall, hval⟩ := toDigitsCore_spec (n + 1) n [] (Nat.lt_succ_self n)
    have hdata : (toString (Int.ofNat n)).data = L := by
      show (Nat.toDigits 10 n) = L
      simpa [Nat.toDigits] using hL
    unfold parseIntStr
    rw [hdata]
    match L, hne, hall, hval with
    | c :: r, hne, hall, hval =>
      have hf := (hall c (List.mem_cons_self _ _)).facts
      have hdrop : List.dropWhile isStrWhiteSpace (c :: r) = c :: r := by
        simp [List.dropWhile, hf.1]
      have hsign : splitSign (c :: r) = (false, c :: r) := by
        unfold splitSign
        split <;> simp_all
      rw [hdrop, hsign]
      have := parseDigits_spec (c :: r) n hne hall hval false
      simpa using this
  | negSucc m =>
    obtain ⟨L, hL, hne, hall, hval⟩ := toDigitsCore_spec (m + 1 + 1) (m + 1) []
      (Nat.lt_succ_self _)
    have hdata : (toString (Int.negSucc m)).data = '-' :: L := by
      show ("-" ++ Nat.repr (m + 1)).data = _
      simp only [String.data_append]
      show '-' :: (Nat.toDigits 10 (m + 1)) = _
      simpa [Nat.toDigits] using hL
    unfold parseIntStr
    rw [hdata]
    have hdrop : List.dropWhile isStrWhiteSpace ('-' :: L) = '-' :: L := by
      have : isStrWhiteSpace '-' = false := by decide
      simp [List.dropWhile, this]
    have hsign : splitSign ('-' :: L) = (true, L) := rfl
    rw [hdrop, hsign]
    have := parseDigits_spec L (m + 1) hne hall hval true
    simp only [] at this ⊢
    rw [this]
    simp [Int.negSucc_eq]

/-! ## Listing lectures by course -/

theorem strictEq_right_some (a : JsNum) (c : Int) :
    JsNum.strictEq a (some c) = decide (a = some c) := by
  cases a with
  | none => simp [JsNum.strictEq]
  | some b => by_cases h : b = c <;> simp [JsNum.strictEq, h]

/-- C9 fails on the code for the client-side fallback: with the course `0` selected
in the course list (the option value `0`, a text), a lecture whose `course_id` is `0`
is dropped, because `lecture.course_id || lecture.courseId` skips the falsy `0`; the
lectures with `course_id` 0 of that list are exactly the first one, and with the
course `1` selected the same filter keeps exactly the lecture of course 1. -/
theorem fallback_drops_lectures_of_course_zero :
    fallbackFilter (.str "0") [⟨1, .num 0, .undefined⟩, ⟨2, .num 1, .undefined⟩] = [] ∧
    ([⟨1, .num 0, .undefined⟩, ⟨2, .num 1, .undefined⟩] : List ClientLecture).filter
      (fun l => decide (l.course_id = .num 0)) = [⟨1, .num 0, .undefined⟩] ∧
    fallbackFilter (.str "1") [⟨1, .num 0, .undefined⟩, ⟨2, .num 1, .undefined⟩]
      = [⟨2, .num 1, .undefined⟩] := by
  decide

/-! ## Invariants of the mock database -/

/-- What one request can do to the database: nothing; advance `lastCourseId` only (a
course creation that threw); advance `lastLectureId` only (a lecture creation whose
title threw); append one course with the next id; or append one lecture row with the
next id, together with a nested entry under the first course whose id `courseId`
parses to. -/
theorem handle_database (req : Request) (db : MockDatabase) :
    (handle req db).2 = db ∨
    ((handle req db).2 = { db with lastCourseId := db.lastCourseId + 1 } ∨
      (handle req db).2 = { db with lastLectureId := db.lastLectureId + 1 }) ∨
    (∃ course : Course, course.id = db.lastCourseId + 1 ∧ course.lectures = [] ∧
      (handle req db).2 = { db with
        lastCourseId := db.lastCourseId + 1, courses := db.courses ++ [course] }) ∨
    (∃ (idx : Nat) (target : Course) (row : Lecture) (entry : NestedLecture),
      db.courses[idx]? = some target ∧ row.course_id = some target.id ∧
      row.id = db.lastLectureId + 1 ∧ entry.id = db.lastLectureId + 1 ∧
      (handle req db).2 =
        { courses := updateAt (fun c => { c with lectures := c.lectures ++ [entry] }) idx
            db.courses
          lectures := db.lectures ++ [row]
          lastCourseId := db.lastCourseId
          lastLectureId := db.lastLectureId + 1 }) := by
  have hg : ∀ handler : User → Response × MockDatabase,
      (guardedBy req db handler).2 = db ∨ guardedBy req db handler = handler mockUser := by
    intro handler
    unfold guardedBy verifyToken
    by_cases h : tokenMissing (req.header "x-auth-token") = true
    · left; simp [h]
    · right; simp [h]
  have same : ∀ r : Response, (guardedBy req db fun _ => (r, db)).2 = db := by
    intro r
    rcases hg (fun _ => (r, db)) with h | h
    · exact h
    · rw [h]
  cases hr : req.route with
  | getProfile =>
    left
    simp only [handle, hr]
    rcases hg (fun user => (profileHandler user, db)) with h | h
    · exact h
    · rw [h]
  | postLogin => left; simp only [handle, hr]
  | getCourses => left; simp only [handle, hr]; exact same _
  | getLectures => left; simp only [handle, hr]; exact same _
  | getLecturesByCourse c => left; simp only [handle, hr]; exact same _
  | getLectureById i => left; simp only [handle, hr]; exact same _
  | unmatched => left; simp only [handle, hr]
  | postCourses =>
    have hh : handle req db = guardedBy req db fun _ => postCoursesHandler req db := by
      simp only [handle, hr]
    rw [hh]
    rcases hg (fun _ => postCoursesHandler req db) with h | h
    · exact Or.inl h
    · rw [h]
      cases hname : req.body.name with
      | obj fields => right; left; left; simp [postCoursesHandler, hname]
      | prim p =>
        cases p with
        | str name =>
          right; right; left
          refine ⟨{
            id := db.lastCourseId + 1
            name := name
            title := name
            code := upperAscii (substring0 3 name) ++ numberToString (db.lastCourseId + 1)
            description := req.body.description
            professor_id := .null
            created_by := .null
            created_at := req.clock.createdAt
            updated_at := req.clock.updatedAt
            lectures := [] }, rfl, rfl, ?_⟩
          simp [postCoursesHandler, hname]
        | undefined => right; left; left; simp [postCoursesHandler, hname]
        | null => right; left; left; simp [postCoursesHandler, hname]
        | bool b => right; left; left; simp [postCoursesHandler, hname]
        | num n => right; left; left; simp [postCoursesHandler, hname]
  | postLectures =>
    have hh : handle req db = guardedBy req db fun _ => postLecturesHandler req db := by
      simp only [handle, hr]
    rw [hh]
    rcases hg (fun _ => postLecturesHandler req db) with h | h
    · exact Or.inl h
    · rw [h]
      rcases findCourseIndex_cases db.courses req.body.courseId with
        ⟨e, _, hf⟩ | hf | ⟨idx, parsed, hparsed, hidx, hf⟩
      · left; simp [postLecturesHandler, hf]
      · left; simp [postLecturesHandler, hf]
      · obtain ⟨target, hget, hp⟩ := findIndex_some_get _ _ _ hidx
        cases hn : notesObjOf (fileInfoOf req.file) req.body.notes with
        | error e => left; simp [postLecturesHandler, hf, hn]
        | ok n =>
          cases hno : req.body.lectureNo.toStr with
          | error e => right; left; right; simp [postLecturesHandler, hf, hn, hno]
          | ok lectureNo =>
            cases htopic : req.body.topic.toStr with
            | error e => right; left; right; simp [postLecturesHandler, hf, hn, hno, htopic]
            | ok topic =>
              right; right; right
              refine ⟨idx, target, {
                  id := db.lastLectureId + 1
                  title := "Lecture " ++ lectureNo ++ ": " ++ topic
                  course_id := parsed
                  lecture_date := req.body.date
                  description := descriptionOf req.body.notes
                  slides_url := (fileInfoOf req.file).map (·.url)
                  video_url := .null
                  created_by := .null
                  created_at := req.clock.createdAt
                  updated_at := req.clock.updatedAt
                  file := some (fileInfoOf req.file) }, {
                  id := db.lastLectureId + 1
                  lectureNo := parseIntStr lectureNo
                  topic := req.body.topic
                  date := req.body.date
                  notes := n }, hget, ?_, rfl, rfl, ?_⟩
              · exact (strictEq_some_iff _ _).1 hp
              · simp [postLecturesHandler, hf, hn, hno, htopic]

theorem map_id_updateAt (f : Course → Course) (hf : ∀ c, (f c).id = c.id) (idx : Nat)
    (courses : List Course) :
    (updateAt f idx courses).map (·.id) = courses.map (·.id) := by
  induction courses generalizing idx with
  | nil => cases idx <;> rfl
  | cons c cs ih =>
    cases idx with
    | zero => simp [updateAt, hf]
    | succ i => simp [updateAt, ih]

theorem referentialIntegrity_handle (req : Request) (db : MockDatabase)
    (h : ReferentialIntegrity db) : ReferentialIntegrity (handle req db).2 := by
  have ids : ∀ {cs cs' : List Course}, cs'.map (·.id) = cs.map (·.id) →
      ∀ {i : Int}, (∃ c ∈ cs, i = c.id) → ∃ c ∈ cs', i = c.id := by
    intro cs cs' hmap i ⟨c, hc, hi⟩
    have : i ∈ cs'.map (·.id) := by
      rw [hmap, hi]
      exact List.mem_map_of_mem _ hc
    obtain ⟨c', hc', rfl⟩ := List.mem_map.1 this
    exact ⟨c', hc', rfl⟩
  rcases handle_database req db with e | (e | e) | ⟨course, _, _, e⟩ |
    ⟨idx, target, row, entry, hget, hrow, _, _, e⟩
  · rw [e]; exact h
  · rw [e]; exact h
  · rw [e]; exact h
  · rw [e]
    intro l hl
    obtain ⟨c, hc, hlc⟩ := h l hl
    exact ⟨c, List.mem_append_left _ hc, hlc⟩
  · rw [e]
    have hmap := map_id_updateAt (fun c => { c with lectures := c.lectures ++ [entry] })
      (fun _ => rfl) idx db.courses
    intro l hl
    simp only [List.mem_append, List.mem_singleton] at hl
    have key : ∃ c ∈ db.courses, l.course_id = some c.id := by
      rcases hl with hl | rfl
      · exact h l hl
      · exact ⟨target, List.getElem?_mem hget, hrow⟩
    obtain ⟨c, hc, hlc⟩ := key
    obtain ⟨c', hc', hi⟩ := ids hmap ⟨c, hc, rfl⟩
    exact ⟨c', hc', by rw [hlc, hi]⟩

/-- C11. Referential integrity is an invariant of the mock database: in every state
reachable from the seeded state by requests to the mock server, every row of
`mockDatabase.lectures` has a `course_id` that is the id of a row of
`mockDatabase.courses`. -/
theorem referential_integrity_invariant (boot : BootClock) (db : MockDatabase)
    (h : Reachable boot db) : ReferentialIntegrity db := by
  induction h with
  | init =>
    intro l hl
    simp only [initialDatabase, List.mem_singleton] at hl
    subst hl
    exact ⟨_, List.mem_singleton.2 rfl, rfl⟩
  | step req _ ih => exact referentialIntegrity_handle req _ ih

/-- Witness of C11: the state after a course creation and a lecture for the new
course. -/
theorem referential_integrity_invariant_witness :
    Reachable sampleBoot sampleSession ∧ ReferentialIntegrity sampleSession ∧
    sampleSession.lectures.map (·.course_id) = [some 1, some 2] :=
  ⟨Reachable.step _ (Reachable.step _ Reachable.init),
    referential_integrity_invariant sampleBoot sampleSession
      (Reachable.step _ (Reachable.step _ Reachable.init)),
    by decide⟩

/-! ## The synthesised lecture title -/

theorem splitSign_of_decimal (c : Char) (r : List Char) (h : IsDecimal c) :
    splitSign (c :: r) = (false, c :: r) := by
  have hf := h.facts
  unfold splitSign
  split <;> simp_all

theorem dropWhile_whiteSpace_of_decimal (c : Char) (r : List Char) (h : IsDecimal c) :
    List.dropWhile isStrWhiteSpace (c :: r) = c :: r := by
  simp [List.dropWhile, h.facts.1]

theorem decimalDigits_value (c : Char) (r : List Char) (n : Nat) (neg : Bool)
    (hall : ∀ x ∈ c :: r, IsDecimal x)
    (hval : ∀ acc, digitsValue 10 acc (c :: r) = acc * 10 ^ (c :: r).length + n) :
    (if (digitIn 10 c).isSome then
        some (toDouble (if neg then -((digitsValue 10 0 (c :: r) : Nat) : Int)
          else ((digitsValue 10 0 (c :: r) : Nat) : Int)))
      else none) = some (toDouble (if neg then -(n : Int) else n)) := by
  obtain ⟨d, _, hd, _⟩ := (hall c (List.mem_cons_self _ _)).digitIn
  simp [hd, hval]

theorem parseIntStrRadix10_toString (c : Int) :
    parseIntStrRadix10 (toString c) = some (toDouble c) := by
  cases c with
  | ofNat n =>
    obtain ⟨L, hL, hne, hall, hval⟩ := toDigitsCore_spec (n + 1) n [] (Nat.lt_succ_self n)
    have hdata : (toString (Int.ofNat n)).data = L := by
      show (Nat.toDigits 10 n) = L
      simpa [Nat.toDigits] using hL
    unfold parseIntStrRadix10
    rw [hdata]
    match L, hne, hall, hval with
    | c :: r, hne, hall, hval =>
      rw [dropWhile_whiteSpace_of_decimal c r (hall c (List.mem_cons_self _ _)),
        splitSign_of_decimal c r (hall c (List.mem_cons_self _ _))]
      have := decimalDigits_value c r n false hall hval
      simpa using this
  | negSucc m =>
    obtain ⟨L, hL, hne, hall, hval⟩ := toDigitsCore_spec (m + 1 + 1) (m + 1) []
      (Nat.lt_succ_self _)
    have hdata : (toString (Int.negSucc m)).data = '-' :: L := by
      show ("-" ++ Nat.repr (m + 1)).data = _
      simp only [String.data_append]
      show '-' :: (Nat.toDigits 10 (m + 1)) = _
      simpa [Nat.toDigits] using hL
    unfold parseIntStrRadix10
    rw [hdata]
    have hdrop : List.dropWhile isStrWhiteSpace ('-' :: L) = '-' :: L := by
      have : isStrWhiteSpace '-' = false := by decide
      simp [List.dropWhile, this]
    have hsign : splitSign ('-' :: L) = (true, L) := rfl
    rw [hdrop, hsign]
    match L, hne, hall, hval with
    | c :: r, hne, hall, hval =>
      have := decimalDigits_value c r (m + 1) true hall hval
      simp only [] at this ⊢
      rw [this]
      simp [Int.negSucc_eq]

theorem lectureNumberOf_canonical (k : Int) (hk : k ≠ 0) (hsafe : k.natAbs < 9007199254740992) :
    lectureNumberOf (.prim (.str (toString k))) = .ok k := by
  simp [lectureNumberOf, JVal.toStr, Prim.toStr, parseIntStrRadix10_toString,
    toDouble_of_safe k hsafe, hk]

/-- A lecture creation answered 201 passed the gate, parsed its `courseId`, found its
course, built its notes and converted its number and topic; the response and the
database after it are then determined. -/
theorem created_of_status (req : Request) (db : MockDatabase)
    (hr : req.route = .postLectures) (hs : (handle req db).1.status = 201) :
    ∃ (idx : Nat) (parsed : JsNum) (n : Notes) (lectureNo topic : String),
      parseInt req.body.courseId = .ok parsed ∧
      findIndex (fun course : Course => JsNum.strictEq (some course.id) parsed) db.courses
        = some idx ∧
      notesObjOf (fileInfoOf req.file) req.body.notes = .ok n ∧
      req.body.lectureNo.toStr = .ok lectureNo ∧ req.body.topic.toStr = .ok topic ∧
      handle req db =
        (⟨201, .lectureCreated "Lecture created successfully" (db.lastLectureId + 1)
            (fileInfoOf req.file)⟩,
          { courses := updateAt (fun c => { c with lectures := c.lectures ++ [{
                id := db.lastLectureId + 1
                lectureNo := parseIntStr lectureNo
                topic := req.body.topic
                date := req.body.date
                notes := n }] }) idx db.courses
            lectures := db.lectures ++ [{
              id := db.lastLectureId + 1
              title := "Lecture " ++ lectureNo ++ ": " ++ topic
              course_id := parsed
              lecture_date := req.body.date
              description := descriptionOf req.body.notes
              slides_url := (fileInfoOf req.file).map (·.url)
              video_url := .null
              created_by := .null
              created_at := req.clock.createdAt
              updated_at := req.clock.updatedAt
              file := some (fileInfoOf req.file) }]
            lastCourseId := db.lastCourseId
            lastLectureId := db.lastLectureId + 1 }) := by
  have hh : handle req db = guardedBy req db fun _ => postLecturesHandler req db := by
    simp only [handle, hr]
  rw [hh] at hs ⊢
  by_cases hm : tokenMissing (req.header "x-auth-token") = true
  · rw [guardedBy_of_missing db _ hm] at hs
    simp [unauthorized] at hs
  · have hg : guardedBy req db (fun _ => postLecturesHandler req db)
        = postLecturesHandler req db := by
      simp [guardedBy, verifyToken, hm]
    rw [hg] at hs ⊢
    rcases findCourseIndex_cases db.courses req.body.courseId with
      ⟨e, _, hf⟩ | hf | ⟨idx, parsed, hparsed, hidx, hf⟩
    · simp [postLecturesHandler, hf] at hs
    · simp [postLecturesHandler, hf] at hs
    · cases hn : notesObjOf (fileInfoOf req.file) req.body.notes with
      | error e => simp [postLecturesHandler, hf, hn] at hs
      | ok n =>
        cases hno : req.body.lectureNo.toStr with
        | error e => simp [postLecturesHandler, hf, hn, hno] at hs
        | ok lectureNo =>
          cases htopic : req.body.topic.toStr with
          | error e => simp [postLecturesHandler, hf, hn, hno, htopic] at hs
          | ok topic =>
            refine ⟨idx, parsed, n, lectureNo, topic, hparsed, hidx, rfl, rfl, rfl, ?_⟩
            simp [postLecturesHandler, hf, hn, hno, htopic]

/-- Every `INSERT` of the direct lecture creation carries the title built from
`parseInt(lectureNo, 10) || 1` and the topic. -/
theorem direct_insert_title (body : Body) (replies : DirectReplies) :
    ∀ p ∈ (directPostLecturesHandler body replies).inserts,
      ∃ (k : Int) (topic : String),
        lectureNumberOf body.lectureNo = .ok k ∧ body.topic.toStr = .ok topic ∧
        p.title = "Lecture " ++ numberToString k ++ ": " ++ topic := by
  intro p hp
  unfold directPostLecturesHandler at hp
  cases hu : replies.users with
  | error m => simp [hu] at hp
  | ok users =>
    cases hq : directQueryParams body users.head? with
    | error e => simp [hu, hq] at hp
    | ok params =>
      have hp' : p = params := by
        cases hi : replies.insert <;> simpa [hu, hq, hi] using hp
      subst hp'
      unfold directQueryParams at hq
      cases hk : lectureNumberOf body.lectureNo with
      | error e => simp [hk] at hq
      | ok k =>
        cases ht : body.topic.toStr with
        | error e => simp [hk, ht] at hq
        | ok topic =>
          cases hc : body.notes.getProp "content" with
          | error e => simp [hk, ht, hc] at hq
          | ok content =>
            simp only [hk, ht, hc, Except.ok.injEq] at hq
            exact ⟨k, topic, rfl, rfl, by rw [← hq]⟩

/-- C12, as stated, fails for the direct implementation: with `lectureNo` submitted as
`03` and the topic `RSA`, the mock server stores the title `Lecture 03: RSA`, while
the title parameter of the direct `INSERT` is `Lecture 3: RSA`; with the number
`9007199254740993` the direct title carries `9007199254740992`. -/
theorem direct_title_normalises_the_number :
    (directPostLecturesHandler lectureNumber03 sampleReplies).body
      = .created "Lecture created successfully" 5 ∧
    (directPostLecturesHandler lectureNumber03 sampleReplies).inserts.map (·.title)
      = ["Lecture 3: RSA"] ∧
    (handle (authedWith "t" .postLectures lectureNumber03) sampleDb).2.lectures.map (·.title)
      = ["Lecture 1: Introduction to Encryption", "Lecture 03: RSA"] ∧
    "Lecture 3: RSA" ≠ "Lecture 03: RSA" ∧
    (directPostLecturesHandler lectureNumberBig sampleReplies).inserts.map (·.title)
      = ["Lecture 9007199254740992: RSA"] := by
  decide

/-- C12, amended. On the mock server every successful lecture creation stores a row
whose title is `Lecture <lectureNo>: <topic>` with both values as submitted, converted
to strings.  In the direct implementation every `INSERT` carries the title
`Lecture <k>: <topic>` where `k` is `parseInt(lectureNo, 10) || 1`; this is the title
with the number as submitted whenever `lectureNo` is the decimal string of a non-zero
integer below `2 ^ 53` in magnitude. -/
theorem lecture_title_synthesis (req : Request) (db : MockDatabase) (replies : DirectReplies) :
    (req.route = .postLectures → (handle req db).1.status = 201 →
      ∃ (row : Lecture) (lectureNo topic : String),
        (handle req db).2.lectures = db.lectures ++ [row] ∧
        req.body.lectureNo.toStr = .ok lectureNo ∧ req.body.topic.toStr = .ok topic ∧
        row.title = "Lecture " ++ lectureNo ++ ": " ++ topic) ∧
    (∀ p ∈ (directPostLecturesHandler req.body replies).inserts,
      ∃ (k : Int) (topic : String),
        lectureNumberOf req.body.lectureNo = .ok k ∧ req.body.topic.toStr = .ok topic ∧
        p.title = "Lecture " ++ numberToString k ++ ": " ++ topic) ∧
    (∀ k : Int, k ≠ 0 → k.natAbs < 9007199254740992 →
      req.body.lectureNo = .prim (.str (toString k)) →
      ∀ p ∈ (directPostLecturesHandler req.body replies).inserts,
        ∃ topic : String, req.body.topic.toStr = .ok topic ∧
          p.title = "Lecture " ++ toString k ++ ": " ++ topic) := by
  refine ⟨?_, direct_insert_title req.body replies, ?_⟩
  · intro hr hs
    obtain ⟨idx, parsed, n, lectureNo, topic, _, _, _, hno, htopic, hh⟩ :=
      created_of_status req db hr hs
    rw [hh]
    exact ⟨_, lectureNo, topic, rfl, hno, htopic, rfl⟩
  · intro k hk hsafe hno p hp
    obtain ⟨k', topic, hk', htopic, hp'⟩ := direct_insert_title req.body replies p hp
    rw [hno, lectureNumberOf_canonical k hk hsafe] at hk'
    have hkk : k' = k := (Except.ok.inj hk').symm
    subst hkk
    rw [numberToString_of_safe k' hsafe] at hp'
    exact ⟨topic, htopic, hp'⟩

/-- Witness of the amended C12: the lecture number `7` on both implementations. -/
theorem lecture_title_synthesis_witness :
    (∃ (row : Lecture) (lectureNo topic : String),
      (handle (authedWith "t" .postLectures lectureNumber7) sampleDb).2.lectures
        = sampleDb.lectures ++ [row] ∧
      lectureNumber7.lectureNo.toStr = .ok lectureNo ∧
      lectureNumber7.topic.toStr = .ok topic ∧
      row.title = "Lecture " ++ lectureNo ++ ": " ++ topic) ∧
    (directPostLecturesHandler lectureNumber7 sampleReplies).inserts.map (·.title)
      = ["Lecture 7: RSA"] :=
  ⟨(lecture_title_synthesis (authedWith "t" .postLectures lectureNumber7)
      sampleDb sampleReplies).1 rfl (by decide),
    by decide⟩

/-! ## Extensions of stored names -/

theorem IsDecimal.not_dot_slash {c : Char} (h : IsDecimal c) : c ≠ '.' ∧ c ≠ '/' := by
  obtain ⟨d, hd, rfl⟩ := h
  interval_cases d <;> decide

theorem toString_nat_decimal (n : Nat) : ∀ c ∈ (toString n).data, IsDecimal c := by
  obtain ⟨L, hL, _, hall, _⟩ := toDigitsCore_spec (n + 1) n [] (Nat.lt_succ_self n)
  have hdata : (toString n).data = L := by
    show (Nat.toDigits 10 n) = L
    simpa [Nat.toDigits] using hL
  rw [hdata]
  exact hall

theorem dropWhile_eq_self_of_head {p : Char → Bool} (l : List Char)
    (h : ∀ c ∈ l, p c = false) : l.dropWhile p = l := by
  cases l with
  | nil => rfl
  | cons c r => simp [List.dropWhile, h c (List.mem_cons_self _ _)]

theorem lastPortionRev_of_no_slash (l : List Char) (h : ∀ c ∈ l, c ≠ '/') :
    lastPortionRev l = l.reverse := by
  have h' : ∀ c ∈ l.reverse, c ≠ '/' := fun c hc => h c (List.mem_reverse.1 hc)
  unfold lastPortionRev
  rw [dropWhile_eq_self_of_head _ (fun c hc => by simpa using h' c hc)]
  exact List.takeWhile_eq_self_iff.2 (fun c hc => by simpa using h' c hc)

theorem mem_lastPortionRev {l : List Char} {c : Char} (h : c ∈ lastPortionRev l) :
    c ∈ l ∧ c ≠ '/' := by
  unfold lastPortionRev at h
  refine ⟨?_, ?_⟩
  · exact List.mem_reverse.1 (List.dropWhile_subset _ (List.takeWhile_subset _ h))
  · simpa using List.mem_takeWhile_imp h

/-- A path without any `.` has no extension. -/
theorem extname_of_no_dot (l : List Char) (h : ∀ c ∈ l, c ≠ '.') :
    extname (String.mk l) = "" := by
  have hall : ∀ c ∈ lastPortionRev l, (c != '.') = true := by
    intro c hc
    simpa using h c (mem_lastPortionRev hc).1
  unfold extname extnameOfPortionRev
  rw [List.dropWhile_eq_nil_iff.2 hall]

/-- The extension is empty, or a `.` followed by characters other than `.` and `/`. -/
theorem extname_shape (s : String) :
    extname s = "" ∨
    ∃ e : List Char, extname s = String.mk ('.' :: e) ∧ ∀ c ∈ e, c ≠ '.' ∧ c ≠ '/' := by
  unfold extname extnameOfPortionRev
  split
  · exact Or.inl rfl
  · exact Or.inl rfl
  · split
    · exact Or.inl rfl
    · refine Or.inr ⟨_, rfl, ?_⟩
      intro c hc
      have hc' := List.mem_reverse.1 hc
      refine ⟨?_, (mem_lastPortionRev (List.takeWhile_subset _ hc')).2⟩
      simpa using List.mem_takeWhile_imp hc'

/-- A non-empty prefix free of `.` and `/`, followed by an extension, has that
extension. -/
theorem extname_prefix_append (P e : List Char) (hP : P ≠ [])
    (hPc : ∀ c ∈ P, c ≠ '.' ∧ c ≠ '/') (he : ∀ c ∈ e, c ≠ '.' ∧ c ≠ '/') :
    extname (String.mk (P ++ '.' :: e)) = String.mk ('.' :: e) := by
  have hslash : ∀ c ∈ P ++ '.' :: e, c ≠ '/' := by
    intro c hc
    rcases List.mem_append.1 hc with hc | hc
    · exact (hPc c hc).2
    · rcases List.mem_cons.1 hc with rfl | hc
      · decide
      · exact (he c hc).2
  have hrev : (P ++ '.' :: e).reverse = e.reverse ++ '.' :: P.reverse := by simp
  have hedot : ∀ c ∈ e.reverse, (c != '.') = true := by
    intro c hc
    simpa using (he c (List.mem_reverse.1 hc)).1
  obtain ⟨x, xs, hx⟩ : ∃ x xs, P.reverse = x :: xs := by
    cases h : P.reverse with
    | nil => exact absurd (List.reverse_eq_nil_iff.1 h) hP
    | cons x xs => exact ⟨x, xs, rfl⟩
  have hxdot : x ≠ '.' := (hPc x (List.mem_reverse.1 (hx ▸ List.mem_cons_self _ _))).1
  unfold extname extnameOfPortionRev
  rw [lastPortionRev_of_no_slash _ hslash, hrev, List.dropWhile_append_of_pos hedot,
    List.takeWhile_append_of_pos hedot, hx]
  have hd : List.dropWhile (fun c => c != '.') ('.' :: x :: xs) = '.' :: x :: xs := by
    simp [List.dropWhile]
  have ht : List.takeWhile (fun c => c != '.') ('.' :: x :: xs) = [] := by
    simp [List.takeWhile]
  rw [hd, ht]
  simp only [List.append_nil, List.reverse_reverse]
  have hne : ¬ (e.reverse ++ '.' :: x :: xs = ['.', '.']) := by
    intro heq
    cases hr : e.reverse with
    | nil =>
      rw [hr] at heq
      simp only [List.nil_append, List.cons.injEq] at heq
      exact hxdot heq.2.1
    | cons y ys =>
      rw [hr] at heq
      simp only [List.cons_append, List.cons.injEq] at heq
      have : (y != '.') = true := hedot y (hr ▸ List.mem_cons_self _ _)
      simp [heq.1] at this
  rw [if_neg hne]

/-- The stored name of a lecture upload has the extension of the original name, for
a field name free of `.` and `/`. -/
theorem extname_lectureStorageFilename (fieldname originalname : String) (now random : Nat)
    (hf : ∀ c ∈ fieldname.data, c ≠ '.' ∧ c ≠ '/') :
    extname (lectureStorageFilename fieldname originalname now random)
      = extname originalname := by
  have hdata : lectureStorageFilename fieldname originalname now random
      = String.mk ((fieldname.data ++ '-' :: ((toString now).data ++ '-' :: (toString random).data))
          ++ (extname originalname).data) := by
    apply String.ext
    simp [lectureStorageFilename, String.data_append]
  have hP : ∀ c ∈ fieldname.data ++ '-' :: ((toString now).data ++ '-' :: (toString random).data),
      c ≠ '.' ∧ c ≠ '/' := by
    intro c hc
    simp only [List.mem_append, List.mem_cons] at hc
    rcases hc with hc | rfl | hc | rfl | hc
    · exact hf c hc
    · exact ⟨by decide, by decide⟩
    · exact (toString_nat_decimal now c hc).not_dot_slash
    · exact ⟨by decide, by decide⟩
    · exact (toString_nat_decimal random c hc).not_dot_slash
  rw [hdata]
  rcases extname_shape originalname with h | ⟨e, h, he⟩
  · rw [h]
    have hempty : ("" : String).data = [] := rfl
    rw [hempty, List.append_nil]
    exact extname_of_no_dot _ (fun c hc => (hP c hc).1)
  · rw [h]
    exact extname_prefix_append _ e (by simp) hP he

/-- Text put in front of a path whose extension is not empty does not change the
extension, as long as the text has no `.` and no `/`. -/
theorem extname_prepend (P l : List Char) (hP : P ≠ []) (hPc : ∀ c ∈ P, c ≠ '.' ∧ c ≠ '/')
    (h : extname (String.mk l) ≠ "") :
    extname (String.mk (P ++ l)) = extname (String.mk l) := by
  have hQ : ∀ c ∈ P.reverse, (c != '.') = true ∧ (c != '/') = true := by
    intro c hc
    have := hPc c (List.mem_reverse.1 hc)
    simpa using this
  have hQne : P.reverse ≠ [] := fun hq => hP (List.reverse_eq_nil_iff.1 hq)
  -- the last portion of the longer path is that of `l`, possibly followed by `P`
  have hportion : lastPortionRev (P ++ l) = lastPortionRev l ∨
      lastPortionRev (P ++ l) = lastPortionRev l ++ P.reverse := by
    unfold lastPortionRev
    rw [List.reverse_append, List.dropWhile_append]
    by_cases hA : (List.dropWhile (fun x => x == '/') l.reverse).isEmpty = true
    · exfalso
      apply h
      have hnil : List.dropWhile (fun x => x == '/') l.reverse = [] := by
        simpa using hA
      show extnameOfPortionRev (lastPortionRev l) = ""
      unfold lastPortionRev
      rw [hnil]
      rfl
    · rw [if_neg hA, List.takeWhile_append]
      split
      · right
        rename_i hlen
        have hfull : List.takeWhile (fun x => x != '/')
            (List.dropWhile (fun x => x == '/') l.reverse)
            = List.dropWhile (fun x => x == '/') l.reverse := by
          apply List.Sublist.eq_of_length (List.takeWhile_sublist _) hlen
        rw [hfull, List.takeWhile_eq_self_iff.2 (fun c hc => (hQ c hc).2)]
      · left; rfl
  show extnameOfPortionRev (lastPortionRev (P ++ l)) = extnameOfPortionRev (lastPortionRev l)
  rcases hportion with hp | hp
  · rw [hp]
  · rw [hp]
    have h' : extnameOfPortionRev (lastPortionRev l) ≠ "" := h
    generalize lastPortionRev l = B at h' ⊢
    unfold extnameOfPortionRev at h' ⊢
    cases hD : List.dropWhile (fun x => x != '.') B with
    | nil => simp [hD] at h'
    | cons d r =>
      cases r with
      | nil => simp [hD] at h'
      | cons x xs =>
        have hBne : ¬ (B = ['.', '.']) := by
          intro hB
          simp [hD, hB] at h'
        have hdrop : List.dropWhile (fun x => x != '.') (B ++ P.reverse)
            = d :: x :: (xs ++ P.reverse) := by
          rw [List.dropWhile_append, hD]
          simp
        have htake : List.takeWhile (fun x => x != '.') (B ++ P.reverse)
            = List.takeWhile (fun x => x != '.') B := by
          rw [List.takeWhile_append]
          have hlen : (List.takeWhile (fun x => x != '.') B).length ≠ B.length := by
            intro hlen
            have := congrArg List.length (List.takeWhile_append_dropWhile (fun x => x != '.') B)
            rw [List.length_append, hD] at this
            simp only [List.length_cons] at this
            omega
          rw [if_neg hlen]
        have hlong : ¬ (B ++ P.reverse = ['.', '.']) := by
          intro heq
          have h1 := congrArg List.length heq
          have h2 := congrArg List.length (List.takeWhile_append_dropWhile (fun x => x != '.') B)
          rw [List.length_append, hD] at h2
          rw [List.length_append] at h1
          have h3 : 0 < P.reverse.length := List.length_pos.2 hQne
          simp only [List.length_cons, List.length_nil] at h1 h2
          omega
        rw [hdrop, htake]
        simp only [hBne, hlong, if_false]

/-- The stored name of a Resources upload keeps a non-empty extension of the original
name. -/
theorem extname_resourcesStorageFilename (originalname : String) (now : Nat)
    (h : extname originalname ≠ "") :
    extname (resourcesStorageFilename originalname now) = extname originalname := by
  have hdata : resourcesStorageFilename originalname now
      = String.mk (((toString now).data ++ ['-']) ++ originalname.data) := by
    apply String.ext
    simp [resourcesStorageFilename, String.data_append]
  have hP : ∀ c ∈ (toString now).data ++ ['-'], c ≠ '.' ∧ c ≠ '/' := by
    intro c hc
    simp only [List.mem_append, List.mem_singleton] at hc
    rcases hc with hc | rfl
    · exact (toString_nat_decimal now c hc).not_dot_slash
    · exact ⟨by decide, by decide⟩
  rw [hdata]
  exact extname_prepend _ originalname.data (by simp) hP h

/-! ## The download route -/

/-- The characters a header value may hold. -/
theorem validHeaderValue_iff (value : String) :
    validHeaderValue value = true ↔
      ∀ c ∈ value.data, c.toNat = 0x09 ∨ (0x20 ≤ c.toNat ∧ c.toNat ≤ 0x7E) ∨
        (0x80 ≤ c.toNat ∧ c.toNat ≤ 0xFF) := by
  simp [validHeaderValue, List.all_eq_true, or_assoc]

theorem validHeaderValue_append (a b : String) :
    validHeaderValue (a ++ b) = (validHeaderValue a && validHeaderValue b) := by
  simp [validHeaderValue, String.data_append, List.all_append]

theorem validHeaderValue_toString (n : Nat) : validHeaderValue (toString n) = true := by
  rw [validHeaderValue_iff]
  intro c hc
  obtain ⟨d, hd, rfl⟩ := toString_nat_decimal n c hc
  interval_cases d <;> decide

/-- A text whose ASCII lower-casing is `.pdf` is valid in a header. -/
theorem validHeaderValue_of_lower_pdf (e : String) (h : lowerAscii e = ".pdf") :
    validHeaderValue e = true := by
  rw [validHeaderValue_iff]
  intro c hc
  have hdata : e.data.map Char.toLower = ['.', 'p', 'd', 'f'] := by
    have := congrArg String.data h
    simpa [lowerAscii] using this
  have hmem : Char.toLower c ∈ ['.', 'p', 'd', 'f'] := by
    rw [← hdata]
    exact List.mem_map_of_mem _ hc
  have hlow : (Char.toLower c).toNat = 46 ∨ (Char.toLower c).toNat = 112 ∨
      (Char.toLower c).toNat = 100 ∨ (Char.toLower c).toNat = 102 := by
    simp only [List.mem_cons, List.mem_singleton, List.not_mem_nil, or_false] at hmem
    rcases hmem with h | h | h | h <;> rw [h] <;> decide
  by_cases hup : c.toNat ≥ 65 ∧ c.toNat ≤ 90
  · right; left; omega
  · have hsame : Char.toLower c = c := by
      unfold Char.toLower
      simp only [hup, if_false]
    rw [hsame] at hlow
    right; left; omega

/-- C13, as stated, fails: for the existing file `日本.pdf` the route does not send the
file with a `Content-Type` at all; `res.setHeader` rejects the `Content-Disposition`
value, and the `catch` block answers 500 with a JSON body. -/
theorem download_of_unprintable_name_fails :
    lowerAscii (extname "日本.pdf") = ".pdf" ∧
    validHeaderValue "日本.pdf" = false ∧
    downloadHandler (fun _ => true) "日本.pdf" = .json 500 "Error downloading file" := by
  decide

/-- C13, amended. For every stored filename that exists and is valid header text
(its characters are the tab or lie in U+0020 to U+007E or U+0080 to U+00FF, as in
every ASCII name), the download route answers with the file and a `Content-Type`
fixed by the lower-cased extension of the filename: `.pdf`, `.doc`/`.docx`,
`.ppt`/`.pptx`, `.xls`/`.xlsx`, `.zip` and `.txt` map to their types, and any other
extension, or none, to `application/octet-stream`. -/
theorem download_content_type (existsSync : String → Bool) (filename : String)
    (hex : existsSync filename = true) (hvalid : validHeaderValue filename = true) :
    ∃ contentType : String,
      downloadHandler existsSync filename
        = .file ("attachment; filename=\"" ++ filename ++ "\"") contentType ∧
      (lowerAscii (extname filename) = ".pdf" → contentType = "application/pdf") ∧
      (lowerAscii (extname filename) = ".doc" ∨ lowerAscii (extname filename) = ".docx" →
        contentType = "application/msword") ∧
      (lowerAscii (extname filename) = ".ppt" ∨ lowerAscii (extname filename) = ".pptx" →
        contentType = "application/vnd.ms-powerpoint") ∧
      (lowerAscii (extname filename) = ".xls" ∨ lowerAscii (extname filename) = ".xlsx" →
        contentType = "application/vnd.ms-excel") ∧
      (lowerAscii (extname filename) = ".zip" → contentType = "application/zip") ∧
      (lowerAscii (extname filename) = ".txt" → contentType = "text/plain") ∧
      (lowerAscii (extname filename) ∉
          [".pdf", ".doc", ".docx", ".ppt", ".pptx", ".xls", ".xlsx", ".zip", ".txt"] →
        contentType = "application/octet-stream") := by
  have hheader : validHeaderValue ("attachment; filename=\"" ++ filename ++ "\"") = true := by
    rw [validHeaderValue_append, validHeaderValue_append, hvalid]
    decide
  refine ⟨contentTypeOf (lowerAscii (extname filename)),
    by simp [downloadHandler, hex, hheader], ?_, ?_, ?_, ?_, ?_, ?_, ?_⟩
  · intro h; rw [h]; decide
  · rintro (h | h) <;> rw [h] <;> decide
  · rintro (h | h) <;> rw [h] <;> decide
  · rintro (h | h) <;> rw [h] <;> decide
  · intro h; rw [h]; decide
  · intro h; rw [h]; decide
  · intro h
    simp only [List.mem_cons, List.mem_singleton, List.not_mem_nil, or_false, not_or] at h
    obtain ⟨h1, h2, h3, h4, h5, h6, h7, h8, h9⟩ := h
    simp [contentTypeOf, h1, h2, h3, h4, h5, h6, h7, h8, h9]

/-- Witness of the amended C13: an existing spreadsheet with an upper-case extension. -/
theorem download_content_type_witness :
    ∃ contentType : String,
      downloadHandler (fun _ => true) "grades.XLSX"
        = .file ("attachment; filename=\"" ++ "grades.XLSX" ++ "\"") contentType ∧
      contentType = "application/vnd.ms-excel" := by
  obtain ⟨ct, h, _, _, _, hx, _⟩ :=
    download_content_type (fun _ => true) "grades.XLSX" rfl (by decide)
  exact ⟨ct, h, hx (Or.inr (by decide))⟩

/-- C14, as stated, fails: for the lecture created with the PDF `notes.pdf`, the
retrieval URL names the stored file, and its download carries the stored name in
`Content-Disposition`; the original name `notes.pdf` does not occur in that header. -/
theorem download_names_the_stored_file :
    (handle lectureWithPdf sampleDb).2.lectures.map (·.slides_url)
      = [none, some "/api/lectures/download/pdfFile-1700000000000-123456789.pdf"] ∧
    downloadHandler (fun _ => true) "pdfFile-1700000000000-123456789.pdf"
      = .file "attachment; filename=\"pdfFile-1700000000000-123456789.pdf\""
          "application/pdf" ∧
    occursIn "notes.pdf".data
      "attachment; filename=\"pdfFile-1700000000000-123456789.pdf\"".data = false := by
  decide

/-- C14, amended. For every lecture created on the mock server with an uploaded file
whose original name `f` has the extension `.pdf` in any letter case, the retrieval URL
is `/api/lectures/download/<stored name>`, and requesting it while the stored file
exists returns `Content-Type: application/pdf` and the header
`Content-Disposition: attachment; filename="<stored name>"`, the stored name being
`pdfFile-<timestamp>-<random>` followed by the extension of `f`. -/
theorem uploaded_pdf_is_served_under_its_stored_name (req : Request) (db : MockDatabase)
    (f : String) (now random : Nat) (existsSync : String → Bool) (file : UploadedFile)
    (hr : req.route = .postLectures) (hfile : req.file = some file)
    (horig : file.originalname = f)
    (hstored : file.filename = lectureStorageFilename "pdfFile" f now random)
    (hpdf : lowerAscii (extname f) = ".pdf")
    (hcreated : (handle req db).1.status = 201)
    (hex : existsSync (lectureStorageFilename "pdfFile" f now random) = true) :
    ∃ (lectureId : Int) (info : FileInfo) (row : Lecture),
      (handle req db).1
        = ⟨201, .lectureCreated "Lecture created successfully" lectureId (some info)⟩ ∧
      (handle req db).2.lectures = db.lectures ++ [row] ∧
      info.originalName = f ∧
      info.url = "/api/lectures/download/" ++ lectureStorageFilename "pdfFile" f now random ∧
      row.slides_url = some info.url ∧
      lectureStorageFilename "pdfFile" f now random
        = "pdfFile" ++ "-" ++ (toString now ++ "-" ++ toString random) ++ extname f ∧
      downloadHandler existsSync (lectureStorageFilename "pdfFile" f now random)
        = .file ("attachment; filename=\""
            ++ lectureStorageFilename "pdfFile" f now random ++ "\"") "application/pdf" := by
  have hext : extname (lectureStorageFilename "pdfFile" f now random) = extname f :=
    extname_lectureStorageFilename "pdfFile" f now random (by decide)
  have hname : validHeaderValue (lectureStorageFilename "pdfFile" f now random) = true := by
    have hshape : lectureStorageFilename "pdfFile" f now random
        = "pdfFile" ++ "-" ++ (toString now ++ "-" ++ toString random) ++ extname f := rfl
    rw [hshape]
    simp only [validHeaderValue_append, validHeaderValue_toString,
      validHeaderValue_of_lower_pdf _ hpdf, Bool.and_true, Bool.true_and]
    decide
  have hheader : validHeaderValue ("attachment; filename=\""
      ++ lectureStorageFilename "pdfFile" f now random ++ "\"") = true := by
    rw [validHeaderValue_append, validHeaderValue_append, hname]
    decide
  have hdl : downloadHandler existsSync (lectureStorageFilename "pdfFile" f now random)
      = .file ("attachment; filename=\""
          ++ lectureStorageFilename "pdfFile" f now random ++ "\"") "application/pdf" := by
    simp only [downloadHandler, hex, hext, hpdf, hheader]
    rfl
  obtain ⟨idx, parsed, n, lectureNo, topic, _, _, _, _, _, hh⟩ :=
    created_of_status req db hr hcreated
  rw [hh]
  refine ⟨db.lastLectureId + 1, {
      originalName := file.originalname
      filename := file.filename
      mimetype := file.mimetype
      path := file.path
      size := file.size
      url := "/api/lectures/download/" ++ file.filename
      type := "pdf" }, _, ?_, rfl, horig, ?_, ?_, rfl, hdl⟩
  · simp [hfile, fileInfoOf]
  · simp only [hstored]
  · simp [hfile, fileInfoOf]

/-- Witness of the amended C14: the lecture created with `notes.pdf`. -/
theorem uploaded_pdf_is_served_under_its_stored_name_witness :
    ∃ (lectureId : Int) (info : FileInfo) (row : Lecture),
      (handle lectureWithPdf sampleDb).1
        = ⟨201, .lectureCreated "Lecture created successfully" lectureId (some info)⟩ ∧
      (handle lectureWithPdf sampleDb).2.lectures = sampleDb.lectures ++ [row] ∧
      info.originalName = "notes.pdf" ∧
      info.url = "/api/lectures/download/"
        ++ lectureStorageFilename "pdfFile" "notes.pdf" 1700000000000 123456789 ∧
      row.slides_url = some info.url ∧
      lectureStorageFilename "pdfFile" "notes.pdf" 1700000000000 123456789
        = "pdfFile" ++ "-" ++ (toString 1700000000000 ++ "-" ++ toString 123456789)
          ++ extname "notes.pdf" ∧
      downloadHandler (fun _ => true)
          (lectureStorageFilename "pdfFile" "notes.pdf" 1700000000000 123456789)
        = .file ("attachment; filename=\""
            ++ lectureStorageFilename "pdfFile" "notes.pdf" 1700000000000 123456789 ++ "\"")
          "application/pdf" :=
  uploaded_pdf_is_served_under_its_stored_name lectureWithPdf sampleDb "notes.pdf"
    1700000000000 123456789 (fun _ => true)
    (uploadedPdf "notes.pdf" 1700000000000 123456789) rfl rfl rfl rfl (by decide) (by decide) rfl

/-! ## Stored names and the Resources filter -/

/-- C15, as stated, fails for the Resources upload storage: for `slides.pdf` uploaded
at `1700000000000` it stores `1700000000000-slides.pdf`, which is not
`file-1700000000000-<r>.pdf` for any suffix `r`. -/
theorem resources_storage_keeps_the_original_name :
    resourcesStorageFilename "slides.pdf" 1700000000000 = "1700000000000-slides.pdf" ∧
    ¬ ∃ r : Nat, resourcesStorageFilename "slides.pdf" 1700000000000
      = "file" ++ "-" ++ (toString 1700000000000 ++ "-" ++ toString r) ++ extname "slides.pdf" := by
  refine ⟨by decide, ?_⟩
  rintro ⟨r, h⟩
  have h1 : resourcesStorageFilename "slides.pdf" 1700000000000
      = "1700000000000-slides.pdf" := by decide
  rw [h1] at h
  have h2 := congrArg (fun s : String => s.data.head?) h
  simp [String.data_append] at h2

/-- C15, amended. The lecture upload storage of the mock server stores a file under
`<fieldname>-<timestamp>-<random><ext>` with `<ext>` the extension of the original
name, and for a field name without `.` and `/` (the route accepts `pdfFile` only) the
stored name has that same extension.  The Resources upload storage uses neither field
name nor random suffix: it stores `<timestamp>-<original name>`, which keeps the
extension of the original name whenever that extension is not empty. -/
theorem stored_filenames (n o : String) (t r : Nat) :
    lectureStorageFilename n o t r
      = n ++ "-" ++ (toString t ++ "-" ++ toString r) ++ extname o ∧
    ((∀ c ∈ n.data, c ≠ '.' ∧ c ≠ '/') →
      extname (lectureStorageFilename n o t r) = extname o) ∧
    resourcesStorageFilename o t = toString t ++ "-" ++ o ∧
    (extname o ≠ "" → extname (resourcesStorageFilename o t) = extname o) :=
  ⟨rfl, extname_lectureStorageFilename n o t r, rfl, extname_resourcesStorageFilename o t⟩

/-- Witness of the amended C15: `Week 1.PPTX` under both storages. -/
theorem stored_filenames_witness :
    extname (lectureStorageFilename "pdfFile" "Week 1.PPTX" 1700000000000 42)
      = extname "Week 1.PPTX" ∧
    extname (resourcesStorageFilename "Week 1.PPTX" 1700000000000) = extname "Week 1.PPTX" :=
  ⟨(stored_filenames "pdfFile" "Week 1.PPTX" 1700000000000 42).2.1 (by decide),
    (stored_filenames "pdfFile" "Week 1.PPTX" 1700000000000 42).2.2.2 (by decide)⟩

/-- C16 fails on the code at `macros.docm`: the extension `.docm` is none of the five
allowed ones, yet the filter accepts the file, because the unanchored expression
finds `doc` inside it. -/
theorem resources_filter_accepts_docm :
    resourcesFileFilter "macros.docm" = .accept ∧
    lowerAscii (extname "macros.docm") = ".docm" ∧
    lowerAscii (extname "macros.docm") ∉ [".pdf", ".ppt", ".pptx", ".doc", ".docx"] := by
  decide

/-! ## The JSON round trip of a project's lists -/

theorem readUnit_escapeChar (c : Char) (tail : List Char) :
    readUnit (escapeChar c ++ tail) = some (some c, tail) := by
  by_cases hlow : c.toNat < 0x20
  · obtain ⟨n, hn, rfl⟩ : ∃ n, n < 0x20 ∧ c = Char.ofNat n :=
      ⟨c.toNat, hlow, (Char.ofNat_toNat c).symm⟩
    clear hlow
    interval_cases n <;> rfl
  · by_cases hq : c = '"'
    · subst hq; rfl
    · by_cases hb : c = '\\'
      · subst hb; rfl
      · have h8 : c ≠ Char.ofNat 8 := fun h => hlow (by rw [h]; decide)
        have h12 : c ≠ Char.ofNat 12 := fun h => hlow (by rw [h]; decide)
        have hn : c ≠ '\n' := fun h => hlow (by rw [h]; decide)
        have hr : c ≠ '\r' := fun h => hlow (by rw [h]; decide)
        have ht : c ≠ '\t' := fun h => hlow (by rw [h]; decide)
        simp [escapeChar, readUnit, hq, hb, h8, h12, hn, hr, ht, hlow]

theorem length_le_flatMap_escapeChar (s : List Char) :
    s.length ≤ (s.flatMap escapeChar).length := by
  induction s with
  | nil => simp
  | cons c s ih =>
    have hpos : 1 ≤ (escapeChar c).length := by
      unfold escapeChar
      split_ifs <;> simp
    rw [List.flatMap_cons, List.length_append, List.length_cons]
    omega

theorem parseStringBody_quoted (s rest : List Char) (fuel : Nat) (h : s.length < fuel) :
    parseStringBody fuel (s.flatMap escapeChar ++ '"' :: rest) = some (s, rest) := by
  induction s generalizing fuel with
  | nil =>
    cases fuel with
    | zero => omega
    | succ fuel => rfl
  | cons c s ih =>
    cases fuel with
    | zero => omega
    | succ fuel =>
      have hlt : s.length < fuel := by
        simp only [List.length_cons] at h
        omega
      rw [List.flatMap_cons, List.append_assoc]
      simp only [parseStringBody, readUnit_escapeChar, ih fuel hlt, Option.map_some']

theorem parseStringBody_body (s rest : List Char) :
    parseStringBody (s.flatMap escapeChar ++ '"' :: rest).length
      (s.flatMap escapeChar ++ '"' :: rest) = some (s, rest) := by
  apply parseStringBody_quoted
  have := length_le_flatMap_escapeChar s
  simp only [List.length_append, List.length_cons]
  omega

theorem quoteJson_append (s : String) (rest : List Char) :
    quoteJson s ++ rest = '"' :: (s.data.flatMap escapeChar ++ '"' :: rest) := by
  simp [quoteJson]

theorem length_lt_stringifyTail (l : List String) : l.length < (stringifyTail l).length := by
  induction l with
  | nil => simp [stringifyTail]
  | cons s rest ih =>
    simp only [stringifyTail, List.length_cons, List.length_append]
    omega

theorem parseArrayTail_stringifyTail (l : List String) (fuel : Nat) (h : l.length < fuel) :
    parseArrayTail fuel (stringifyTail l) = some l := by
  induction l generalizing fuel with
  | nil =>
    cases fuel with
    | zero => omega
    | succ fuel => rfl
  | cons s rest ih =>
    cases fuel with
    | zero => omega
    | succ fuel =>
      have hlt : rest.length < fuel := by
        simp only [List.length_cons] at h
        omega
      have hcomma : (',' :: (quoteJson s ++ stringifyTail rest)).dropWhile isJsonWhiteSpace
          = ',' :: (quoteJson s ++ stringifyTail rest) := rfl
      have hquote : (quoteJson s ++ stringifyTail rest).dropWhile isJsonWhiteSpace
          = '"' :: (s.data.flatMap escapeChar ++ '"' :: stringifyTail rest) := by
        rw [quoteJson_append]
        rfl
      simp only [stringifyTail, parseArrayTail, hcomma, hquote, parseStringBody_body,
        ih fuel hlt, Option.map_some']

/-- The text `JSON.stringify` writes for an array of strings is parsed back by
`JSON.parse` into the same array. -/
theorem jsonParse_jsonStringify (l : List String) : jsonParse (jsonStringify l) = .strings l := by
  cases l with
  | nil => decide
  | cons s rest =>
    have hopen : ('[' :: (quoteJson s ++ stringifyTail rest)).dropWhile isJsonWhiteSpace
        = '[' :: (quoteJson s ++ stringifyTail rest) := rfl
    have hquote : (quoteJson s ++ stringifyTail rest).dropWhile isJsonWhiteSpace
        = '"' :: (s.data.flatMap escapeChar ++ '"' :: stringifyTail rest) := by
      rw [quoteJson_append]
      rfl
    have hfuel : rest.length < ('[' :: (quoteJson s ++ stringifyTail rest)).length := by
      have := length_lt_stringifyTail rest
      simp only [List.length_cons, List.length_append]
      omega
    simp only [jsonStringify, jsonParse, hopen, hquote, parseStringBody_body,
      parseArrayTail_stringifyTail rest _ hfuel]

theorem jsonStringify_ne_empty (l : List String) : jsonStringify l ≠ "" := by
  cases l with
  | nil => decide
  | cons s rest =>
    intro h
    have := congrArg String.data h
    simp [jsonStringify] at this

/-- C17, as stated, fails: the payload of the form with the technologies `Python` and
`TensorFlow`, taken as the project record, has no key `tags`, and the table reads an
empty list from it. -/
theorem table_reads_tags_not_technologies :
    sampleProject.technologies = ["Python", "TensorFlow"] ∧
    fieldOf "technologies" (projectData sampleProject)
      = .prim (.str "[\"Python\",\"TensorFlow\"]") ∧
    fieldOf "members" (projectData sampleProject) = .prim (.str "[\"Alice\",\"Bob\"]") ∧
    techArrayOf (projectData sampleProject) = some [] := by
  decide

/-- C17, amended. For every list of technologies entered in `AddProject`, the JSON
text `handleSubmit` puts in the payload is read back by the project table as the same
list, same elements in the same order, from any project record that carries that text
under the key `tags`; the table reads that key only, so two records with the same
`tags` give the same list whatever their `members`. -/
theorem technologies_round_trip (formData : ProjectForm) (project : ProjectRecord)
    (htags : fieldOf "tags" project = fieldOf "technologies" (projectData formData)) :
    fieldOf "technologies" (projectData formData)
      = .prim (.str (jsonStringify formData.technologies)) ∧
    jsonParse (jsonStringify formData.technologies) = .strings formData.technologies ∧
    techArrayOf project = some formData.technologies ∧
    (∀ other : ProjectRecord, fieldOf "tags" other = fieldOf "tags" project →
      techArrayOf other = techArrayOf project) := by
  have hfield : fieldOf "technologies" (projectData formData)
      = .prim (.str (jsonStringify formData.technologies)) := by
    simp [projectData, fieldOf]
  refine ⟨hfield, jsonParse_jsonStringify _, ?_, ?_⟩
  · rw [hfield] at htags
    simp [techArrayOf, htags, jsonStringify_ne_empty, jsonParse_jsonStringify]
  · intro other h
    simp [techArrayOf, h]

/-- Witness of the amended C17: the specification's example, the record being the
payload with the technologies text copied under `tags`. -/
theorem technologies_round_trip_witness :
    techArrayOf (("tags", fieldOf "technologies" (projectData sampleProject))
      :: projectData sampleProject) = some ["Python", "TensorFlow"] :=
  (technologies_round_trip sampleProject
    (("tags", fieldOf "technologies" (projectData sampleProject)) :: projectData sampleProject)
    (by decide)).2.2.1

/-! ## Deleting a course on the dashboards -/

theorem filter_ne_of_absent {α : Type} (p : α → Bool) (l : List α)
    (h : ∀ x ∈ l, p x = false) : l.filter (fun x => !(p x)) = l := by
  apply List.filter_eq_self.2
  intro x hx
  simp [h x hx]

/-- C18, as stated, fails: deleting the id 99, which no course of the list has, is
acknowledged with `Course deleted successfully`; there is no not-found outcome. -/
theorem delete_of_unknown_course_reports_success :
    (∀ course ∈ LecturesComponent.dummyData, course.id.strictEq (.num 99) = false) ∧
    (LecturesComponent.handleDeleteCourse true LecturesComponent.dummyData (.num 99)).alert
      = some "Course deleted successfully" := by
  decide

/-- C18, amended. Deleting a course by an id that no course of the list has leaves the
course list unchanged; the handler checks nothing and, once the dialog is confirmed,
acknowledges with `Course deleted successfully`; when the dialog is dismissed it
raises no alert. -/
theorem delete_of_unknown_course_keeps_the_list (confirmed : Bool)
    (courses : List CourseItem) (courseId : Prim)
    (habsent : ∀ course ∈ courses, course.id.strictEq courseId = false) :
    (LecturesComponent.handleDeleteCourse confirmed courses courseId).courses = courses ∧
    (LecturesComponent.handleDeleteCourse confirmed courses courseId).alert
      = if confirmed then some "Course deleted successfully" else none := by
  cases confirmed with
  | false => exact ⟨rfl, rfl⟩
  | true =>
    refine ⟨?_, rfl⟩
    simp only [LecturesComponent.handleDeleteCourse, if_true]
    exact filter_ne_of_absent (fun course : CourseItem => course.id.strictEq courseId) courses
      habsent

/-- Witness of the amended C18: the id 99 on the placeholder courses. -/
theorem delete_of_unknown_course_keeps_the_list_witness :
    (LecturesComponent.handleDeleteCourse true LecturesComponent.dummyData (.num 99)).courses
      = LecturesComponent.dummyData ∧
    (LecturesComponent.handleDeleteCourse true LecturesComponent.dummyData (.num 99)).alert
      = if true then some "Course deleted successfully" else none :=
  delete_of_unknown_course_keeps_the_list true LecturesComponent.dummyData (.num 99)
    (by decide)

/-- C19 fails on the code of `DashboardLectures`: after a confirmed and successful
`handleDeleteCourse(1)` on the placeholder data, course 1 is gone from `courses`, but
`lectures` is untouched and still holds lecture 1, whose `course_id` is 1. -/
theorem dashboard_delete_course_keeps_its_lectures :
    (DashboardLectures.handleDeleteCourse true true DashboardLectures.placeholderState
      (.num 1)).1.courses.map (·.id) = [.num 2] ∧
    (DashboardLectures.handleDeleteCourse true true DashboardLectures.placeholderState
      (.num 1)).1.lectures = DashboardLectures.placeholderLectures ∧
    (DashboardLectures.handleDeleteCourse true true DashboardLectures.placeholderState
      (.num 1)).1.lectures.map (·.course_id) = [.num 1, .num 2] := by
  decide

/-! ## Updating a resource -/

/-- C20. `PUT /api/resources/:id` for an id whose existence check returns no row
answers 404, issues the check only, hence no `UPDATE`, and leaves the database as it
was; for an id whose check returns a row and whose `UPDATE` reports affected rows,
it answers 200 with `Resource updated successfully` and the first row of the re-read
done after the update. -/
theorem put_resource_contract {σ : Type} (db : ResourceStore σ) (state : σ) (id : String)
    (body : ResourceBody) (iso : String) :
    (db.selectById state id = .ok [] →
      (putResourceHandler db state id body iso).response
        = ⟨404, "Resource not found for update", none⟩ ∧
      (putResourceHandler db state id body iso).issued = [.selectById id] ∧
      (putResourceHandler db state id body iso).state = state) ∧
    (∀ (found : ResourceRow) (others : List ResourceRow) (affectedRows : Nat) (state' : σ)
        (reread : List JoinedResource),
      db.selectById state id = .ok (found :: others) →
      db.update state ⟨body.title, body.description, body.type, body.url, formattedDate iso, id⟩
        = (.ok affectedRows, state') →
      affectedRows ≠ 0 →
      db.selectJoinedById state' id = .ok reread →
      (putResourceHandler db state id body iso).response
        = ⟨200, "Resource updated successfully", reread.head?⟩ ∧
      (putResourceHandler db state id body iso).state = state' ∧
      (putResourceHandler db state id body iso).issued
        = [.selectById id,
            .update ⟨body.title, body.description, body.type, body.url, formattedDate iso, id⟩,
            .selectJoinedById id]) := by
  constructor
  · intro h
    simp [putResourceHandler, h]
  · intro found others affectedRows state' reread hcheck hupdate haff hreread
    simp [putResourceHandler, hcheck, hupdate, haff, hreread]

/-- Witness of C20 on in-memory tables: resource 7 does not exist, resource 2 does and
is returned as updated. -/
theorem put_resource_contract_witness :
    ((putResourceHandler tableStore sampleTables "7" sampleUpdate
        "2025-01-02T09:30:00.000Z").response = ⟨404, "Resource not found for update", none⟩ ∧
      (putResourceHandler tableStore sampleTables "7" sampleUpdate
        "2025-01-02T09:30:00.000Z").issued = [.selectById "7"] ∧
      (putResourceHandler tableStore sampleTables "7" sampleUpdate
        "2025-01-02T09:30:00.000Z").state = sampleTables) ∧
    (putResourceHandler tableStore sampleTables "2" sampleUpdate
        "2025-01-02T09:30:00.000Z").response
      = ⟨200, "Resource updated successfully", some
          { row :=
              { id := 2, title := .str "PKI explained", description := .str "Second edition",
                type := .str "pdf", url := .str "https://example.com/pki-2.pdf",
                file_path := .str "/uploads/resources/pki-guide.pdf", created_by := .num 1,
                created_at := .str "2025-01-01 10:00:00",
                updated_at := .str "2025-01-02 09:30:00" }
            creator_name := .str "Dr. Jane Smith" }⟩ :=
  ⟨(put_resource_contract tableStore sampleTables "7" sampleUpdate
      "2025-01-02T09:30:00.000Z").1 rfl,
    ((put_resource_contract tableStore sampleTables "2" sampleUpdate
      "2025-01-02T09:30:00.000Z").2 _ _ _ _ _ rfl rfl (by decide) rfl).1⟩

/-! ## Fetching the dashboard lists -/

/-- C21. Whatever the list request of the active tab gave, rows, an empty list or a
failure, `fetchData` leaves the list state of that tab non-empty: the rows received
when there are some, and exactly the two placeholder records on an empty or failed
response; the list state of the other tab is not touched. -/
theorem dashboard_lists_never_empty (state : DashboardState) :
    (∀ response : Option (List CourseRow),
      (DashboardLectures.fetchData (.courses response) state).courses ≠ [] ∧
      (DashboardLectures.fetchData (.courses response) state).lectures = state.lectures ∧
      (response = none ∨ response = some [] →
        (DashboardLectures.fetchData (.courses response) state).courses
          = DashboardLectures.placeholderCourses) ∧
      (∀ rows, rows ≠ [] → response = some rows →
        (DashboardLectures.fetchData (.courses response) state).courses = rows)) ∧
    (∀ response : Option (List LectureRow),
      (DashboardLectures.fetchData (.lectures response) state).lectures ≠ [] ∧
      (DashboardLectures.fetchData (.lectures response) state).courses = state.courses ∧
      (response = none ∨ response = some [] →
        (DashboardLectures.fetchData (.lectures response) state).lectures
          = DashboardLectures.placeholderLectures) ∧
      (∀ rows, rows ≠ [] → response = some rows →
        (DashboardLectures.fetchData (.lectures response) state).lectures = rows)) ∧
    DashboardLectures.placeholderCourses.length = 2 ∧
    DashboardLectures.placeholderLectures.length = 2 := by
  refine ⟨?_, ?_, rfl, rfl⟩
  · intro response
    cases response with
    | none =>
      refine ⟨by simp [DashboardLectures.fetchData, DashboardLectures.placeholderCourses], rfl,
        fun _ => rfl, fun rows _ h => by cases h⟩
    | some data =>
      cases data with
      | nil =>
        refine ⟨by simp [DashboardLectures.fetchData, DashboardLectures.placeholderCourses],
          rfl, fun _ => rfl, fun rows hne h => ?_⟩
        cases h
        exact absurd rfl hne
      | cons row rest =>
        refine ⟨by simp [DashboardLectures.fetchData], rfl, ?_, fun rows _ h => ?_⟩
        · rintro (h | h) <;> cases h
        · cases h
          simp [DashboardLectures.fetchData]
  · intro response
    cases response with
    | none =>
      refine ⟨by simp [DashboardLectures.fetchData, DashboardLectures.placeholderLectures], rfl,
        fun _ => rfl, fun rows _ h => by cases h⟩
    | some data =>
      cases data with
      | nil =>
        refine ⟨by simp [DashboardLectures.fetchData, DashboardLectures.placeholderLectures],
          rfl, fun _ => rfl, fun rows hne h => ?_⟩
        cases h
        exact absurd rfl hne
      | cons row rest =>
        refine ⟨by simp [DashboardLectures.fetchData], rfl, ?_, fun rows _ h => ?_⟩
        · rintro (h | h) <;> cases h
        · cases h
          simp [DashboardLectures.fetchData]

/-- Witness of C21: an empty course list received on an empty dashboard. -/
theorem dashboard_lists_never_empty_witness :
    (DashboardLectures.fetchData (.courses (some [])) ⟨[], []⟩).courses
      = DashboardLectures.placeholderCourses ∧
    (DashboardLectures.fetchData (.lectures none) ⟨[], []⟩).lectures
      = DashboardLectures.placeholderLectures :=
  ⟨((dashboard_lists_never_empty ⟨[], []⟩).1 (some [])).2.2.1 (Or.inr rfl),
    ((dashboard_lists_never_empty ⟨[], []⟩).2.1 none).2.2.1 (Or.inl rfl)⟩

/-! ## The MySQL date text -/

theorem IsDecimal.ne_T {c : Char} (h : IsDecimal c) : c ≠ 'T' := by
  obtain ⟨d, hd, rfl⟩ := h
  interval_cases d <;> decide

theorem padDigits_length (width n : Nat) : (padDigits width n).length = width := by
  induction width generalizing n with
  | zero => rfl
  | succ w ih => simp [padDigits, ih]

theorem padDigits_decimal (width n : Nat) : ∀ c ∈ padDigits width n, IsDecimal c := by
  induction width generalizing n with
  | zero => intro c hc; simp [padDigits] at hc
  | succ w ih =>
    intro c hc
    simp only [padDigits, List.mem_append, List.mem_singleton] at hc
    rcases hc with hc | rfl
    · exact ih _ c hc
    · exact ⟨n % 10, Nat.mod_lt _ (by norm_num), rfl⟩

/-- The digits written by `padDigits` denote the number, when it fits the width. -/
theorem digitsValue_padDigits (width n acc : Nat) :
    digitsValue 10 acc (padDigits width n) = acc * 10 ^ width + n % 10 ^ width := by
  induction width generalizing n acc with
  | zero => simp [padDigits, digitsValue, Nat.mod_one]
  | succ w ih =>
    obtain ⟨d, hd10, hd, hdc⟩ :=
      (show IsDecimal (Nat.digitChar (n % 10)) from
        ⟨n % 10, Nat.mod_lt _ (by norm_num), rfl⟩).digitIn
    have hdn : d = n % 10 := by
      have : ∀ a b, a < 10 → b < 10 → Nat.digitChar a = Nat.digitChar b → a = b := by
        intro a b ha hb
        interval_cases a <;> interval_cases b <;> decide
      exact (this _ _ (Nat.mod_lt _ (by norm_num)) hd10 hdc).symm
    rw [padDigits, digitsValue_append _ _ (padDigits_decimal w _), ih]
    simp only [digitsValue, hd, hdn]
    have h1 : n % 10 ^ (w + 1) = (n / 10 % 10 ^ w) * 10 + n % 10 := by
      rw [pow_succ, Nat.mul_comm (10 ^ w) 10, Nat.mod_mul, Nat.mul_comm]
      omega
    rw [h1, pow_succ]
    ring

theorem replaceFirst_append (a b : Char) (l₁ l₂ : List Char) (h : a ∉ l₁) :
    replaceFirst a b (l₁ ++ a :: l₂) = l₁ ++ b :: l₂ := by
  induction l₁ with
  | nil => simp [replaceFirst]
  | cons c l ih =>
    have hc : c ≠ a := fun e => h (e ▸ List.mem_cons_self _ _)
    have hl : a ∉ l := fun e => h (List.mem_cons_of_mem _ e)
    simp [replaceFirst, hc, ih hl]

/-- C22. For every instant whose UTC year is between 0 and 9999, the text
`toISOString().slice(0, 19).replace('T', ' ')` is `YYYY-MM-DD HH:MM:SS`: nineteen
characters, a space at index 10 and no `T`, its digit fields being the UTC year,
month, day, hours, minutes and seconds of the instant. -/
theorem formatted_date_is_mysql_format (d : UtcInstant)
    (hyear : 0 ≤ d.year ∧ d.year ≤ 9999)
    (hfields : d.month ≤ 12 ∧ d.day ≤ 31 ∧ d.hours ≤ 23 ∧ d.minutes ≤ 59 ∧ d.seconds ≤ 59) :
    (formattedDate (toISOString d)).data
      = padDigits 4 d.year.toNat ++ '-' :: (padDigits 2 d.month ++ '-' :: (padDigits 2 d.day
          ++ ' ' :: (padDigits 2 d.hours ++ ':' :: (padDigits 2 d.minutes ++ ':' ::
            padDigits 2 d.seconds)))) ∧
    (formattedDate (toISOString d)).data.length = 19 ∧
    (formattedDate (toISOString d)).data[10]? = some ' ' ∧
    'T' ∉ (formattedDate (toISOString d)).data ∧
    ((digitsValue 10 0 (padDigits 4 d.year.toNat) : Int) = d.year ∧
      digitsValue 10 0 (padDigits 2 d.month) = d.month ∧
      digitsValue 10 0 (padDigits 2 d.day) = d.day ∧
      digitsValue 10 0 (padDigits 2 d.hours) = d.hours ∧
      digitsValue 10 0 (padDigits 2 d.minutes) = d.minutes ∧
      digitsValue 10 0 (padDigits 2 d.seconds) = d.seconds) := by
  obtain ⟨hm, hd, hh, hmi, hs⟩ := hfields
  have hT : ∀ w n, 'T' ∉ padDigits w n := fun w n h => (padDigits_decimal w n _ h).ne_T rfl
  have hdate : 'T' ∉ padDigits 4 d.year.toNat ++ '-' :: (padDigits 2 d.month ++ '-' ::
      padDigits 2 d.day) := by
    simp only [List.mem_append, List.mem_cons, not_or]
    exact ⟨hT _ _, by decide, hT _ _, by decide, hT _ _⟩
  have htime : 'T' ∉ padDigits 2 d.hours ++ ':' :: (padDigits 2 d.minutes ++ ':' ::
      padDigits 2 d.seconds) := by
    simp only [List.mem_append, List.mem_cons, not_or]
    exact ⟨hT _ _, by decide, hT _ _, by decide, hT _ _⟩
  have hdata : (formattedDate (toISOString d)).data
      = padDigits 4 d.year.toNat ++ '-' :: (padDigits 2 d.month ++ '-' :: (padDigits 2 d.day
          ++ ' ' :: (padDigits 2 d.hours ++ ':' :: (padDigits 2 d.minutes ++ ':' ::
            padDigits 2 d.seconds)))) := by
    have hsplit : (toISOString d).data
        = ((padDigits 4 d.year.toNat ++ '-' :: (padDigits 2 d.month ++ '-' ::
            padDigits 2 d.day)) ++ 'T' :: (padDigits 2 d.hours ++ ':' ::
              (padDigits 2 d.minutes ++ ':' :: padDigits 2 d.seconds)))
          ++ '.' :: (padDigits 3 d.milliseconds ++ ['Z']) := by
      simp [toISOString, hyear]
    have hlen : ((padDigits 4 d.year.toNat ++ '-' :: (padDigits 2 d.month ++ '-' ::
            padDigits 2 d.day)) ++ 'T' :: (padDigits 2 d.hours ++ ':' ::
              (padDigits 2 d.minutes ++ ':' :: padDigits 2 d.seconds))).length = 19 := by
      simp [padDigits_length]
    show replaceFirst 'T' ' ' ((toISOString d).data.take 19) = _
    rw [hsplit, List.take_left' hlen, replaceFirst_append _ _ _ _ hdate]
    simp
  refine ⟨hdata, ?_, ?_, ?_, ?_⟩
  · rw [hdata]
    simp [padDigits_length]
  · rw [hdata]
    have h10 : (padDigits 4 d.year.toNat ++ '-' :: (padDigits 2 d.month ++ '-' ::
        padDigits 2 d.day)).length = 10 := by simp [padDigits_length]
    have : padDigits 4 d.year.toNat ++ '-' :: (padDigits 2 d.month ++ '-' :: (padDigits 2 d.day
          ++ ' ' :: (padDigits 2 d.hours ++ ':' :: (padDigits 2 d.minutes ++ ':' ::
            padDigits 2 d.seconds))))
        = (padDigits 4 d.year.toNat ++ '-' :: (padDigits 2 d.month ++ '-' ::
            padDigits 2 d.day)) ++ ' ' :: (padDigits 2 d.hours ++ ':' ::
              (padDigits 2 d.minutes ++ ':' :: padDigits 2 d.seconds)) := by simp
    rw [this, List.getElem?_append_right (by omega), h10]
    rfl
  · rw [hdata]
    simp only [List.mem_append, List.mem_cons, not_or]
    exact ⟨hT _ _, by decide, hT _ _, by decide, hT _ _, by decide, hT _ _, by decide, hT _ _,
      by decide, hT _ _⟩
  · have hy : d.year.toNat ≤ 9999 := by omega
    refine ⟨?_, ?_, ?_, ?_, ?_, ?_⟩
    · rw [digitsValue_padDigits, Nat.mod_eq_of_lt (by omega)]
      simp only [Nat.zero_mul, Nat.zero_add]
      omega
    all_goals
      rw [digitsValue_padDigits, Nat.mod_eq_of_lt (by omega)]
      simp

/-- Witness of C22: the instant 2025-03-07 09:05:01.042. -/
theorem formatted_date_is_mysql_format_witness :
    formattedDate (toISOString sampleInstant) = "2025-03-07 09:05:01" ∧
    (formattedDate (toISOString sampleInstant)).data.length = 19 :=
  ⟨by decide,
    (formatted_date_is_mysql_format sampleInstant (by decide) (by decide)).2.1⟩

/-! ## The notes of a created lecture -/

theorem getElem?_updateAt {α : Type} (f : α → α) (idx : Nat) (xs : List α) (t : α)
    (h : xs[idx]? = some t) : (updateAt f idx xs)[idx]? = some (f t) := by
  induction xs generalizing idx with
  | nil => simp at h
  | cons x xs ih =>
    cases idx with
    | zero =>
      have : x = t := by simpa using h
      subst this
      simp [updateAt]
    | succ i =>
      have h' : xs[i]? = some t := by simpa using h
      simpa [updateAt] using ih i h'

/-- C23. The notes stored for a lecture created on the mock server are one of two
cases, selected by the upload.  The creation appends one lecture row and one nested
entry with the row's id, the entry at the end of the lectures of the first course
whose id is the row's `course_id`.  With a file: the entry's notes have `type` `pdf`,
`content` the original filename, `url` the download path of the stored filename, and
the file descriptor, and the row's `slides_url` is that url.  Without a file: `type`
is the submitted `notes.type`, or `url` when it is absent (or otherwise falsy),
`content` is the submitted `notes.content`, or the empty string when it is absent (or
otherwise falsy), and `slides_url` is null.  So `slides_url` is non-null exactly when
a file was uploaded. -/
theorem notes_tagged_variant (req : Request) (db : MockDatabase)
    (hr : req.route = .postLectures) (hs : (handle req db).1.status = 201) :
    ∃ (idx : Nat) (target : Course) (row : Lecture) (entry : NestedLecture),
      db.courses[idx]? = some target ∧ row.course_id = some target.id ∧
      (∀ j < idx, ∀ c, db.courses[j]? = some c → row.course_id ≠ some c.id) ∧
      (handle req db).2.lectures = db.lectures ++ [row] ∧
      (handle req db).2.courses
        = updateAt (fun c => { c with lectures := c.lectures ++ [entry] }) idx db.courses ∧
      (handle req db).2.courses[idx]?
        = some { target with lectures := target.lectures ++ [entry] } ∧
      entry.id = row.id ∧
      (∀ file : UploadedFile, req.file = some file →
        entry.notes = .pdf file.originalname ("/api/lectures/download/" ++ file.filename)
          { originalName := file.originalname, filename := file.filename,
            mimetype := file.mimetype, path := file.path, size := file.size,
            url := "/api/lectures/download/" ++ file.filename, type := "pdf" } ∧
        row.slides_url = some ("/api/lectures/download/" ++ file.filename)) ∧
      (req.file = none →
        ∃ type content : JVal,
          req.body.notes.getProp "type" = .ok type ∧
          req.body.notes.getProp "content" = .ok content ∧
          entry.notes = .plain (if type.truthy then type else .prim (.str "url"))
            (if content.truthy then content else .prim (.str "")) ∧
          (type = .prim .undefined → content = .prim .undefined →
            entry.notes = .plain (.prim (.str "url")) (.prim (.str ""))) ∧
          row.slides_url = none) ∧
      (row.slides_url ≠ none ↔ req.file ≠ none) := by
  obtain ⟨idx, parsed, n, lectureNo, topic, _, hidx, hn, _, _, hh⟩ :=
    created_of_status req db hr hs
  obtain ⟨target, hget, hp⟩ := findIndex_some_get _ _ _ hidx
  have hparsed : parsed = some target.id := (strictEq_some_iff _ _).1 hp
  have hfirst : ∀ j < idx, ∀ c, db.courses[j]? = some c → parsed ≠ some c.id := by
    intro j hj c hc heq
    have := findIndex_first _ _ _ hidx j hj c hc
    simp [heq, JsNum.strictEq] at this
  rw [hh]
  refine ⟨idx, target, _, _, hget, hparsed, hfirst, rfl, rfl,
    getElem?_updateAt _ idx db.courses target hget, rfl, ?_, ?_, ?_⟩
  · intro file hfile
    simp only [hfile, fileInfoOf, Option.map_some', notesObjOf, Except.ok.injEq] at hn ⊢
    exact ⟨hn.symm, trivial⟩
  · intro hfile
    simp only [hfile, fileInfoOf, Option.map_none', notesObjOf] at hn ⊢
    cases ht : req.body.notes.getProp "type" with
    | error e => simp [ht] at hn
    | ok type =>
      cases hc : req.body.notes.getProp "content" with
      | error e => simp [ht, hc] at hn
      | ok content =>
        simp only [ht, hc, Except.ok.injEq] at hn
        refine ⟨type, content, rfl, rfl, ?_, ?_, trivial⟩
        · rw [← hn]; rfl
        · intro h1 h2
          rw [← hn, h1, h2]
          rfl
  · cases hfile : req.file with
    | none => simp [fileInfoOf]
    | some file => simp [fileInfoOf]

/-- Witness of C23: the lecture created with `notes.pdf` attached is the second nested
entry of the seeded course, with the pdf notes. -/
theorem notes_tagged_variant_witness :
    (∃ (idx : Nat) (target : Course) (row : Lecture) (entry : NestedLecture),
      sampleDb.courses[idx]? = some target ∧
      (handle lectureWithPdf sampleDb).2.lectures = sampleDb.lectures ++ [row] ∧
      (handle lectureWithPdf sampleDb).2.courses[idx]?
        = some { target with lectures := target.lectures ++ [entry] } ∧
      (row.slides_url ≠ none ↔ lectureWithPdf.file ≠ none)) ∧
    (handle lectureWithPdf sampleDb).2.courses.map (fun c => c.lectures.map (·.notes))
      = [[.plain (.prim (.str "url")) (.prim (.str "Basic encryption concepts and history")),
          .pdf "notes.pdf" "/api/lectures/download/pdfFile-1700000000000-123456789.pdf"
            { originalName := "notes.pdf",
              filename := "pdfFile-1700000000000-123456789.pdf",
              mimetype := "application/pdf",
              path := "uploads/pdfFile-1700000000000-123456789.pdf", size := 1024,
              url := "/api/lectures/download/pdfFile-1700000000000-123456789.pdf",
              type := "pdf" }]] := by
  obtain ⟨idx, target, row, entry, h1, _, _, h2, _, h3, _, _, _, h5⟩ :=
    notes_tagged_variant lectureWithPdf sampleDb rfl (by decide)
  exact ⟨⟨idx, target, row, entry, h1, h2, h3, h5⟩, by decide⟩

/-! ## Unique ids and the dual write -/

theorem guardedBy_cases (req : Request) (db : MockDatabase)
    (handler : User → Response × MockDatabase) :
    guardedBy req db handler = (unauthorized, db) ∨
    guardedBy req db handler = handler mockUser := by
  unfold guardedBy verifyToken
  by_cases h : tokenMissing (req.header "x-auth-token") = true
  · left; simp [h]
  · right; simp [h]

theorem postLectures_lectureCreated (req : Request) (db : MockDatabase) (message : String)
    (id : Int) (info : Option FileInfo)
    (h : (postLecturesHandler req db).1.body = .lectureCreated message id info) :
    id = db.lastLectureId + 1 ∧ (postLecturesHandler req db).2.lastLectureId = id := by
  unfold postLecturesHandler at h ⊢
  cases hf : findCourseIndex db.courses req.body.courseId with
  | error e => simp [hf] at h
  | ok found =>
    cases found with
    | none => simp [hf] at h
    | some pair =>
      obtain ⟨courseIndex, courseId⟩ := pair
      cases hn : notesObjOf (fileInfoOf req.file) req.body.notes with
      | error e => simp [hf, hn] at h
      | ok n =>
        cases hno : req.body.lectureNo.toStr with
        | error e => simp [hf, hn, hno] at h
        | ok lectureNo =>
          cases htopic : req.body.topic.toStr with
          | error e => simp [hf, hn, hno, htopic] at h
          | ok topic =>
            simp only [hf, hn, hno, htopic, ResBody.lectureCreated.injEq] at h ⊢
            exact ⟨h.2.1.symm, h.2.1⟩

theorem postLectures_not_courseCreated (req : Request) (db : MockDatabase) (message : String)
    (id : Int) : (postLecturesHandler req db).1.body ≠ .courseCreated message id := by
  intro h
  unfold postLecturesHandler at h
  cases hf : findCourseIndex db.courses req.body.courseId with
  | error e => simp [hf] at h
  | ok found =>
    cases found with
    | none => simp [hf] at h
    | some pair =>
      obtain ⟨courseIndex, courseId⟩ := pair
      cases hn : notesObjOf (fileInfoOf req.file) req.body.notes with
      | error e => simp [hf, hn] at h
      | ok n =>
        cases hno : req.body.lectureNo.toStr with
        | error e => simp [hf, hn, hno] at h
        | ok lectureNo =>
          cases htopic : req.body.topic.toStr with
          | error e => simp [hf, hn, hno, htopic] at h
          | ok topic => simp [hf, hn, hno, htopic] at h

theorem login_body_not_created (body : Body) :
    (∀ message id, (loginHandler body).body ≠ .courseCreated message id) ∧
    (∀ message id info, (loginHandler body).body ≠ .lectureCreated message id info) := by
  unfold loginHandler
  cases (body.email.orElse (.prim (.str "unknown"))).toStr <;> simp

/-- A response announcing a created course carries the next course id. -/
theorem courseCreated_id (req : Request) (db : MockDatabase) (message : String) (id : Int)
    (h : (handle req db).1.body = .courseCreated message id) :
    id = db.lastCourseId + 1 ∧ (handle req db).2.lastCourseId = id := by
  cases hr : req.route with
  | postCourses =>
    have hh : handle req db = guardedBy req db fun _ => postCoursesHandler req db := by
      simp only [handle, hr]
    rw [hh] at h ⊢
    rcases guardedBy_cases req db (fun _ => postCoursesHandler req db) with hg | hg
    · rw [hg] at h; simp [unauthorized] at h
    · rw [hg] at h ⊢
      cases hname : req.body.name with
      | obj fields => simp [postCoursesHandler, hname] at h
      | prim p =>
        cases p with
        | str name =>
          simp only [postCoursesHandler, hname, ResBody.courseCreated.injEq] at h ⊢
          exact ⟨h.2.symm, h.2⟩
        | undefined => simp [postCoursesHandler, hname] at h
        | null => simp [postCoursesHandler, hname] at h
        | bool b => simp [postCoursesHandler, hname] at h
        | num n => simp [postCoursesHandler, hname] at h
  | postLectures =>
    have hh : handle req db = guardedBy req db fun _ => postLecturesHandler req db := by
      simp only [handle, hr]
    rw [hh] at h
    rcases guardedBy_cases req db (fun _ => postLecturesHandler req db) with hg | hg
    · rw [hg] at h; simp [unauthorized] at h
    · rw [hg] at h
      exact absurd h (postLectures_not_courseCreated req db message id)
  | getProfile =>
    simp only [handle, hr] at h
    rcases guardedBy_cases req db (fun user => (profileHandler user, db)) with hg | hg <;>
      rw [hg] at h <;> simp [unauthorized, profileHandler] at h
  | postLogin =>
    simp only [handle, hr] at h
    exact absurd h ((login_body_not_created req.body).1 message id)
  | getCourses =>
    simp only [handle, hr] at h
    rcases guardedBy_cases req db (fun _ => (getCoursesHandler db, db)) with hg | hg <;>
      rw [hg] at h <;> simp [unauthorized, getCoursesHandler] at h
  | getLectures =>
    simp only [handle, hr] at h
    rcases guardedBy_cases req db (fun _ => (getLecturesHandler db, db)) with hg | hg <;>
      rw [hg] at h <;> simp [unauthorized, getLecturesHandler] at h
  | getLecturesByCourse c =>
    simp only [handle, hr] at h
    rcases guardedBy_cases req db (fun _ => (getLecturesByCourseHandler c db, db))
      with hg | hg <;>
      rw [hg] at h <;> simp [unauthorized, getLecturesByCourseHandler] at h
  | getLectureById i =>
    simp only [handle, hr] at h
    rcases guardedBy_cases req db (fun _ => (getLectureByIdHandler i db, db)) with hg | hg
    · rw [hg] at h; simp [unauthorized] at h
    · rw [hg] at h
      unfold getLectureByIdHandler at h
      cases hf : List.find? (fun lecture : Lecture =>
          JsNum.strictEq (some lecture.id) (parseIntStr i)) db.lectures <;>
        simp [hf] at h
  | unmatched => simp [handle, hr] at h

/-- A response announcing a created lecture carries the next lecture id. -/
theorem lectureCreated_id (req : Request) (db : MockDatabase) (message : String) (id : Int)
    (info : Option FileInfo)
    (h : (handle req db).1.body = .lectureCreated message id info) :
    id = db.lastLectureId + 1 ∧ (handle req db).2.lastLectureId = id := by
  cases hr : req.route with
  | postLectures =>
    have hh : handle req db = guardedBy req db fun _ => postLecturesHandler req db := by
      simp only [handle, hr]
    rw [hh] at h ⊢
    rcases guardedBy_cases req db (fun _ => postLecturesHandler req db) with hg | hg
    · rw [hg] at h; simp [unauthorized] at h
    · rw [hg] at h ⊢
      exact postLectures_lectureCreated req db message id info h
  | postCourses =>
    have hh : handle req db = guardedBy req db fun _ => postCoursesHandler req db := by
      simp only [handle, hr]
    rw [hh] at h
    rcases guardedBy_cases req db (fun _ => postCoursesHandler req db) with hg | hg
    · rw [hg] at h; simp [unauthorized] at h
    · rw [hg] at h
      cases hname : req.body.name with
      | obj fields => simp [postCoursesHandler, hname] at h
      | prim p => cases p <;> simp [postCoursesHandler, hname] at h
  | getProfile =>
    simp only [handle, hr] at h
    rcases guardedBy_cases req db (fun user => (profileHandler user, db)) with hg | hg <;>
      rw [hg] at h <;> simp [unauthorized, profileHandler] at h
  | postLogin =>
    simp only [handle, hr] at h
    exact absurd h ((login_body_not_created req.body).2 message id info)
  | getCourses =>
    simp only [handle, hr] at h
    rcases guardedBy_cases req db (fun _ => (getCoursesHandler db, db)) with hg | hg <;>
      rw [hg] at h <;> simp [unauthorized, getCoursesHandler] at h
  | getLectures =>
    simp only [handle, hr] at h
    rcases guardedBy_cases req db (fun _ => (getLecturesHandler db, db)) with hg | hg <;>
      rw [hg] at h <;> simp [unauthorized, getLecturesHandler] at h
  | getLecturesByCourse c =>
    simp only [handle, hr] at h
    rcases guardedBy_cases req db (fun _ => (getLecturesByCourseHandler c db, db))
      with hg | hg <;>
      rw [hg] at h <;> simp [unauthorized, getLecturesByCourseHandler] at h
  | getLectureById i =>
    simp only [handle, hr] at h
    rcases guardedBy_cases req db (fun _ => (getLectureByIdHandler i db, db)) with hg | hg
    · rw [hg] at h; simp [unauthorized] at h
    · rw [hg] at h
      unfold getLectureByIdHandler at h
      cases hf : List.find? (fun lecture : Lecture =>
          JsNum.strictEq (some lecture.id) (parseIntStr i)) db.lectures <;>
        simp [hf] at h
  | unmatched => simp [handle, hr] at h

theorem mem_updateAt {α : Type} (f : α → α) (idx : Nat) (xs : List α) (y : α)
    (h : y ∈ updateAt f idx xs) : y ∈ xs ∨ ∃ t, xs[idx]? = some t ∧ y = f t := by
  induction xs generalizing idx with
  | nil => cases idx <;> simp [updateAt] at h
  | cons x xs ih =>
    cases idx with
    | zero =>
      simp only [updateAt, List.mem_cons] at h
      rcases h with rfl | h
      · exact Or.inr ⟨x, by simp, rfl⟩
      · exact Or.inl (List.mem_cons_of_mem _ h)
    | succ i =>
      simp only [updateAt, List.mem_cons] at h
      rcases h with rfl | h
      · exact Or.inl (List.mem_cons_self _ _)
      · rcases ih i h with h | ⟨t, ht, hy⟩
        · exact Or.inl (List.mem_cons_of_mem _ h)
        · exact Or.inr ⟨t, by simpa using ht, hy⟩

theorem nestedIds_updateAt (entry : NestedLecture) (idx : Nat) (courses : List Course)
    (target : Course) (h : courses[idx]? = some target) :
    (nestedIds (updateAt (fun c => { c with lectures := c.lectures ++ [entry] }) idx courses)).Perm
      (nestedIds courses ++ [entry.id]) := by
  induction courses generalizing idx with
  | nil => simp at h
  | cons c cs ih =>
    cases idx with
    | zero =>
      simp only [updateAt, nestedIds, List.flatMap_cons, List.map_append, List.map_cons,
        List.map_nil, List.append_assoc]
      exact List.Perm.append_left _ List.perm_append_comm
    | succ i =>
      have h' : cs[i]? = some target := by simpa using h
      simp only [updateAt, nestedIds, List.flatMap_cons, List.append_assoc]
      exact List.Perm.append_left _ (ih i h')

theorem nodup_append_singleton_of_lt (ids : List Int) (bound : Int) (hn : ids.Nodup)
    (hb : ∀ i ∈ ids, i ≤ bound) : (ids ++ [bound + 1]).Nodup := by
  rw [List.nodup_append]
  refine ⟨hn, List.nodup_singleton _, ?_⟩
  intro a ha hb'
  simp only [List.mem_singleton] at hb'
  have := hb a ha
  omega

/-- Unique ids and the dual write are kept by every request. -/
theorem invariants_handle (req : Request) (db : MockDatabase)
    (hu : UniqueIds db) (hd : DualWrite db) :
    UniqueIds (handle req db).2 ∧ DualWrite (handle req db).2 := by
  obtain ⟨hcn, hln, hcb, hlb⟩ := hu
  obtain ⟨hperm, hnn, hsits⟩ := hd
  rcases handle_database req db with e | (e | e) | ⟨course, hcid, hcl, e⟩ |
    ⟨idx, target, row, entry, hget, hrow, hrid, heid, e⟩
  · rw [e]; exact ⟨⟨hcn, hln, hcb, hlb⟩, ⟨hperm, hnn, hsits⟩⟩
  · rw [e]
    refine ⟨⟨hcn, hln, ?_, hlb⟩, ⟨hperm, hnn, hsits⟩⟩
    intro c hc
    have := hcb c hc
    show c.id ≤ db.lastCourseId + 1
    omega
  · rw [e]
    refine ⟨⟨hcn, hln, hcb, ?_⟩, ⟨hperm, hnn, hsits⟩⟩
    intro l hl
    have := hlb l hl
    show l.id ≤ db.lastLectureId + 1
    omega
  · rw [e]
    refine ⟨⟨?_, hln, ?_, hlb⟩, ⟨?_, ?_, ?_⟩⟩
    · show ((db.courses ++ [course]).map (·.id)).Nodup
      rw [List.map_append, List.map_singleton, hcid]
      apply nodup_append_singleton_of_lt _ _ hcn
      intro i hi
      obtain ⟨c, hc, rfl⟩ := List.mem_map.1 hi
      exact hcb c hc
    · intro c hc
      show c.id ≤ db.lastCourseId + 1
      have hc' : c ∈ db.courses ++ [course] := hc
      rcases List.mem_append.1 hc' with hc' | hc'
      · have := hcb c hc'
        omega
      · rw [List.mem_singleton.1 hc', hcid]
    · show (nestedIds (db.courses ++ [course])).Perm _
      simp only [nestedIds, List.flatMap_append, List.flatMap_cons, List.flatMap_nil, hcl,
        List.map_nil, List.append_nil]
      exact hperm
    · show (nestedIds (db.courses ++ [course])).Nodup
      simp only [nestedIds, List.flatMap_append, List.flatMap_cons, List.flatMap_nil, hcl,
        List.map_nil, List.append_nil]
      exact hnn
    · intro c hc e' he' r hr hid
      have hc' : c ∈ db.courses ++ [course] := hc
      rcases List.mem_append.1 hc' with hc' | hc'
      · exact hsits c hc' e' he' r hr hid
      · rw [List.mem_singleton.1 hc', hcl] at he'
        cases he'
  · rw [e]
    have hmap := map_id_updateAt (fun c => { c with lectures := c.lectures ++ [entry] })
      (fun _ => rfl) idx db.courses
    have hpermN := nestedIds_updateAt entry idx db.courses target hget
    have hrowsNodup : ((db.lectures ++ [row]).map (·.id)).Nodup := by
      rw [List.map_append, List.map_singleton, hrid]
      apply nodup_append_singleton_of_lt _ _ hln
      intro i hi
      obtain ⟨l, hl, rfl⟩ := List.mem_map.1 hi
      exact hlb l hl
    have hpermAll : (nestedIds (updateAt (fun c => { c with lectures := c.lectures ++ [entry] })
        idx db.courses)).Perm ((db.lectures ++ [row]).map (·.id)) := by
      rw [List.map_append, List.map_singleton, hrid, ← heid]
      exact hpermN.trans (List.Perm.append_right _ hperm)
    have hold : ∀ c ∈ db.courses, ∀ e' ∈ c.lectures, e'.id ≤ db.lastLectureId := by
      intro c hc e' he'
      have hmem : e'.id ∈ nestedIds db.courses := by
        simp only [nestedIds, List.mem_flatMap, List.mem_map]
        exact ⟨c, hc, e', he', rfl⟩
      obtain ⟨l, hl, hid⟩ := List.mem_map.1 (hperm.subset hmem)
      rw [← hid]
      exact hlb l hl
    refine ⟨⟨?_, hrowsNodup, ?_, ?_⟩, ⟨hpermAll, hpermAll.nodup_iff.2 hrowsNodup, ?_⟩⟩
    · show ((updateAt _ idx db.courses).map (·.id)).Nodup
      rw [hmap]; exact hcn
    · intro c hc
      have : c.id ∈ (updateAt (fun c => { c with lectures := c.lectures ++ [entry] }) idx
          db.courses).map (·.id) := List.mem_map_of_mem _ hc
      rw [hmap] at this
      obtain ⟨c', hc', hid⟩ := List.mem_map.1 this
      rw [← hid]
      exact hcb c' hc'
    · intro l hl
      show l.id ≤ db.lastLectureId + 1
      have hl' : l ∈ db.lectures ++ [row] := hl
      rcases List.mem_append.1 hl' with hl' | hl'
      · have := hlb l hl'
        omega
      · rw [List.mem_singleton.1 hl', hrid]
    · intro c hc e' he' r hr hid
      have hr' : r ∈ db.lectures ++ [row] := hr
      have hc' : c ∈ updateAt (fun c => { c with lectures := c.lectures ++ [entry] }) idx
          db.courses := hc
      -- an old entry under an old course, checked against any row
      have oldEntry : ∀ c₀ ∈ db.courses, e' ∈ c₀.lectures → r.course_id = some c₀.id := by
        intro c₀ hc₀ he₀
        rcases List.mem_append.1 hr' with hr' | hr'
        · exact hsits c₀ hc₀ e' he₀ r hr' hid
        · have hle := hold c₀ hc₀ e' he₀
          rw [List.mem_singleton.1 hr', hrid] at hid
          omega
      rcases mem_updateAt _ idx db.courses c hc' with hc₀ | ⟨t, ht, rfl⟩
      · exact oldEntry c hc₀ he'
      · have htt : t = target := by
          rw [hget] at ht
          exact (Option.some.inj ht).symm
        subst htt
        have he'' : e' ∈ t.lectures ++ [entry] := he'
        rcases List.mem_append.1 he'' with he'' | he''
        · exact oldEntry t (List.getElem?_mem hget) he''
        · rw [List.mem_singleton.1 he'', heid] at hid
          rcases List.mem_append.1 hr' with hr' | hr'
          · have := hlb r hr'
            omega
          · rw [List.mem_singleton.1 hr']
            exact hrow

/-- Unique ids and the dual write hold in every reachable state. -/
theorem invariants_reachable (boot : BootClock) (db : MockDatabase) (h : Reachable boot db) :
    UniqueIds db ∧ DualWrite db := by
  induction h with
  | init =>
    refine ⟨⟨by simp [initialDatabase], by simp [initialDatabase], ?_, ?_⟩, ?_, ?_, ?_⟩
    · intro c hc
      simp only [initialDatabase, List.mem_singleton] at hc
      subst hc
      exact le_refl (1 : Int)
    · intro l hl
      simp only [initialDatabase, List.mem_singleton] at hl
      subst hl
      exact le_refl (1 : Int)
    · simp [initialDatabase, nestedIds]
    · simp [initialDatabase, nestedIds]
    · intro c hc e he r hr _
      simp only [initialDatabase, List.mem_singleton] at hc hr
      subst hc hr
      rfl
  | step req _ ih => exact invariants_handle req _ ih.1 ih.2

/-- The counters never decrease along a sequence of requests. -/
theorem counters_mono (reqs : List Request) (db : MockDatabase) :
    db.lastCourseId ≤ (reqs.foldl (fun d r => (handle r d).2) db).lastCourseId ∧
    db.lastLectureId ≤ (reqs.foldl (fun d r => (handle r d).2) db).lastLectureId := by
  induction reqs generalizing db with
  | nil => exact ⟨le_refl _, le_refl _⟩
  | cons req rest ih =>
    rw [List.foldl_cons]
    have hstep : db.lastCourseId ≤ (handle req db).2.lastCourseId ∧
        db.lastLectureId ≤ (handle req db).2.lastLectureId := by
      rcases handle_database req db with e | (e | e) | ⟨_, _, _, e⟩ |
        ⟨_, _, _, _, _, _, _, _, e⟩ <;> rw [e] <;> simp
    exact ⟨le_trans hstep.1 (ih _).1, le_trans hstep.2 (ih _).2⟩

/-- C27. In every state reachable from the seeded one, course ids are pairwise
distinct, lecture ids are pairwise distinct, and both are bounded by their counters;
a request never decreases a counter; a created course or lecture gets an id strictly
greater than every id of its kind in the database, and strictly greater than the id
any earlier creation returned, whatever requests came in between. -/
theorem ids_stay_unique (boot : BootClock) (db : MockDatabase) (h : Reachable boot db) :
    UniqueIds db ∧
    ∀ req : Request,
      db.lastCourseId ≤ (handle req db).2.lastCourseId ∧
      db.lastLectureId ≤ (handle req db).2.lastLectureId ∧
      (∀ (message : String) (id : Int),
        (handle req db).1.body = .courseCreated message id →
        (∀ course ∈ db.courses, course.id < id) ∧
        ∀ (between : List Request) (later : Request) (message₂ : String) (id₂ : Int),
          (handle later (between.foldl (fun d r => (handle r d).2) (handle req db).2)).1.body
            = .courseCreated message₂ id₂ → id < id₂) ∧
      (∀ (message : String) (id : Int) (info : Option FileInfo),
        (handle req db).1.body = .lectureCreated message id info →
        (∀ lecture ∈ db.lectures, lecture.id < id) ∧
        ∀ (between : List Request) (later : Request) (message₂ : String) (id₂ : Int)
          (info₂ : Option FileInfo),
          (handle later (between.foldl (fun d r => (handle r d).2) (handle req db).2)).1.body
            = .lectureCreated message₂ id₂ info₂ → id < id₂) := by
  have hu := (invariants_reachable boot db h).1
  refine ⟨hu, fun req => ⟨(counters_mono [req] db).1, (counters_mono [req] db).2, ?_, ?_⟩⟩
  · intro message id hbody
    obtain ⟨hid, hafter⟩ := courseCreated_id req db message id hbody
    refine ⟨?_, ?_⟩
    · intro course hc
      have := hu.2.2.1 course hc
      omega
    · intro between later message₂ id₂ hbody₂
      have hid₂ := (courseCreated_id later _ message₂ id₂ hbody₂).1
      have hmono := (counters_mono between (handle req db).2).1
      omega
  · intro message id info hbody
    obtain ⟨hid, hafter⟩ := lectureCreated_id req db message id info hbody
    refine ⟨?_, ?_⟩
    · intro lecture hl
      have := hu.2.2.2 lecture hl
      omega
    · intro between later message₂ id₂ info₂ hbody₂
      have hid₂ := (lectureCreated_id later _ message₂ id₂ info₂ hbody₂).1
      have hmono := (counters_mono between (handle req db).2).2
      omega

/-- Witness of C27: the state after a course creation and a lecture creation. -/
theorem ids_stay_unique_witness :
    Reachable sampleBoot sampleSession ∧ UniqueIds sampleSession ∧
    sampleSession.courses.map (·.id) = [1, 2] ∧ sampleSession.lectures.map (·.id) = [1, 2] :=
  ⟨Reachable.step _ (Reachable.step _ Reachable.init),
    (ids_stay_unique sampleBoot sampleSession
      (Reachable.step _ (Reachable.step _ Reachable.init))).1,
    by decide, by decide⟩

/-- C28. In every state reachable from the seeded one, the ids of the nested lecture
entries of all courses are exactly the ids of the rows of `mockDatabase.lectures`,
each occurring once, and a nested entry sits under the course whose id is the
`course_id` of the lecture row with the entry's id. -/
theorem dual_write_consistency (boot : BootClock) (db : MockDatabase)
    (h : Reachable boot db) :
    (nestedIds db.courses).Perm (db.lectures.map (·.id)) ∧
    (nestedIds db.courses).Nodup ∧ (db.lectures.map (·.id)).Nodup ∧
    (∀ course ∈ db.courses, ∀ entry ∈ course.lectures,
      ∃ row ∈ db.lectures, row.id = entry.id ∧ row.course_id = some course.id ∧
        ∀ other ∈ db.lectures, other.id = entry.id → other = row) := by
  obtain ⟨⟨_, hln, _, _⟩, hperm, hnn, hsits⟩ := invariants_reachable boot db h
  refine ⟨hperm, hnn, hln, ?_⟩
  intro course hc entry he
  have hmem : entry.id ∈ nestedIds db.courses := by
    simp only [nestedIds, List.mem_flatMap, List.mem_map]
    exact ⟨course, hc, entry, he, rfl⟩
  obtain ⟨row, hrow, hid⟩ := List.mem_map.1 (hperm.subset hmem)
  refine ⟨row, hrow, hid, hsits course hc entry he row hrow hid, ?_⟩
  intro other hother hoid
  exact List.inj_on_of_nodup_map hln hother hrow (hoid.trans hid.symm)

/-- Witness of C28: the state after a course creation and a lecture creation. -/
theorem dual_write_consistency_witness :
    Reachable sampleBoot sampleSession ∧
    (nestedIds sampleSession.courses).Perm (sampleSession.lectures.map (·.id)) ∧
    nestedIds sampleSession.courses = [1, 2] :=
  ⟨Reachable.step _ (Reachable.step _ Reachable.init),
    (dual_write_consistency sampleBoot sampleSession
      (Reachable.step _ (Reachable.step _ Reachable.init))).1,
    by decide⟩

/-! ## The two title syntheses -/

theorem title_eq_iff (a b topic : String) :
    "Lecture " ++ a ++ ": " ++ topic = "Lecture " ++ b ++ ": " ++ topic ↔ a = b := by
  constructor
  · intro h
    have h' := congrArg String.data h
    simp only [String.data_append, List.append_assoc] at h'
    have h₂ := List.append_cancel_left h'
    simp only [← List.append_assoc] at h₂
    exact String.ext (List.append_cancel_right (List.append_cancel_right h₂))
  · rintro rfl
    rfl

/-- C30, as stated, fails in both directions: for the canonical positive number
`9007199254740993` the mock server stores `Lecture 9007199254740993: RSA` while the
direct implementation inserts `Lecture 9007199254740992: RSA`; and for `-5`, which is
not a positive number, both titles are `Lecture -5: RSA`. -/
theorem titles_agree_beyond_and_differ_within :
    lectureNumberBig.lectureNo = .prim (.str (toString (9007199254740993 : Int))) ∧
    (handle (authedWith "t" .postLectures lectureNumberBig) sampleDb).1.status = 201 ∧
    (handle (authedWith "t" .postLectures lectureNumberBig) sampleDb).2.lectures.map (·.title)
      = ["Lecture 1: Introduction to Encryption", "Lecture 9007199254740993: RSA"] ∧
    (directPostLecturesHandler lectureNumberBig sampleReplies).inserts.map (·.title)
      = ["Lecture 9007199254740992: RSA"] ∧
    lectureNumberNegative.lectureNo = .prim (.str "-5") ∧
    (handle (authedWith "t" .postLectures lectureNumberNegative) sampleDb).2.lectures.map
        (·.title)
      = ["Lecture 1: Introduction to Encryption", "Lecture -5: RSA"] ∧
    (directPostLecturesHandler lectureNumberNegative sampleReplies).inserts.map (·.title)
      = ["Lecture -5: RSA"] := by
  decide

/-- C30, amended. The two lecture-creation implementations agree on the synthesised
title on canonical positive lecture numbers below `2 ^ 53`: for every topic and every
`lectureNo` that is the decimal string of a positive integer below `2 ^ 53`, the row a
successful mock-server lecture creation stores has the title that every `INSERT` of
the direct implementation carries for the same body; for the `lectureNo` `0` the mock
server stores `Lecture 0: <topic>` while the direct implementation inserts
`Lecture 1: <topic>`, and the two differ.  In general an `INSERT` carries the stored
title exactly when `lectureNo` is the rendering of `parseInt(lectureNo, 10) || 1`. -/
theorem titles_agree_on_positive_numbers (req : Request) (db : MockDatabase)
    (replies : DirectReplies) (hr : req.route = .postLectures)
    (hs : (handle req db).1.status = 201) :
    ∃ (row : Lecture) (lectureNo topic : String),
      (handle req db).2.lectures = db.lectures ++ [row] ∧
      req.body.lectureNo.toStr = .ok lectureNo ∧ req.body.topic.toStr = .ok topic ∧
      row.title = "Lecture " ++ lectureNo ++ ": " ++ topic ∧
      (∀ k : Int, 0 < k → k < 9007199254740992 →
        req.body.lectureNo = .prim (.str (toString k)) →
        ∀ p ∈ (directPostLecturesHandler req.body replies).inserts, p.title = row.title) ∧
      (req.body.lectureNo = .prim (.str "0") →
        ∀ p ∈ (directPostLecturesHandler req.body replies).inserts,
          p.title = "Lecture 1: " ++ topic ∧ p.title ≠ row.title) ∧
      (∀ p ∈ (directPostLecturesHandler req.body replies).inserts,
        (p.title = row.title ↔
          ∃ k : Int, lectureNumberOf req.body.lectureNo = .ok k ∧
            numberToString k = lectureNo)) := by
  obtain ⟨idx, parsed, n, lectureNo, topic, _, _, _, hno, htopic, hh⟩ :=
    created_of_status req db hr hs
  have hgen : ∀ p ∈ (directPostLecturesHandler req.body replies).inserts,
      ∃ k : Int, lectureNumberOf req.body.lectureNo = .ok k ∧
        p.title = "Lecture " ++ numberToString k ++ ": " ++ topic := by
    intro p hp
    obtain ⟨k, topic', hk, htopic', hp'⟩ := direct_insert_title req.body replies p hp
    rw [htopic] at htopic'
    rw [← Except.ok.inj htopic'] at hp'
    exact ⟨k, hk, hp'⟩
  rw [hh]
  refine ⟨_, lectureNo, topic, rfl, hno, htopic, rfl, ?_, ?_, ?_⟩
  · intro k hk hsafe hbody p hp
    obtain ⟨k', hk', hp'⟩ := hgen p hp
    have habs : k.natAbs < 9007199254740992 := by omega
    rw [hbody, lectureNumberOf_canonical k (by omega) habs] at hk'
    rw [← Except.ok.inj hk', numberToString_of_safe k habs] at hp'
    have hl : lectureNo = toString k := by
      rw [hbody] at hno
      exact (Except.ok.inj hno).symm
    rw [hp', hl]
  · intro hbody p hp
    obtain ⟨k', hk', hp'⟩ := hgen p hp
    have hone : lectureNumberOf (.prim (.str "0")) = .ok 1 := by
      have hparse : parseIntStrRadix10 "0" = some 0 := by decide
      simp [lectureNumberOf, JVal.toStr, Prim.toStr, hparse]
    have hstr : numberToString 1 = "1" := by decide
    rw [hbody, hone] at hk'
    rw [← Except.ok.inj hk', hstr] at hp'
    have hl : lectureNo = "0" := by
      rw [hbody] at hno
      exact (Except.ok.inj hno).symm
    refine ⟨by rw [hp']; rfl, ?_⟩
    rw [hp', hl]
    intro h
    have := (title_eq_iff "1" "0" topic).1 h
    exact absurd this (by decide)
  · intro p hp
    obtain ⟨k', hk', hp'⟩ := hgen p hp
    rw [hp']
    constructor
    · intro h
      exact ⟨k', hk', (title_eq_iff _ _ topic).1 h⟩
    · rintro ⟨k, hk, hkl⟩
      rw [hk'] at hk
      rw [Except.ok.inj hk, hkl]

/-- Witness of the amended C30: the number `7` agrees on both implementations. -/
theorem titles_agree_on_positive_numbers_witness :
    ∃ row : Lecture,
      (handle (authedWith "t" .postLectures lectureNumber7) sampleDb).2.lectures
        = sampleDb.lectures ++ [row] ∧
      row.title = "Lecture 7: RSA" ∧
      (directPostLecturesHandler lectureNumber7 sampleReplies).inserts.map (·.title)
        = ["Lecture 7: RSA"] ∧
      ∀ p ∈ (directPostLecturesHandler lectureNumber7 sampleReplies).inserts,
        p.title = row.title := by
  obtain ⟨row, lectureNo, topic, hrows, hno, htopic, htitle, hagree, _⟩ :=
    titles_agree_on_positive_numbers
      (authedWith "t" .postLectures lectureNumber7) sampleDb sampleReplies rfl (by decide)
  have hno' : lectureNo = "7" := (Except.ok.inj hno).symm
  have htopic' : topic = "RSA" := (Except.ok.inj htopic).symm
  have hrow : row.title = "Lecture 7: RSA" := by rw [htitle, hno', htopic']; rfl
  exact ⟨row, hrows, hrow, by decide, hagree 7 (by decide) (by decide) rfl⟩

/-! ## The direct course listing -/

theorem Prim.strictEq_eq {a b : Prim} (h : Prim.strictEq a b = true) : a = b := by
  cases a <;> cases b <;> simp_all [Prim.strictEq]

/-- With pairwise distinct ids, pushing a lecture changes exactly the courses whose id
is its `course_id`. -/
theorem attachLecture_eq_map (lecture : LectureDbRow) (cs : List DirectCourse)
    (hd : (cs.map (·.id)).Nodup) :
    attachLecture cs lecture = cs.map fun c =>
      if Prim.strictEq c.id lecture.course_id
      then { c with lectures := c.lectures ++ [lectureEntryOf lecture] } else c := by
  induction cs with
  | nil => rfl
  | cons c rest ih =>
    rw [List.map_cons, List.nodup_cons] at hd
    have ih' := ih hd.2
    unfold attachLecture at ih' ⊢
    by_cases hp : Prim.strictEq c.id lecture.course_id = true
    · have hrest : ∀ c' ∈ rest, Prim.strictEq c'.id lecture.course_id = false := by
        intro c' hc'
        cases hq : Prim.strictEq c'.id lecture.course_id with
        | false => rfl
        | true =>
          exfalso
          apply hd.1
          rw [Prim.strictEq_eq hp, ← Prim.strictEq_eq hq]
          exact List.mem_map_of_mem _ hc'
      simp only [findIndex, hp, if_true, updateAt, List.map_cons]
      congr 1
      symm
      calc rest.map _ = rest.map id := by
            apply List.map_congr_left
            intro c' hc'
            simp [hrest c' hc']
        _ = rest := List.map_id _
    · simp only [Bool.not_eq_true] at hp
      simp only [findIndex, hp, List.map_cons]
      cases hidx : findIndex (fun c => Prim.strictEq c.id lecture.course_id) rest with
      | none =>
        rw [hidx] at ih'
        simp only [Option.map_none', Bool.false_eq_true, if_false]
        rw [← ih']
      | some idx =>
        rw [hidx] at ih'
        simp only [Option.map_some', updateAt, Bool.false_eq_true, if_false]
        rw [← ih']

/-- With pairwise distinct ids, pushing all lectures in order gives each course the
lectures of its id, in order. -/
theorem foldl_attachLecture (lectures : List LectureDbRow) (cs : List DirectCourse)
    (hd : (cs.map (·.id)).Nodup) :
    lectures.foldl attachLecture cs = cs.map fun c =>
      { c with lectures := c.lectures ++
          (lectures.filter fun l => Prim.strictEq c.id l.course_id).map lectureEntryOf } := by
  induction lectures generalizing cs with
  | nil =>
    simp only [List.foldl_nil, List.filter_nil, List.map_nil, List.append_nil]
    exact (List.map_id _).symm
  | cons l rest ih =>
    rw [List.foldl_cons, attachLecture_eq_map l cs hd]
    have hd' : ((cs.map fun c =>
        if Prim.strictEq c.id l.course_id
        then { c with lectures := c.lectures ++ [lectureEntryOf l] } else c).map (·.id)).Nodup := by
      have : ((cs.map fun c =>
          if Prim.strictEq c.id l.course_id
          then ({ c with lectures := c.lectures ++ [lectureEntryOf l] } : DirectCourse)
          else c).map (·.id)) = cs.map (·.id) := by
        rw [List.map_map]
        apply List.map_congr_left
        intro c _
        simp only [Function.comp]
        split <;> rfl
      rw [this]; exact hd
    rw [ih _ hd', List.map_map]
    apply List.map_congr_left
    intro c _
    simp only [Function.comp]
    by_cases hp : Prim.strictEq c.id l.course_id = true
    · simp [hp, List.filter_cons]
    · simp only [Bool.not_eq_true] at hp
      simp [hp, List.filter_cons]

/-- C24. In the direct `GET /api/courses`, when the course rows have pairwise distinct
ids and both queries succeed, the response is 200 with one course per course row, in
row order, whose name is the row's title and whose lectures are exactly the lecture
rows with `course_id` strictly equal to the course's id, in fetched order, each mapped
to `{id, lectureNo: id, topic: title, date: lecture_date, notes: {type: 'url',
content: description || ''}}`; a lecture row passes the filter of at most one course
position, and of none when its `course_id` matches no course. -/
theorem direct_courses_nest_lectures (req : Request) (db : CoursesReplies)
    (courses : List CourseDbRow) (lectures : List LectureDbRow)
    (ht : tokenMissing (req.header "x-auth-token") = false)
    (hc : db.courses = .ok courses) (hl : db.lectures = .ok lectures)
    (hd : (courses.map (·.id)).Nodup) :
    directGetCourses req db = .ok ⟨200, .courses (courses.map fun course =>
      { id := course.id
        name := course.title
        description := course.description
        code := course.code
        professor_id := course.professor_id
        created_at := course.created_at
        lectures := (lectures.filter fun l => Prim.strictEq course.id l.course_id).map
          fun l =>
            { id := l.id
              lectureNo := l.id
              topic := l.title
              date := l.lecture_date
              notes := { type := "url", content := l.description.orElse (.str "") } } })⟩ ∧
    (∀ l ∈ lectures, ∀ (i j : Nat) (c₁ c₂ : CourseDbRow),
      courses[i]? = some c₁ → courses[j]? = some c₂ →
      Prim.strictEq c₁.id l.course_id = true → Prim.strictEq c₂.id l.course_id = true →
      i = j) ∧
    (∀ l ∈ lectures, (∀ c ∈ courses, Prim.strictEq c.id l.course_id = false) →
      ∀ c ∈ courses, l ∉ lectures.filter fun l => Prim.strictEq c.id l.course_id) := by
  refine ⟨?_, ?_, ?_⟩
  · have hd' : ((courses.map transformCourse).map (·.id)).Nodup := by
      rw [List.map_map]; exact hd
    simp only [directGetCourses, directVerifyToken, ht, Bool.false_eq_true, if_false,
      directGetCoursesHandler, hc, hl]
    congr 1
    by_cases hlen : (courses.map transformCourse).length > 0
    · rw [if_pos hlen, foldl_attachLecture lectures _ hd', List.map_map]
      rfl
    · rw [if_neg hlen]
      have : courses = [] := by
        cases courses with
        | nil => rfl
        | cons c cs => simp at hlen
      subst this
      rfl
  · intro l _ i j c₁ c₂ h₁ h₂ hp hq
    have hi := (List.getElem?_eq_some_iff.1 h₁)
    have hj := (List.getElem?_eq_some_iff.1 h₂)
    obtain ⟨hi, hci⟩ := hi
    obtain ⟨hj, hcj⟩ := hj
    have hid : c₁.id = c₂.id := by rw [Prim.strictEq_eq hp, Prim.strictEq_eq hq]
    have hi' : i < (courses.map (·.id)).length := by simpa using hi
    have hj' : j < (courses.map (·.id)).length := by simpa using hj
    have key : (courses.map (·.id))[i] = (courses.map (·.id))[j] := by
      simp [hci, hcj, hid]
    exact (List.Nodup.getElem_inj_iff hd).1 key
  · intro l _ hnone c hcm hmem
    have := (List.mem_filter.1 hmem).2
    rw [hnone c hcm] at this
    exact absurd this (by decide)

/-- Witness of C24: two courses, four lectures, one of them of no listed course. -/
theorem direct_courses_nest_lectures_witness :
    directGetCourses (authed "t" .getCourses) sampleCoursesReplies = .ok ⟨200, .courses
      [⟨.num 2, .str "Number Theory", .str "primes", .str "NT", .null, .str "2025-02-01",
        [⟨.num 13, .num 13, .str "Lecture 1: Primes", .str "2025-03-03",
          ⟨"url", .str "sieve"⟩⟩]⟩,
       ⟨.num 1, .str "Cryptography 101", .null, .str "CRY101", .null, .str "2025-01-01",
        [⟨.num 14, .num 14, .str "Lecture 4: DH", .str "2025-03-04", ⟨"url", .str ""⟩⟩,
         ⟨.num 11, .num 11, .str "Lecture 3: RSA", .str "2025-03-01",
          ⟨"url", .str "rsa"⟩⟩]⟩]⟩ :=
  (direct_courses_nest_lectures (authed "t" .getCourses) sampleCoursesReplies
    sampleCourseRows sampleLectureRows (by decide) rfl rfl (by decide)).1

/-! ## Frame of the resource update -/

/-- The only statement of the update route that can change the database is its one
`UPDATE`. -/
theorem putResourceHandler_state {σ : Type} (db : ResourceStore σ) (state : σ)
    (id : String) (body : ResourceBody) (iso : String) :
    (putResourceHandler db state id body iso).state = state ∨
    (putResourceHandler db state id body iso).state =
      (db.update state
        ⟨body.title, body.description, body.type, body.url, formattedDate iso, id⟩).2 := by
  unfold putResourceHandler
  cases hsel : db.selectById state id with
  | error e => left; rfl
  | ok rows =>
    by_cases hlen : rows.length = 0
    · left; simp [hlen]
    · right
      simp only [hlen, if_false]
      cases hupd : db.update state
          ⟨body.title, body.description, body.type, body.url, formattedDate iso, id⟩ with
      | mk result state' =>
        cases result with
        | error e => rfl
        | ok affectedRows =>
          by_cases haff : affectedRows = 0
          · simp [haff]
          · simp only [haff, if_false]
            cases db.selectJoinedById state' id <;> rfl

/-- A successful update on the in-memory tables ran the `UPDATE` on a matching row. -/
theorem putResourceHandler_tables_ok (state : Tables) (id : String) (body : ResourceBody)
    (iso : String)
    (hs : (putResourceHandler tableStore state id body iso).response.status = 200) :
    (∃ r ∈ state.resources, toString r.id = id) ∧
    (putResourceHandler tableStore state id body iso).issued
      = [.selectById id,
          .update ⟨body.title, body.description, body.type, body.url, formattedDate iso, id⟩,
          .selectJoinedById id] ∧
    (putResourceHandler tableStore state id body iso).state =
      { state with resources := state.resources.map fun r =>
          if toString r.id == id then
            { r with title := sqlValue body.title, description := sqlValue body.description,
                     type := sqlValue body.type, url := sqlValue body.url,
                     updated_at := .str (formattedDate iso) }
          else r } := by
  by_cases hlen : (state.resources.filter (fun r => toString r.id == id)).length = 0
  · simp [putResourceHandler, tableStore, hlen] at hs
  · refine ⟨?_, ?_, ?_⟩
    · cases hf : state.resources.filter (fun r => toString r.id == id) with
      | nil => simp [hf] at hlen
      | cons r rest =>
        have hmem : r ∈ state.resources.filter (fun r => toString r.id == id) := by
          rw [hf]; exact List.mem_cons_self _ _
        obtain ⟨h₁, h₂⟩ := List.mem_filter.1 hmem
        exact ⟨r, h₁, by simpa using h₂⟩
    · simp [putResourceHandler, tableStore, hlen]
    · simp [putResourceHandler, tableStore, hlen]

/-- C26. A successful `PUT /api/resources/:id` issues one `UPDATE`, whose parameters
are the submitted title, description, type and url, the formatted date and the id,
whether or not the request carries an uploaded file.  On the in-memory tables the row
with that id gets these five columns and keeps its id, `file_path`, `created_by` and
`created_at`; every other row and the users table are unchanged. -/
theorem resource_update_frame (state : Tables) (req : ResourceRequest) (iso : String)
    (hs : (putResource tableStore state req iso).response.status = 200) :
    (∀ (σ : Type) (db : ResourceStore σ) (s : σ),
      putResource db s req iso = putResource db s { req with file := none } iso ∧
      ((putResource db s req iso).state = s ∨
        (putResource db s req iso).state =
          (db.update s ⟨req.body.title, req.body.description, req.body.type, req.body.url,
            formattedDate iso, req.id⟩).2)) ∧
    (putResource tableStore state req iso).issued
      = [.selectById req.id,
          .update ⟨req.body.title, req.body.description, req.body.type, req.body.url,
            formattedDate iso, req.id⟩,
          .selectJoinedById req.id] ∧
    (putResource tableStore state req iso).state.users = state.users ∧
    (putResource tableStore state req iso).state.resources.length
      = state.resources.length ∧
    (∃ r ∈ state.resources, toString r.id = req.id) ∧
    (∀ (i : Nat) (r : ResourceRow), state.resources[i]? = some r →
      ∃ r' : ResourceRow,
        (putResource tableStore state req iso).state.resources[i]? = some r' ∧
        r'.id = r.id ∧ r'.file_path = r.file_path ∧ r'.created_by = r.created_by ∧
        r'.created_at = r.created_at ∧
        (toString r.id ≠ req.id → r' = r) ∧
        (toString r.id = req.id →
          r'.title = sqlValue req.body.title ∧
          r'.description = sqlValue req.body.description ∧
          r'.type = sqlValue req.body.type ∧ r'.url = sqlValue req.body.url ∧
          r'.updated_at = .str (formattedDate iso))) := by
  obtain ⟨hex, hissued, hstate⟩ :=
    putResourceHandler_tables_ok state req.id req.body iso hs
  refine ⟨fun σ db s => ⟨rfl, putResourceHandler_state db s req.id req.body iso⟩,
    hissued, ?_, ?_, hex, ?_⟩
  · show (putResourceHandler tableStore state req.id req.body iso).state.users = _
    rw [hstate]
  · show (putResourceHandler tableStore state req.id req.body iso).state.resources.length = _
    rw [hstate]
    simp
  · intro i r hi
    show ∃ r' : ResourceRow,
      (putResourceHandler tableStore state req.id req.body iso).state.resources[i]? = some r' ∧ _
    rw [hstate]
    simp only [List.getElem?_map, hi, Option.map_some']
    by_cases hid : toString r.id = req.id
    · refine ⟨_, rfl, ?_⟩
      simp [hid]
    · refine ⟨_, rfl, ?_⟩
      simp [hid]

/-- Witness of C26: the update of resource 2 with an uploaded file changes the five
columns of row 2 only; its `file_path` stays the old one. -/
theorem resource_update_frame_witness :
    (putResource tableStore sampleTables sampleUpdateWithFile
      "2025-01-02T09:30:00.000Z").response.status = 200 ∧
    (putResource tableStore sampleTables sampleUpdateWithFile
      "2025-01-02T09:30:00.000Z").state.users = sampleTables.users ∧
    (putResource tableStore sampleTables sampleUpdateWithFile
      "2025-01-02T09:30:00.000Z").state.resources.map (·.file_path)
      = [.null, .str "/uploads/resources/pki-guide.pdf"] ∧
    (putResource tableStore sampleTables sampleUpdateWithFile
      "2025-01-02T09:30:00.000Z").state.resources.map (·.title)
      = [.str "Introduction to Symmetric Cryptography", .str "PKI explained"] :=
  ⟨by decide,
    (resource_update_frame sampleTables sampleUpdateWithFile "2025-01-02T09:30:00.000Z"
      (by decide)).2.2.1,
    by decide, by decide⟩

/-! ## The `Lectures` component: adding courses and lectures -/

theorem mathMax0_spec (ids : List Prim) (m : Int) (h : LecturesComponent.mathMax0 ids = some m) :
    0 ≤ m ∧ (∀ n : Int, Prim.num n ∈ ids → n ≤ m) ∧ (m = 0 ∨ Prim.num m ∈ ids) := by
  induction ids generalizing m with
  | nil =>
    simp only [LecturesComponent.mathMax0, Option.some.injEq] at h
    subst h
    simp
  | cons p rest ih =>
    cases p with
    | num k =>
      simp only [LecturesComponent.mathMax0] at h
      cases hr : LecturesComponent.mathMax0 rest with
      | none => simp [hr] at h
      | some m' =>
        simp only [hr, Option.map_some', Option.some.injEq] at h
        obtain ⟨h0, hle, hmem⟩ := ih m' hr
        subst h
        refine ⟨le_max_of_le_right h0, ?_, ?_⟩
        · intro n hn
          rcases List.mem_cons.1 hn with hn | hn
          · cases hn
            exact le_max_left _ _
          · exact le_max_of_le_right (hle n hn)
        · rcases le_total k m' with hk | hk
          · rw [max_eq_right hk]
            rcases hmem with hmem | hmem
            · exact Or.inl hmem
            · exact Or.inr (List.mem_cons_of_mem _ hmem)
          · rw [max_eq_left hk]
            exact Or.inr (List.mem_cons_self _ _)
    | undefined => simp [LecturesComponent.mathMax0] at h
    | null => simp [LecturesComponent.mathMax0] at h
    | bool b => simp [LecturesComponent.mathMax0] at h
    | str t => simp [LecturesComponent.mathMax0] at h

theorem mathMax0_of_numeric (ids : List Prim) (h : ∀ p ∈ ids, ∃ n : Int, p = .num n) :
    ∃ m : Int, LecturesComponent.mathMax0 ids = some m := by
  induction ids with
  | nil => exact ⟨0, rfl⟩
  | cons p rest ih =>
    obtain ⟨n, rfl⟩ := h p (List.mem_cons_self _ _)
    obtain ⟨m, hm⟩ := ih fun q hq => h q (List.mem_cons_of_mem _ hq)
    exact ⟨max n m, by simp [LecturesComponent.mathMax0, hm]⟩

theorem nodup_append_fresh (ids : List Prim) (m : Int) (hn : ids.Nodup)
    (hle : ∀ n : Int, Prim.num n ∈ ids → n ≤ m) : (ids ++ [Prim.num (m + 1)]).Nodup := by
  rw [List.nodup_append]
  refine ⟨hn, List.nodup_singleton _, ?_⟩
  intro a ha hb
  rw [List.mem_singleton] at hb
  subst hb
  have := hle _ ha
  omega

/-- With pairwise distinct course ids, the map that changes the courses with a given
numeric id changes exactly the position of a course that has this id. -/
theorem map_if_eq_updateAt (f : CourseItem → CourseItem) (k : Int) (cs : List CourseItem)
    (i : Nat) (selected : CourseItem) (hd : (cs.map (·.id)).Nodup)
    (hi : cs[i]? = some selected) (hk : selected.id = .num k) :
    (cs.map fun c => if c.id.strictEq (.num k) then f c else c) = updateAt f i cs := by
  induction cs generalizing i with
  | nil => simp at hi
  | cons c rest ih =>
    rw [List.map_cons, List.nodup_cons] at hd
    cases i with
    | zero =>
      have hc : c = selected := by simpa using hi
      subst hc
      have hrest : ∀ c' ∈ rest, c'.id.strictEq (.num k) = false := by
        intro c' hc'
        cases hq : c'.id.strictEq (.num k) with
        | false => rfl
        | true =>
          exfalso
          apply hd.1
          rw [hk, ← Prim.strictEq_eq hq]
          exact List.mem_map_of_mem _ hc'
      have hself : c.id.strictEq (.num k) = true := by simp [hk, Prim.strictEq]
      simp only [List.map_cons, hself, if_true, updateAt]
      congr 1
      calc rest.map _ = rest.map id := by
            apply List.map_congr_left
            intro c' hc'
            simp [hrest c' hc']
        _ = rest := List.map_id _
    | succ j =>
      have hj : rest[j]? = some selected := by simpa using hi
      have hc : c.id.strictEq (.num k) = false := by
        cases hq : c.id.strictEq (.num k) with
        | false => rfl
        | true =>
          exfalso
          apply hd.1
          rw [Prim.strictEq_eq hq, ← hk]
          exact List.mem_map_of_mem _ (List.getElem?_mem hj)
      simp only [List.map_cons, hc, Bool.false_eq_true, if_false, updateAt]
      rw [ih j hd.2 hj]

/-- With pairwise distinct course ids, appending an item to the courses with a given
id leaves the lecture ids or adds the item's id once. -/
theorem lectureIds_map_append (item : NestedItem) (k : Int) (cs : List CourseItem)
    (hd : (cs.map (·.id)).Nodup) :
    LecturesComponent.lectureIds (cs.map fun c =>
        if c.id.strictEq (.num k) then LecturesComponent.appendLecture c item else c)
      = LecturesComponent.lectureIds cs ∨
    (LecturesComponent.lectureIds (cs.map fun c =>
        if c.id.strictEq (.num k) then LecturesComponent.appendLecture c item else c)).Perm
      (LecturesComponent.lectureIds cs ++ [item.id]) := by
  induction cs with
  | nil => left; rfl
  | cons c rest ih =>
    rw [List.map_cons, List.nodup_cons] at hd
    by_cases hp : c.id.strictEq (.num k) = true
    · right
      have hrest : ∀ c' ∈ rest, c'.id.strictEq (.num k) = false := by
        intro c' hc'
        cases hq : c'.id.strictEq (.num k) with
        | false => rfl
        | true =>
          exfalso
          apply hd.1
          rw [Prim.strictEq_eq hp, ← Prim.strictEq_eq hq]
          exact List.mem_map_of_mem _ hc'
      have hmap : (rest.map fun c =>
          if c.id.strictEq (.num k) then LecturesComponent.appendLecture c item else c)
            = rest := by
        calc rest.map _ = rest.map id := by
              apply List.map_congr_left
              intro c' hc'
              simp [hrest c' hc']
          _ = rest := List.map_id _
      rw [List.map_cons, if_pos hp, hmap]
      simp only [LecturesComponent.lectureIds,
        List.flatMap_cons, LecturesComponent.appendLecture, List.map_append, List.map_cons,
        List.map_nil]
      cases c.lectures with
      | none =>
        simp only [Option.getD_none, List.map_nil, List.nil_append]
        exact @List.perm_append_comm _ [item.id] _
      | some ls =>
        simp only [Option.getD_some, List.append_assoc]
        exact List.Perm.append_left _ (@List.perm_append_comm _ [item.id] _)
    · simp only [Bool.not_eq_true] at hp
      rcases ih hd.2 with h | h
      · left
        simp only [List.map_cons, hp, Bool.false_eq_true, if_false]
        simp only [LecturesComponent.lectureIds, List.flatMap_cons] at h ⊢
        rw [h]
      · right
        simp only [List.map_cons, hp, Bool.false_eq_true, if_false]
        simp only [LecturesComponent.lectureIds, List.flatMap_cons, List.append_assoc] at h ⊢
        exact List.Perm.append_left _ h

theorem bitLength_le (fuel v n : Nat) (h : v < 2 ^ n) : bitLength fuel v ≤ n := by
  induction fuel generalizing v n with
  | zero => simp [bitLength]
  | succ fuel ih =>
    unfold bitLength
    split
    · exact Nat.zero_le _
    · rename_i hv
      cases n with
      | zero =>
        simp only [pow_zero, Nat.lt_one_iff] at h
        exact absurd h hv
      | succ n =>
        have : v / 2 < 2 ^ n := by
          rw [Nat.div_lt_iff_lt_mul (by decide : 0 < 2)]
          rw [pow_succ] at h
          exact h
        exact Nat.succ_le_succ (ih _ _ this)

/-- The successor of an integer from 0 to `2 ^ 53 - 1` is a double. -/
theorem toDouble_succ (m : Int) (h0 : 0 ≤ m) (h : m < 9007199254740992) :
    toDouble (m + 1) = m + 1 := by
  by_cases hlt : m + 1 < 9007199254740992
  · exact toDouble_of_safe _ (by omega)
  · have hm : m + 1 = 9007199254740992 := by omega
    rw [hm]
    decide

theorem roundNat_shortestDecimal (x : Nat) (hx : roundNat x = x) :
    roundNat (shortestDecimal x) = x := by
  unfold shortestDecimal
  cases hf : (decimalCandidates x).find? (fun y => roundNat y == x) with
  | none => exact hx
  | some y =>
    have := List.find?_some hf
    simpa using this

/-- Reading back the rendering of an integer-valued double below `10 ^ 21` in
magnitude gives the number. -/
theorem parseIntStrRadix10_numberToString (k : Int) (hd : toDouble k = k)
    (hk : k.natAbs < 1000000000000000000000) :
    parseIntStrRadix10 (numberToString k) = some k := by
  by_cases hsafe : k.natAbs < 9007199254740992
  · rw [numberToString_of_safe k hsafe, parseIntStrRadix10_toString, hd]
  · have hbit : ¬ 1024 < bitLength k.natAbs k.natAbs := by
      have h70 : k.natAbs < 2 ^ 70 := lt_trans hk (by norm_num)
      have := bitLength_le k.natAbs k.natAbs 70 h70
      omega
    have hround : roundNat k.natAbs = k.natAbs := by
      unfold toDouble at hd
      split at hd <;> omega
    have hsd := roundNat_shortestDecimal k.natAbs hround
    have hnum : numberToString k = toString
        (if k < 0 then -(shortestDecimal k.natAbs : Int) else (shortestDecimal k.natAbs : Int)) := by
      simp [numberToString, hsafe, hbit, hk]
    rw [hnum, parseIntStrRadix10_toString]
    have hpos : 0 < shortestDecimal k.natAbs := by
      rcases Nat.eq_zero_or_pos (shortestDecimal k.natAbs) with h0 | h0
      · rw [h0] at hsd
        have h00 : roundNat 0 = 0 := by decide
        omega
      · exact h0
    congr 1
    by_cases hneg : k < 0
    · rw [if_pos hneg]
      unfold toDouble
      rw [if_pos (by omega), Int.natAbs_neg, Int.natAbs_ofNat, hsd]
      omega
    · rw [if_neg hneg]
      unfold toDouble
      rw [if_neg (by omega), Int.natAbs_ofNat, hsd]
      omega

/-- The add branch of `handleAddLecture`, reached with a selected course whose id
parses, no lecture being edited and both required fields filled. -/
theorem handleAddLecture_add (courses : List CourseItem) (selected : CourseItem)
    (newLecture : LectureForm) (today : String) (k : Int)
    (hparse : parseIntStrRadix10 selected.id.toStr = some k)
    (hno : newLecture.lectureNo.truthy = true) (htopic : newLecture.topic.truthy = true) :
    LecturesComponent.handleAddLecture courses (some selected) none newLecture today =
      (LecturesComponent.mathMax0 (LecturesComponent.lectureIds courses)).map fun m =>
        { courses := courses.map fun course =>
            if course.id.strictEq (.num k) then
              LecturesComponent.appendLecture course
                (LecturesComponent.newLectureItem (toDouble (m + 1)) k newLecture today)
            else course
          alert := some ("Lecture \"" ++ newLecture.topic.toStr ++ "\" added successfully") } := by
  cases hmax : LecturesComponent.mathMax0 (LecturesComponent.lectureIds courses) <;>
    simp [LecturesComponent.handleAddLecture, hparse, hno, htopic, hmax]

/-- C25, as stated, fails.  With the placeholder courses, the first course selected,
its first lecture being edited and both fields filled, the handler rewrites that
lecture and appends none: the courses keep two and one lectures.  With a state whose
course has the textual id `1`, which parses to the number 1, selected and both fields
filled, the handler raises the success alert and leaves the state as it was.  With a
state whose courses have the ids 1 and `10 ^ 21`, the second selected and both fields
filled, the id renders as `1e+21`, which parses to 1, and the lecture is appended to
the course with the id 1, not to the selected one. -/
theorem add_lecture_not_always_appended :
    LecturesComponent.sampleForm.lectureNo.truthy = true ∧
    LecturesComponent.sampleForm.topic.truthy = true ∧
    parseIntStrRadix10 (Prim.num 1).toStr = some 1 ∧
    LecturesComponent.dummyData.map (fun c => (c.lectures.getD []).length) = [2, 1] ∧
    (LecturesComponent.handleAddLecture LecturesComponent.dummyData
        LecturesComponent.dummyData.head? (some LecturesComponent.firstLecture)
        LecturesComponent.sampleForm "2025-01-02").map
      (fun o => (o.courses.map (fun c => (c.lectures.getD []).length), o.alert))
      = some ([2, 1], some "Lecture \"Hash functions\" updated successfully") ∧
    parseIntStrRadix10 (Prim.str "1").toStr = some 1 ∧
    LecturesComponent.handleAddLecture LecturesComponent.textualIdState
        LecturesComponent.textualIdState.head? none LecturesComponent.sampleForm "2025-01-02"
      = some ⟨LecturesComponent.textualIdState,
          some "Lecture \"Hash functions\" added successfully"⟩ ∧
    (Prim.num 1000000000000000000000).toStr = "1e+21" ∧
    parseIntStrRadix10 "1e+21" = some 1 ∧
    (LecturesComponent.handleAddLecture LecturesComponent.hugeIdState
        (LecturesComponent.hugeIdState.drop 1).head? none
        LecturesComponent.sampleForm "2025-01-02").map
      (fun o => o.courses.map (fun c => (c.id, (c.lectures.getD []).length)))
      = some [(.num 1, 1), (.num 1000000000000000000000, 0)] := by
  decide

/-- C25, amended.  With a selected course or a lecture being edited, a call of
`handleAddLecture` with a falsy (empty) lecture number or topic leaves the courses
state as it was.  With both fields filled, no lecture being edited and a selected
course whose id is an integer number below `10 ^ 21` in magnitude, the new lecture,
which carries the form's number and topic, is appended to the lectures of every
course of the state with that id and every other course is unchanged; when the course
ids are pairwise distinct and the selected course is in the state, that is exactly
one lecture, appended at the position of that course.  The new lecture's id is the
`Math.max` of the lecture ids and 0, plus 1, and the outcome is given wherever
`mathMax0` computes that maximum. -/
theorem add_lecture_validation_and_append (courses : List CourseItem)
    (selectedCourse : Option CourseItem) (editingLecture : Option NestedItem)
    (newLecture : LectureForm) (today : String) :
    ((selectedCourse.isSome = true ∨ editingLecture.isSome = true) →
      (newLecture.lectureNo.truthy = false ∨ newLecture.topic.truthy = false) →
      ∃ alert : Option String,
        LecturesComponent.handleAddLecture courses selectedCourse editingLecture newLecture
          today = some ⟨courses, alert⟩) ∧
    (∀ (selected : CourseItem) (k : Int),
      selectedCourse = some selected → editingLecture = none →
      selected.id = Prim.num k → toDouble k = k → k.natAbs < 1000000000000000000000 →
      newLecture.lectureNo.truthy = true → newLecture.topic.truthy = true →
      LecturesComponent.handleAddLecture courses selectedCourse editingLecture newLecture
          today =
        (LecturesComponent.mathMax0 (LecturesComponent.lectureIds courses)).map (fun m =>
          { courses := courses.map fun course =>
              if course.id.strictEq (.num k) then
                LecturesComponent.appendLecture course
                  (LecturesComponent.newLectureItem (toDouble (m + 1)) k newLecture today)
              else course
            alert := some
              ("Lecture \"" ++ newLecture.topic.toStr ++ "\" added successfully") }) ∧
      (∀ newId : Int,
        (LecturesComponent.newLectureItem newId k newLecture today).topic
          = newLecture.topic ∧
        (LecturesComponent.newLectureItem newId k newLecture today).lectureNo
          = newLecture.lectureNo) ∧
      ((∀ p ∈ LecturesComponent.lectureIds courses, ∃ n : Int, p = Prim.num n) →
        (LecturesComponent.handleAddLecture courses selectedCourse editingLecture newLecture
          today).isSome = true) ∧
      ∀ (item : NestedItem) (i : Nat),
        courses[i]? = some selected → (courses.map (·.id)).Nodup →
          (courses.map fun course =>
            if course.id.strictEq (.num k) then LecturesComponent.appendLecture course item
            else course)
          = updateAt (fun course => LecturesComponent.appendLecture course item) i courses) := by
  constructor
  · intro hsome hempty
    unfold LecturesComponent.handleAddLecture
    have hfields : (!newLecture.lectureNo.truthy || !newLecture.topic.truthy) = true := by
      rcases hempty with h | h <;> simp [h]
    cases editingLecture with
    | some editing =>
      simp only [Option.isNone_some, Bool.and_false, Bool.false_eq_true, if_false]
      cases parseIntStrRadix10 editing.courseId.toStr with
      | none => exact ⟨_, rfl⟩
      | some courseId =>
        simp only [hfields, if_true]
        exact ⟨_, rfl⟩
    | none =>
      cases selectedCourse with
      | none => simp at hsome
      | some selected =>
        simp only [Option.isNone_some, Bool.false_and, Bool.false_eq_true, if_false]
        cases parseIntStrRadix10 selected.id.toStr with
        | none => exact ⟨_, rfl⟩
        | some courseId =>
          simp only [hfields, if_true]
          exact ⟨_, rfl⟩
  · intro selected k hsel hedit hid hdouble hbound hno htopic
    subst hsel hedit
    have hparse : parseIntStrRadix10 selected.id.toStr = some k := by
      rw [hid]
      exact parseIntStrRadix10_numberToString k hdouble hbound
    have hadd := handleAddLecture_add courses selected newLecture today k hparse hno htopic
    refine ⟨hadd, fun _ => ⟨rfl, rfl⟩, ?_, ?_⟩
    · intro hnum
      obtain ⟨m, hm⟩ := mathMax0_of_numeric _ hnum
      rw [hadd, hm]
      rfl
    · intro item i hi hd
      exact map_if_eq_updateAt _ k courses i selected hd hi hid

/-- Witness of the amended C25: a third lecture for the first placeholder course. -/
theorem add_lecture_validation_and_append_witness :
    LecturesComponent.handleAddLecture LecturesComponent.dummyData
        LecturesComponent.dummyData.head? none LecturesComponent.sampleForm "2025-01-02" =
      (LecturesComponent.mathMax0
        (LecturesComponent.lectureIds LecturesComponent.dummyData)).map (fun m =>
        { courses := LecturesComponent.dummyData.map fun course =>
            if course.id.strictEq (.num 1) then
              LecturesComponent.appendLecture course
                (LecturesComponent.newLectureItem (toDouble (m + 1)) 1
                  LecturesComponent.sampleForm "2025-01-02")
            else course
          alert := some "Lecture \"Hash functions\" added successfully" }) ∧
    (LecturesComponent.handleAddLecture LecturesComponent.dummyData
        LecturesComponent.dummyData.head? none LecturesComponent.sampleForm "2025-01-02").map
      (fun o => o.courses.map (fun c => (c.lectures.getD []).map (·.id)))
      = some [[.num 1, .num 2, .num 4], [.num 3]] :=
  ⟨((add_lecture_validation_and_append LecturesComponent.dummyData
      LecturesComponent.dummyData.head? none LecturesComponent.sampleForm "2025-01-02").2
      _ 1 rfl rfl rfl (by decide) (by decide) rfl rfl).1,
    by decide⟩

/-- C29, as stated, fails: in a state whose course id and lecture id are `2 ^ 53`,
numbers both, the new course gets the id `2 ^ 53` again, because `2 ^ 53 + 1` is not a
double and rounds to `2 ^ 53`, and so does the new lecture; the ids are pairwise
distinct before the add and repeated after it. -/
theorem client_id_repeats_at_two_pow_53 :
    LecturesComponent.saturatedState.map (·.id) = [.num 9007199254740992] ∧
    (LecturesComponent.handleAddCourse LecturesComponent.saturatedState none
        ⟨.str "Lattices", .str ""⟩).map (fun o => o.courses.map (·.id))
      = some [.num 9007199254740992, .num 9007199254740992] ∧
    LecturesComponent.lectureIds LecturesComponent.saturatedState
      = [.num 9007199254740992] ∧
    (LecturesComponent.handleAddLecture LecturesComponent.saturatedState
        LecturesComponent.saturatedState.head? none LecturesComponent.sampleForm
        "2025-01-02").map (fun o => LecturesComponent.lectureIds o.courses)
      = some [.num 9007199254740992, .num 9007199254740992] := by
  decide

/-- C29, amended.  In a courses state whose ids are integers below `2 ^ 53`, the id
`handleAddCourse` gives a new course is the maximum of the course ids and 0, plus 1,
hence greater than every course id, and the id `handleAddLecture` gives a new lecture
is the maximum of the lecture ids of all courses and 0, plus 1, hence greater than
every lecture id; pairwise distinct ids stay pairwise distinct, and an add with no
ids yet gives 1. -/
theorem client_ids_stay_unique (courses : List CourseItem)
    (hcourses : ∀ c ∈ courses, ∃ n : Int, c.id = Prim.num n ∧ n < 9007199254740992)
    (hlectures : ∀ p ∈ LecturesComponent.lectureIds courses,
      ∃ n : Int, p = Prim.num n ∧ n < 9007199254740992) :
    (∃ m : Int,
      0 ≤ m ∧ (m = 0 ∨ Prim.num m ∈ courses.map (·.id)) ∧
      (∀ newCourse : CourseForm,
        LecturesComponent.handleAddCourse courses none newCourse =
          some
            { courses := courses ++
                [{ id := .num (m + 1), name := newCourse.name,
                   description := newCourse.description, lectures := some [] }]
              alert := some "Course added successfully" }) ∧
      (∀ c ∈ courses, ∀ n : Int, c.id = Prim.num n → n < m + 1) ∧
      ((courses.map (·.id)).Nodup → (courses.map (·.id) ++ [Prim.num (m + 1)]).Nodup) ∧
      (courses = [] → m + 1 = 1)) ∧
    (∃ m : Int,
      0 ≤ m ∧ (m = 0 ∨ Prim.num m ∈ LecturesComponent.lectureIds courses) ∧
      (∀ (selected : CourseItem) (k : Int) (newLecture : LectureForm) (today : String),
        parseIntStrRadix10 selected.id.toStr = some k →
        newLecture.lectureNo.truthy = true → newLecture.topic.truthy = true →
        LecturesComponent.handleAddLecture courses (some selected) none newLecture today =
          some
            { courses := courses.map fun course =>
                if course.id.strictEq (.num k) then
                  LecturesComponent.appendLecture course
                    (LecturesComponent.newLectureItem (m + 1) k newLecture today)
                else course
              alert := some
                ("Lecture \"" ++ newLecture.topic.toStr ++ "\" added successfully") } ∧
        (LecturesComponent.newLectureItem (m + 1) k newLecture today).id = .num (m + 1) ∧
        ((courses.map (·.id)).Nodup → (LecturesComponent.lectureIds courses).Nodup →
          (LecturesComponent.lectureIds (courses.map fun course =>
            if course.id.strictEq (.num k) then
              LecturesComponent.appendLecture course
                (LecturesComponent.newLectureItem (m + 1) k newLecture today)
            else course)).Nodup)) ∧
      (∀ n : Int, Prim.num n ∈ LecturesComponent.lectureIds courses → n < m + 1) ∧
      (LecturesComponent.lectureIds courses = [] → m + 1 = 1)) := by
  constructor
  · obtain ⟨m, hm⟩ := mathMax0_of_numeric (courses.map (·.id)) (by
      intro p hp
      obtain ⟨c, hc, rfl⟩ := List.mem_map.1 hp
      obtain ⟨n, hn, _⟩ := hcourses c hc
      exact ⟨n, hn⟩)
    obtain ⟨h0, hle, hmem⟩ := mathMax0_spec _ m hm
    have hsafe : m < 9007199254740992 := by
      rcases hmem with h | h
      · omega
      · obtain ⟨c, hc, hid⟩ := List.mem_map.1 h
        obtain ⟨n, hn, hlt⟩ := hcourses c hc
        have hid' : c.id = Prim.num m := hid
        rw [hid'] at hn
        have : m = n := Prim.num.inj hn
        omega
    refine ⟨m, h0, hmem, ?_, ?_, ?_, ?_⟩
    · intro newCourse
      simp [LecturesComponent.handleAddCourse, hm, toDouble_succ m h0 hsafe]
    · intro c hc n hn
      have := hle n (by rw [← hn]; exact List.mem_map_of_mem _ hc)
      omega
    · intro hd
      exact nodup_append_fresh _ m hd hle
    · intro he
      subst he
      simp only [List.map_nil, LecturesComponent.mathMax0, Option.some.injEq] at hm
      omega
  · obtain ⟨m, hm⟩ := mathMax0_of_numeric _ (fun p hp => by
      obtain ⟨n, hn, _⟩ := hlectures p hp
      exact ⟨n, hn⟩)
    obtain ⟨h0, hle, hmem⟩ := mathMax0_spec _ m hm
    have hsafe : m < 9007199254740992 := by
      rcases hmem with h | h
      · omega
      · obtain ⟨n, hn, hlt⟩ := hlectures _ h
        have : m = n := Prim.num.inj hn
        omega
    refine ⟨m, h0, hmem, ?_, ?_, ?_⟩
    · intro selected k newLecture today hparse hno htopic
      refine ⟨?_, rfl, ?_⟩
      · rw [handleAddLecture_add courses selected newLecture today k hparse hno htopic, hm,
          Option.map_some', toDouble_succ m h0 hsafe]
      · intro hdc hdl
        rcases lectureIds_map_append
          (LecturesComponent.newLectureItem (m + 1) k newLecture today) k courses hdc with h | h
        · rw [h]; exact hdl
        · exact h.nodup_iff.2 (nodup_append_fresh _ m hdl hle)
    · intro n hn
      have := hle n hn
      omega
    · intro he
      rw [he] at hm
      simp only [LecturesComponent.mathMax0, Option.some.injEq] at hm
      omega

/-- Witness of the amended C29: the placeholder courses get course id 3 and lecture
id 4. -/
theorem client_ids_stay_unique_witness :
    (∃ m : Int, m + 1 = 3 ∧
      LecturesComponent.handleAddCourse LecturesComponent.dummyData none
          ⟨.str "Lattices", .str ""⟩ =
        some
          { courses := LecturesComponent.dummyData ++
              [{ id := .num (m + 1), name := .str "Lattices", description := .str "",
                 lectures := some [] }]
            alert := some "Course added successfully" }) ∧
    (LecturesComponent.handleAddLecture LecturesComponent.dummyData
        LecturesComponent.dummyData.head? none LecturesComponent.sampleForm "2025-01-02").map
      (fun o => LecturesComponent.lectureIds o.courses)
      = some [.num 1, .num 2, .num 4, .num 3] := by
  obtain ⟨⟨m, _, _, hadd, _, _, _⟩, _⟩ :=
    client_ids_stay_unique LecturesComponent.dummyData
      (by
        intro c hc
        have h : LecturesComponent.dummyData.map (·.id) = [.num 1, .num 2] := by decide
        have hc' : c.id ∈ LecturesComponent.dummyData.map (·.id) := List.mem_map_of_mem _ hc
        rw [h] at hc'
        simp only [List.mem_cons, List.mem_singleton, List.not_mem_nil, or_false] at hc'
        rcases hc' with h | h
        · exact ⟨1, h, by decide⟩
        · exact ⟨2, h, by decide⟩)
      (by
        intro p hp
        have h : LecturesComponent.lectureIds LecturesComponent.dummyData
            = [.num 1, .num 2, .num 3] := by decide
        rw [h] at hp
        simp only [List.mem_cons, List.mem_singleton, List.not_mem_nil, or_false] at hp
        rcases hp with rfl | rfl | rfl
        · exact ⟨1, rfl, by decide⟩
        · exact ⟨2, rfl, by decide⟩
        · exact ⟨3, rfl, by decide⟩)
  have hm := hadd ⟨.str "Lattices", .str ""⟩
  have hconcrete : LecturesComponent.handleAddCourse LecturesComponent.dummyData none
      ⟨.str "Lattices", .str ""⟩ =
      some
        { courses := LecturesComponent.dummyData ++
            [{ id := .num 3, name := .str "Lattices", description := .str "",
               lectures := some [] }]
          alert := some "Course added successfully" } := by decide
  have h3 : m + 1 = 3 := by
    rw [hconcrete] at hm
    simp only [Option.some.injEq, LecturesOutcome.mk.injEq, and_true] at hm
    have := List.append_cancel_left hm
    simp only [List.cons.injEq, CourseItem.mk.injEq, Prim.num.injEq, and_true] at this
    omega
  exact ⟨⟨m, h3, hm⟩, by decide⟩

end CRM
